import Mathlib

/-!
# TaskFlow API: authorization, scoping and credential lifecycle

A shallow embedding of the request handlers of the TaskFlow backend
(`src/backend/controllers`, `src/backend/middleware`, `src/backend/models`).

Conventions of the embedding:

* the MongoDB collections are lists of documents (`Store`), in insertion order;
* a handler is a pure function of the store, the authenticated caller
  (`req.user`), the request and, where the code reads them, the clock
  (`Date.now()`, milliseconds) and a fresh `ObjectId`; it returns the new store
  together with either the response or the error that was thrown;
* the libraries the code calls (Mongoose, jsonwebtoken, validator.js) are
  represented by small definitions named after the library call; hashing,
  regular expressions and the token codec are the fields of `Lib`;
* ids of stored documents are unique within a collection, as MongoDB enforces.
-/

namespace TaskFlow

/-! ## Identifiers -/

/-- A MongoDB `ObjectId`; `hex` is its canonical rendering (`toString()`, the
Mongoose `id` virtual), 24 lower-case hexadecimal digits. -/
structure ObjectId where
  hex : String
deriving DecidableEq, Repr

/-- Hexadecimal digit in either case. -/
def isHexChar (c : Char) : Bool :=
  c.isDigit || (decide ('a' ≤ c) && decide (c ≤ 'f')) || (decide ('A' ≤ c) && decide (c ≤ 'F'))

/-- Mongoose cast of a request string to an `ObjectId`: a string of 24
hexadecimal digits, upper or lower case, denotes the id whose canonical
rendering is the lower-cased string; anything else is a `CastError` (`none`). -/
def castObjectId (s : String) : Option ObjectId :=
  if s.data.length = 24 ∧ s.data.all isHexChar = true then
    some ⟨String.mk (s.data.map Char.toLower)⟩
  else none

/-- JavaScript truthiness of an optional string (`undefined` and `''` are falsy). -/
def truthy (s : Option String) : Bool :=
  match s with
  | some v => decide (v ≠ "")
  | none => false

/-! ## Documents and the store -/

/-- User document (`models/User.js`). `password` is the stored hash; `isActive`
is `none` when the stored value is `null`; times are milliseconds. -/
structure User where
  _id : ObjectId
  name : String
  email : String
  password : String
  role : String
  isActive : Option Bool
  lastLogin : Option Int
  passwordChangedAt : Option Int
  createdAt : Int
  updatedAt : Int
deriving DecidableEq, Repr

/-- Task document (`models/Task.js`). -/
structure Task where
  _id : ObjectId
  title : String
  description : String
  status : String
  priority : String
  dueDate : Option Int
  tags : List String
  user : ObjectId
  createdBy : ObjectId
  completedAt : Option Int
  createdAt : Int
  updatedAt : Int
deriving DecidableEq, Repr

/-- The two collections. -/
structure Store where
  users : List User
  tasks : List Task
deriving DecidableEq, Repr

/-- The `id` virtual of a user document: `this._id.toString()`. -/
def User.id (u : User) : String := u._id.hex

/-- Model of `User.findById` on an already cast id. -/
def Store.findUser (st : Store) (i : ObjectId) : Option User :=
  st.users.find? (fun u => decide (u._id = i))

/-- Model of `Task.findById` on an already cast id. -/
def Store.findTask (st : Store) (i : ObjectId) : Option Task :=
  st.tasks.find? (fun t => decide (t._id = i))

/-! ## Errors and library oracles -/

/-- What a handler can throw. `api` is `ApiError` (`utils/errorHandler.js`),
the others are the errors raised by Mongoose, by jsonwebtoken, by the
JavaScript runtime or (`serverError`, `duplicateKey`) by the MongoDB server. -/
inductive Err where
  | api (statusCode : Nat) (message : String)
  | castError (path : String) (value : String)
  | validationError (path : String)
  | duplicateKey (field : String)
  | typeError (message : String)
  | jsonWebTokenError (message : String)
  | tokenExpiredError
  | serverError (message : String)
deriving DecidableEq, Repr

deriving instance DecidableEq for Except

namespace ApiError

def badRequest (message : String) : Err := .api 400 message
def unauthorized (message : String) : Err := .api 401 message
def forbidden (message : String) : Err := .api 403 message
def notFound (message : String) : Err := .api 404 message
def conflict (message : String) : Err := .api 409 message

end ApiError

/-- The thrown error is an `ApiError` with status 403. -/
def Err.isForbidden (e : Err) : Bool :=
  match e with
  | .api code _ => code == 403
  | _ => false

/-- Claims of a session token: the payload of `generateAuthToken` together with
the registered claims added by `jwt.sign`. `iat` and `exp` are in seconds. -/
structure JwtPayload where
  id : ObjectId
  email : String
  role : String
  iat : Int
  exp : Int
  iss : String
  aud : String
deriving DecidableEq, Repr

/-- What a token string denotes: either nothing a JWT decoder accepts, or a
payload signed with some key. -/
inductive Token where
  | malformed
  | signed (key : String) (payload : JwtPayload)
deriving DecidableEq, Repr

/-- Library functions whose internals are outside the repository. -/
structure Lib where
  /-- Decoding of a compact token string. -/
  jwtParse : String → Token
  /-- Encoding performed by `jwt.sign` with the given key. -/
  jwtSign : String → JwtPayload → String
  /-- Whether the MongoDB server accepts the string as a regular expression. -/
  regexValid : String → Bool
  /-- MongoDB `{ $regex: pattern, $options: 'i' }` applied to a string field,
  for a pattern the server accepts. -/
  regexI : String → String → Bool
  /-- The `match` regular expression of the `email` path of the user schema. -/
  emailMatch : String → Bool
  /-- The call `bcrypt.hash(password, salt)`. -/
  bcryptHash : String → String → String
  /-- The call `bcrypt.compare(candidate, hash)`. -/
  bcryptCompare : String → String → Bool

/-! ## Listing tasks (`getTasks`) -/

/-- `req.query` of `GET /tasks` as seen by the handler, i.e. after
`paginationValidation` (`page` and `limit` converted by `toInt`). -/
structure TaskQuery where
  page : Option Nat := none
  limit : Option Nat := none
  sortBy : Option String := none
  order : Option String := none
  status : Option String := none
  priority : Option String := none
  search : Option String := none
  tag : Option String := none
  userId : Option String := none
deriving DecidableEq, Repr

/-- A value assigned to an owner condition in the source: either the id of a
loaded document (`req.user.id`, which casts back to `req.user._id`) or a raw
request string that Mongoose still has to cast. -/
inductive OwnerFilter where
  | own (i : ObjectId)
  | raw (s : String)
deriving DecidableEq, Repr

/-- The Mongo filter object built by `getTasks` (`query` in the source). An
absent key is `none`; `tags` is the value of `{ $in: [tag] }`, `search` the
pattern of the `$or` of the two regular expression conditions. -/
structure TaskFilter where
  user : Option OwnerFilter := none
  status : Option String := none
  priority : Option String := none
  tags : Option String := none
  search : Option String := none
deriving DecidableEq, Repr

/-- Lines 17-42 of `taskController.js`: the filter built from caller and query. -/
def buildTaskFilter (caller : User) (q : TaskQuery) : TaskFilter :=
  { user :=
      if caller.role ≠ "admin" then some (.own caller._id)
      else if truthy q.userId then q.userId.map OwnerFilter.raw
      else none
    status := if truthy q.status then q.status else none
    priority := if truthy q.priority then q.priority else none
    tags := if truthy q.tag then q.tag else none
    search := if truthy q.search then q.search else none }

/-- Mongoose cast of the `user` condition; `none` is a `CastError`. -/
def OwnerFilter.cast (o : OwnerFilter) : Option ObjectId :=
  match o with
  | .own i => some i
  | .raw s => castObjectId s

/-- Whether a task document satisfies a filter whose owner condition is cast. -/
def taskMatches (lib : Lib) (owner : Option ObjectId) (f : TaskFilter) (t : Task) : Bool :=
  (match owner with
   | some i => decide (t.user = i)
   | none => true) &&
  (match f.status with
   | some s => decide (t.status = s)
   | none => true) &&
  (match f.priority with
   | some p => decide (t.priority = p)
   | none => true) &&
  (match f.tags with
   | some g => decide (g ∈ t.tags)
   | none => true) &&
  (match f.search with
   | some s => lib.regexI s t.title || lib.regexI s t.description
   | none => true)

/-- Whether the server accepts the search pattern of the filter, if any. -/
def searchAccepted (lib : Lib) (f : TaskFilter) : Bool :=
  match f.search with
  | some s => lib.regexValid s
  | none => true

/-- Model of `Task.find(query)` / the documents counted by
`Task.countDocuments(query)`: a `CastError` when the owner condition cannot be
cast, a server error when the search pattern is not a regular expression,
otherwise the matching documents in collection order. -/
def findTasks (lib : Lib) (st : Store) (f : TaskFilter) : Except Err (List Task) :=
  match (match f.user with
         | none => some none
         | some o => o.cast.map some) with
  | none => .error (.castError "user" (match f.user with
      | some (.raw s) => s
      | some (.own i) => i.hex
      | none => ""))
  | some owner =>
    if searchAccepted lib f then .ok (st.tasks.filter (taskMatches lib owner f))
    else .error (.serverError "Regular expression is invalid")

/-- Value of a sort field in a task document. -/
inductive SortKey where
  | null
  | num (n : Int)
  | str (s : List Char)
deriving DecidableEq, Repr

/-- Lexicographic order on strings by code point (MongoDB's default binary
comparison). -/
def strLe : List Char → List Char → Bool
  | [], _ => true
  | _ :: _, [] => false
  | a :: as, b :: bs => decide (a < b) || (decide (a = b) && strLe as bs)

/-- MongoDB ordering of the values a single sort field can take here: `null`
first, then dates by time, strings by code point. -/
def SortKey.le : SortKey → SortKey → Bool
  | .null, _ => true
  | .num _, .null => false
  | .num a, .num b => decide (a ≤ b)
  | .num _, .str _ => true
  | .str _, .null => false
  | .str _, .num _ => false
  | .str a, .str b => strLe a b

/-- The value of field `sortBy` in a task; a field the document does not have
sorts as `null`. -/
def sortKeyOf (sortBy : String) (t : Task) : SortKey :=
  if sortBy = "createdAt" then .num t.createdAt
  else if sortBy = "updatedAt" then .num t.updatedAt
  else if sortBy = "title" then .str t.title.data
  else if sortBy = "priority" then .str t.priority.data
  else if sortBy = "status" then .str t.status.data
  else if sortBy = "dueDate" then
    (match t.dueDate with
     | some d => .num d
     | none => .null)
  else .null

/-- Model of `.sort({ [sortBy]: sortOrder })`: ascending for `1`, descending
otherwise; ties keep collection order. -/
def sortTasks (sortBy : String) (asc : Bool) (l : List Task) : List Task :=
  if asc then
    l.insertionSort (fun a b => SortKey.le (sortKeyOf sortBy a) (sortKeyOf sortBy b) = true)
  else
    l.insertionSort (fun a b => SortKey.le (sortKeyOf sortBy b) (sortKeyOf sortBy a) = true)

/-- Model of `.limit(n)`: MongoDB treats `0` as no limit. -/
def mongoLimit {α : Type} (n : Nat) (l : List α) : List α :=
  if n = 0 then l else l.take n

/-- The projection `'name email'` of a populated user reference. -/
structure UserRef where
  _id : ObjectId
  name : String
  email : String
deriving DecidableEq, Repr

/-- A task after `.populate('user', 'name email')`: the document, with its
`user` path replaced by `userDoc`, which is `null` (`none`) when no user has
that id. `task.user` still records the stored owner id. -/
structure PopTask where
  task : Task
  userDoc : Option UserRef
deriving DecidableEq, Repr

/-- Model of Mongoose `populate('user', 'name email')` on one document. -/
def populateUser (st : Store) (t : Task) : PopTask :=
  { task := t
    userDoc := (st.findUser t.user).map (fun u => { _id := u._id, name := u.name, email := u.email }) }

/-- The `pagination` block of a paginated response. `totalPages` is
`Math.ceil(total / limit)` for `limit ≥ 1`, which validation guarantees. -/
structure Pagination where
  total : Nat
  page : Nat
  limit : Nat
  totalPages : Nat
  hasNextPage : Bool
  hasPrevPage : Bool
deriving DecidableEq, Repr

/-- Body of `apiResponse.paginated`. -/
structure TaskPage where
  data : List PopTask
  pagination : Pagination
deriving DecidableEq, Repr

/-- Handler `getTasks` (`taskController.js`, lines 5-72). The store is only read. -/
def getTasks (lib : Lib) (st : Store) (caller : User) (q : TaskQuery) : Except Err TaskPage :=
  let page := q.page.getD 1
  let limit := q.limit.getD 10
  let sortBy := q.sortBy.getD "createdAt"
  let order := q.order.getD "desc"
  let query := buildTaskFilter caller q
  let skip := (page - 1) * limit
  let sortOrder := decide (order = "asc")
  match findTasks lib st query with
  | .error e => .error e
  | .ok found =>
    let tasks := (mongoLimit limit ((sortTasks sortBy sortOrder found).drop skip)).map (populateUser st)
    let total := found.length
    let totalPages := (total + limit - 1) / limit
    .ok { data := tasks
          pagination :=
            { total := total
              page := page
              limit := limit
              totalPages := totalPages
              hasNextPage := decide (page < totalPages)
              hasPrevPage := decide (page > 1) } }

/-! ## Single-task handlers (`getTask`, `createTask`, `updateTask`, `deleteTask`) -/

/-- A task after `.populate('user', 'name email').populate('createdBy', 'name email')`. -/
structure TaskView where
  task : Task
  userDoc : Option UserRef
  createdByDoc : Option UserRef
deriving DecidableEq, Repr

/-- The projection `name email` of the user with the given id, `null` if absent. -/
def Store.userRef (st : Store) (i : ObjectId) : Option UserRef :=
  (st.findUser i).map (fun u => { _id := u._id, name := u.name, email := u.email })

/-- Handler `getTask` (`taskController.js`, lines 74-88). `id` is
`req.params.id`. The ownership test reads `task.user._id` of the populated
document, which throws a `TypeError` when the populated value is `null`. -/
def getTask (st : Store) (caller : User) (id : String) : Except Err TaskView :=
  match castObjectId id with
  | none => .error (.castError "_id" id)
  | some i =>
    match st.findTask i with
    | none => .error (ApiError.notFound "Task not found")
    | some t =>
      let task : TaskView :=
        { task := t, userDoc := st.userRef t.user, createdByDoc := st.userRef t.createdBy }
      if caller.role ≠ "admin" then
        match task.userDoc with
        | none => .error (.typeError "Cannot read properties of null (reading _id)")
        | some d =>
          if d._id.hex ≠ caller.id then
            .error (ApiError.forbidden "You do not have permission to access this task")
          else .ok task
      else .ok task

/-- The status values of the task schema. -/
def taskStatuses : List String := ["pending", "in-progress", "completed", "cancelled"]

/-- The priority values of the task schema. -/
def taskPriorities : List String := ["low", "medium", "high", "urgent"]

/-- The hook `taskSchema.pre('save')` (`models/Task.js`, lines 82-89);
`statusModified` is `this.isModified('status')`, `now` the clock. -/
def taskPreSave (statusModified : Bool) (now : Int) (t : Task) : Task :=
  if statusModified && decide (t.status = "completed") then { t with completedAt := some now }
  else if statusModified && decide (t.status ≠ "completed") then { t with completedAt := none }
  else t

/-- `req.body` of `POST /tasks` after `createTaskValidation` (string fields
trimmed, `dueDate` parsed). `completedAt` and `createdBy` stand for keys a
caller may send although the handler never reads them. -/
structure CreateTaskBody where
  title : Option String := none
  description : Option String := none
  status : Option String := none
  priority : Option String := none
  dueDate : Option Int := none
  tags : Option (List String) := none
  userId : Option String := none
  completedAt : Option Int := none
  createdBy : Option String := none
deriving DecidableEq, Repr

/-- Schema validation of a new task document (the validators of
`models/Task.js`); returns the first failing path. -/
def validateNewTask (title : Option String) (status priority : Option String)
    (description : Option String) (tags : Option (List String)) : Option String :=
  match title with
  | none => some "title"
  | some s =>
    if s.length < 3 ∨ 100 < s.length then some "title"
    else if 1000 < (description.getD "").length then some "description"
    else if ¬ (status.getD "pending") ∈ taskStatuses then some "status"
    else if ¬ (priority.getD "medium") ∈ taskPriorities then some "priority"
    else if 10 < (tags.getD []).length then some "tags"
    else none

/-- Handler `createTask` (`taskController.js`, lines 90-111). `newId` is the
`ObjectId` generated for the document, `now` the clock. A successful result is
sent with status 201. -/
def createTask (st : Store) (caller : User) (body : CreateTaskBody) (newId : ObjectId)
    (now : Int) : Store × Except Err Task :=
  let taskUserId : OwnerFilter :=
    if caller.role = "admin" ∧ truthy body.userId = true then .raw (body.userId.getD "")
    else .own caller._id
  match taskUserId.cast with
  | none => (st, .error (.validationError "user"))
  | some owner =>
    match validateNewTask body.title body.status body.priority body.description body.tags with
    | some path => (st, .error (.validationError path))
    | none =>
      if (st.findTask newId).isSome then (st, .error (.duplicateKey "_id"))
      else
        let doc : Task :=
          { _id := newId
            title := body.title.getD ""
            description := body.description.getD ""
            status := body.status.getD "pending"
            priority := body.priority.getD "medium"
            dueDate := body.dueDate
            tags := body.tags.getD []
            user := owner
            createdBy := caller._id
            completedAt := none
            createdAt := now
            updatedAt := now }
        let saved := taskPreSave body.status.isSome now doc
        ({ st with tasks := st.tasks ++ [saved] }, .ok saved)

/-- `req.body` of `PUT /tasks/:id` after `updateTaskValidation`. -/
structure UpdateTaskBody where
  title : Option String := none
  description : Option String := none
  status : Option String := none
  priority : Option String := none
  dueDate : Option Int := none
  tags : Option (List String) := none
  userId : Option String := none
  completedAt : Option Int := none
  createdBy : Option String := none
deriving DecidableEq, Repr

/-- The update document `updates` built by `updateTask` (lines 124-135). -/
structure TaskUpdate where
  title : Option String := none
  description : Option String := none
  status : Option String := none
  priority : Option String := none
  dueDate : Option Int := none
  tags : Option (List String) := none
  user : Option String := none
deriving DecidableEq, Repr

/-- Lines 124-135 of `taskController.js`. -/
def buildTaskUpdate (caller : User) (body : UpdateTaskBody) : TaskUpdate :=
  { title := body.title
    description := body.description
    status := body.status
    priority := body.priority
    dueDate := body.dueDate
    tags := body.tags
    user := if caller.role = "admin" ∧ truthy body.userId = true then body.userId else none }

/-- Update validators run by `runValidators: true`; returns the failing path. -/
def validateTaskUpdate (u : TaskUpdate) : Option String :=
  if (match u.title with
      | some s => decide (s.length < 3 ∨ 100 < s.length)
      | none => false) then some "title"
  else if (match u.description with
      | some s => decide (1000 < s.length)
      | none => false) then some "description"
  else if (match u.status with
      | some s => decide (¬ s ∈ taskStatuses)
      | none => false) then some "status"
  else if (match u.priority with
      | some s => decide (¬ s ∈ taskPriorities)
      | none => false) then some "priority"
  else if (match u.tags with
      | some l => decide (10 < l.length)
      | none => false) then some "tags"
  else none

/-- The document after `$set` of the update; `owner` is the cast `user` key.
Mongoose also sets `updatedAt`. Document middleware (`pre('save')`) does not run
for `findByIdAndUpdate`, so `completedAt` is not touched. -/
def applyTaskUpdate (u : TaskUpdate) (owner : Option ObjectId) (now : Int) (t : Task) : Task :=
  { t with
    title := u.title.getD t.title
    description := u.description.getD t.description
    status := u.status.getD t.status
    priority := u.priority.getD t.priority
    dueDate := match u.dueDate with
      | some d => some d
      | none => t.dueDate
    tags := u.tags.getD t.tags
    user := owner.getD t.user
    updatedAt := now }

/-- Replace the first document satisfying `p` by its image under `f`. -/
def updateFirst {α : Type} (p : α → Bool) (f : α → α) : List α → List α
  | [] => []
  | x :: xs => if p x then f x :: xs else x :: updateFirst p f xs

/-- Handler `updateTask` (`taskController.js`, lines 113-146). -/
def updateTask (st : Store) (caller : User) (id : String) (body : UpdateTaskBody)
    (now : Int) : Store × Except Err PopTask :=
  match castObjectId id with
  | none => (st, .error (.castError "_id" id))
  | some i =>
    match st.findTask i with
    | none => (st, .error (ApiError.notFound "Task not found"))
    | some task =>
      if caller.role ≠ "admin" ∧ task.user.hex ≠ caller.id then
        (st, .error (ApiError.forbidden "You do not have permission to update this task"))
      else
        let updates := buildTaskUpdate caller body
        match (match updates.user with
               | some s => (castObjectId s).map some
               | none => some none) with
        | none => (st, .error (.castError "user" (updates.user.getD "")))
        | some owner =>
          match validateTaskUpdate updates with
          | some path => (st, .error (.validationError path))
          | none =>
            let newDoc := applyTaskUpdate updates owner now task
            let tasks' := updateFirst (fun t => decide (t._id = i)) (fun _ => newDoc) st.tasks
            let st' : Store := { st with tasks := tasks' }
            (st', .ok (populateUser st' newDoc))

/-- Handler `deleteTask` (`taskController.js`, lines 148-164). -/
def deleteTask (st : Store) (caller : User) (id : String) : Store × Except Err Unit :=
  match castObjectId id with
  | none => (st, .error (.castError "_id" id))
  | some i =>
    match st.findTask i with
    | none => (st, .error (ApiError.notFound "Task not found"))
    | some task =>
      if caller.role ≠ "admin" ∧ task.user.hex ≠ caller.id then
        (st, .error (ApiError.forbidden "You do not have permission to delete this task"))
      else
        ({ st with tasks := st.tasks.eraseP (fun t => decide (t._id = i)) }, .ok ())

/-! ## Statistics and bulk update (`getTaskStats`, `bulkUpdateStatus`) -/

/-- Add one to the count of label `k`, appending the label if it is new. -/
def bump (k : String) : List (String × Nat) → List (String × Nat)
  | [] => [(k, 1)]
  | (k', n) :: rest => if k' = k then (k', n + 1) :: rest else (k', n) :: bump k rest

/-- Model of the pipeline stage `{ $group: { _id: '$field', count: { $sum: 1 } } }`
followed by the `reduce` into an object: one entry per label that occurs. -/
def groupCount (labels : List String) : List (String × Nat) :=
  labels.foldl (fun acc k => bump k acc) []

/-- Result of `Task.getStats`. -/
structure TaskStats where
  byStatus : List (String × Nat)
  byPriority : List (String × Nat)
deriving DecidableEq, Repr

/-- Static `getStats` (`models/Task.js`, lines 91-122) on a cast owner id. -/
def getStats (st : Store) (owner : ObjectId) : TaskStats :=
  let mine := st.tasks.filter (fun t => decide (t.user = owner))
  { byStatus := groupCount (mine.map (fun t => t.status))
    byPriority := groupCount (mine.map (fun t => t.priority)) }

/-- Whether a task is counted by the overdue query of `getTaskStats`
(lines 173-177): owner, status not in completed or cancelled, `dueDate < now`. -/
def overdueMatch (owner : ObjectId) (now : Int) (t : Task) : Bool :=
  decide (t.user = owner) &&
  !(decide (t.status = "completed") || decide (t.status = "cancelled")) &&
  (match t.dueDate with
   | some d => decide (d < now)
   | none => false)

/-- Response data of `getTaskStats`. -/
structure TaskStatsResponse where
  byStatus : List (String × Nat)
  byPriority : List (String × Nat)
  overdue : Nat
deriving DecidableEq, Repr

/-- `req.query` of `GET /tasks/stats`. -/
structure StatsQuery where
  userId : Option String := none
deriving DecidableEq, Repr

/-- Handler `getTaskStats` (`taskController.js`, lines 166-183). The
constructor `new mongoose.Types.ObjectId(userId)` throws on a string that is
not an id. -/
def getTaskStats (st : Store) (caller : User) (q : StatsQuery) (now : Int) :
    Except Err TaskStatsResponse :=
  let userId : OwnerFilter :=
    if caller.role = "admin" ∧ truthy q.userId = true then .raw (q.userId.getD "")
    else .own caller._id
  match userId.cast with
  | none => .error (.typeError "input must be a 24 character hex string")
  | some owner =>
    let stats := getStats st owner
    let overdueCount := (st.tasks.filter (overdueMatch owner now)).length
    .ok { byStatus := stats.byStatus, byPriority := stats.byPriority, overdue := overdueCount }

/-- `req.body` of `PATCH /tasks/bulk-status`. `taskIds` is `none` when the key
is missing or its value is not an array. -/
structure BulkBody where
  taskIds : Option (List String) := none
  status : Option String := none
deriving DecidableEq, Repr

/-- Cast every element of `$in`; `none` if one of them is not an id. -/
def castIds : List String → Option (List ObjectId)
  | [] => some []
  | s :: rest =>
    match castObjectId s, castIds rest with
    | some i, some is => some (i :: is)
    | _, _ => none

/-- Response data of `bulkUpdateStatus`. -/
structure BulkResult where
  modifiedCount : Nat
deriving DecidableEq, Repr

/-- Whether a task matches the query of `bulkUpdateStatus` (lines 196-199). -/
def bulkMatch (caller : User) (ids : List ObjectId) (t : Task) : Bool :=
  decide (t._id ∈ ids) && (decide (caller.role = "admin") || decide (t.user = caller._id))

/-- The effect of `updateMany(query, { status })` on one document: query
middleware only, `updatedAt` refreshed by the timestamps option. -/
def bulkApply (caller : User) (ids : List ObjectId) (status : String) (now : Int)
    (t : Task) : Task :=
  if bulkMatch caller ids t then { t with status := status, updatedAt := now } else t

/-- Handler `bulkUpdateStatus` (`taskController.js`, lines 185-208). The
`CastError` of the update carries the first element of `taskIds` that is not an
id. -/
def bulkUpdateStatus (st : Store) (caller : User) (body : BulkBody) (now : Int) :
    Store × Except Err BulkResult :=
  match body.taskIds with
  | none => (st, .error (ApiError.badRequest "Task IDs are required"))
  | some [] => (st, .error (ApiError.badRequest "Task IDs are required"))
  | some (s :: rest) =>
    match body.status with
    | none => (st, .error (ApiError.badRequest "Invalid status value"))
    | some status =>
      if ¬ status ∈ taskStatuses then
        (st, .error (ApiError.badRequest "Invalid status value"))
      else
        match castIds (s :: rest) with
        | none =>
          (st, .error (.castError "_id"
            (((s :: rest).find? (fun x => (castObjectId x).isNone)).getD s)))
        | some ids =>
          let tasks' := st.tasks.map (bulkApply caller ids status now)
          let modified :=
            (st.tasks.filter (fun t => decide (bulkApply caller ids status now t ≠ t))).length
          ({ st with tasks := tasks' }, .ok { modifiedCount := modified })

/-! ## Credentials and tokens (`models/User.js`, `middleware/auth.js`) -/

/-- Process environment read by the code. `jwtExpire` is the span denoted by
`JWT_EXPIRE`, in seconds, when the variable is set. -/
structure Config where
  jwtSecret : String
  jwtExpire : Option Int
deriving DecidableEq, Repr

/-- The span of `process.env.JWT_EXPIRE || '7d'` in seconds. -/
def Config.expiresIn (cfg : Config) : Int := cfg.jwtExpire.getD (7 * 24 * 60 * 60)

/-- Method `changedPasswordAfter` (`models/User.js`, lines 101-110).
`parseInt(ms / 1000, 10)` drops the fractional part, i.e. rounds toward zero. -/
def User.changedPasswordAfter (u : User) (JWTTimestamp : Int) : Bool :=
  match u.passwordChangedAt with
  | some ms =>
    let changedTimestamp := Int.tdiv ms 1000
    decide (JWTTimestamp < changedTimestamp)
  | none => false

/-- The hook `userSchema.pre('save')` (`models/User.js`, lines 66-79).
`passwordModified` is `this.isModified('password')`, `isNew` is `this.isNew`,
`salt` the generated salt and `now` the value of `Date.now()`. -/
def userPreSave (lib : Lib) (passwordModified isNew : Bool) (salt : String) (now : Int)
    (u : User) : User :=
  if !passwordModified then u
  else
    let u1 := { u with password := lib.bcryptHash u.password salt }
    if !isNew then { u1 with passwordChangedAt := some (now - 1000) } else u1

/-- The payload signed by `generateAuthToken` at clock time `t` (milliseconds):
`iat` is `Math.floor(t / 1000)`, `exp` is `iat` plus the configured span. -/
def authPayload (cfg : Config) (u : User) (t : Int) : JwtPayload :=
  { id := u._id
    email := u.email
    role := u.role
    iat := t / 1000
    exp := t / 1000 + cfg.expiresIn
    iss := "taskflow-api"
    aud := "taskflow-client" }

/-- Method `generateAuthToken` (`models/User.js`, lines 85-99). -/
def generateAuthToken (lib : Lib) (cfg : Config) (u : User) (t : Int) : String :=
  lib.jwtSign cfg.jwtSecret (authPayload cfg u t)

/-- Model of `jwt.verify(token, secret, { issuer, audience })` at clock time
`now`: signature, then expiry (`floor(now / 1000) >= exp`), then audience, then
issuer. -/
def jwtVerify (lib : Lib) (token secret issuer audience : String) (now : Int) :
    Except Err JwtPayload :=
  match lib.jwtParse token with
  | .malformed => .error (.jsonWebTokenError "jwt malformed")
  | .signed key p =>
    if key ≠ secret then .error (.jsonWebTokenError "invalid signature")
    else if p.exp ≤ now / 1000 then .error .tokenExpiredError
    else if p.aud ≠ audience then .error (.jsonWebTokenError "jwt audience invalid")
    else if p.iss ≠ issuer then .error (.jsonWebTokenError "jwt issuer invalid")
    else .ok p

/-- JavaScript `s.split(' ')` on the characters of a string. -/
def splitSpace : List Char → List (List Char)
  | [] => [[]]
  | c :: cs =>
    match splitSpace cs with
    | [] => [[c]]
    | w :: ws => if c = ' ' then [] :: w :: ws else (c :: w) :: ws

/-- Lines 7-20 of `middleware/auth.js`: the token taken from the
`Authorization` header. The application installs no cookie parser, so
`req.cookies` is undefined and the cookie branch yields nothing. `none` stands
for a falsy `token`. -/
def bearerToken (authorization : Option String) : Option String :=
  match authorization with
  | none => none
  | some h =>
    if "Bearer".data.isPrefixOf h.data then
      match (splitSpace h.data)[1]? with
      | some (c :: cs) => some (String.mk (c :: cs))
      | _ => none
    else none

/-- Middleware `protect` (`middleware/auth.js`, lines 6-53): the user stored in
`req.user`, or the error passed on. -/
def protect (lib : Lib) (cfg : Config) (st : Store) (authorization : Option String)
    (now : Int) : Except Err User :=
  match bearerToken authorization with
  | none => .error (ApiError.unauthorized "Access denied. No token provided.")
  | some token =>
    match jwtVerify lib token cfg.jwtSecret "taskflow-api" "taskflow-client" now with
    | .error (.jsonWebTokenError _) => .error (ApiError.unauthorized "Invalid token.")
    | .error .tokenExpiredError =>
      .error (ApiError.unauthorized "Token has expired. Please log in again.")
    | .error e => .error e
    | .ok decoded =>
      match st.findUser decoded.id with
      | none =>
        .error (ApiError.unauthorized "User belonging to this token no longer exists.")
      | some user =>
        if user.isActive ≠ some true then
          .error (ApiError.unauthorized "User account has been deactivated.")
        else if user.changedPasswordAfter decoded.iat then
          .error (ApiError.unauthorized "Password recently changed. Please log in again.")
        else .ok user

/-- `req.body` of `PUT /auth/change-password`. -/
structure ChangePasswordBody where
  currentPassword : String
  newPassword : String
deriving DecidableEq, Repr

/-- Handler `changePassword` (`authController.js`, lines 107-125). `now` is the
clock when the document is saved, `tokenTime` the clock when the new token is
signed, `salt` the salt generated by the save hook. -/
def changePassword (lib : Lib) (cfg : Config) (st : Store) (caller : User)
    (body : ChangePasswordBody) (salt : String) (now tokenTime : Int) :
    Store × Except Err String :=
  match st.findUser caller._id with
  | none => (st, .error (.typeError "Cannot read properties of null (reading comparePassword)"))
  | some user =>
    if lib.bcryptCompare body.currentPassword user.password = false then
      (st, .error (ApiError.unauthorized "Current password is incorrect"))
    else
      let modified := decide (body.newPassword ≠ user.password)
      if modified = false then (st, .ok (generateAuthToken lib cfg user tokenTime))
      else if body.newPassword.length < 8 then (st, .error (.validationError "password"))
      else
        let edited := { user with password := body.newPassword }
        let saved := { userPreSave lib modified false salt now edited with updatedAt := now }
        let users' := updateFirst (fun u => decide (u._id = caller._id)) (fun _ => saved) st.users
        ({ st with users := users' }, .ok (generateAuthToken lib cfg saved tokenTime))

/-! ## User administration (`controllers/adminController.js`) -/

/-- The validator.js check `isHexadecimal`: an optional prefix `0x` or `0h`
followed by one or more hexadecimal digits, letters in either case. -/
def isHexadecimal (cs : List Char) : Bool :=
  let digits :=
    match cs with
    | '0' :: c :: rest => if c = 'x' ∨ c = 'X' ∨ c = 'h' ∨ c = 'H' then rest else cs
    | _ => cs
  !digits.isEmpty && digits.all isHexChar

/-- The check `isMongoId` used by `objectIdValidation`
(`middleware/validation.js`, lines 142-146): hexadecimal and of length 24. -/
def isMongoId (s : String) : Bool :=
  isHexadecimal s.data && decide (s.data.length = 24)

/-- A scalar JSON value of a request body. -/
inductive JVal where
  | null
  | bool (b : Bool)
  | num (n : Int)
  | str (s : String)
deriving DecidableEq, Repr

/-- Mongoose cast of a value written to a `Boolean` path: `true`, the strings
true and yes and the number 1 (also as a string) become `true`; `false`, the
strings false and no and the number 0 (also as a string) become `false`; `null`
stays `null`; anything else is a `CastError`. -/
def castBoolean (v : JVal) : Except Err (Option Bool) :=
  match v with
  | .null => .ok none
  | .bool b => .ok (some b)
  | .num n =>
    if n = 1 then .ok (some true) else if n = 0 then .ok (some false)
    else .error (.castError "isActive" "number")
  | .str s =>
    if s = "true" ∨ s = "1" ∨ s = "yes" then .ok (some true)
    else if s = "false" ∨ s = "0" ∨ s = "no" then .ok (some false)
    else .error (.castError "isActive" s)

/-- `req.body` of `PUT /admin/users/:id`; the route validates only the id. -/
structure UpdateUserBody where
  name : Option String := none
  email : Option String := none
  role : Option String := none
  isActive : Option JVal := none
deriving DecidableEq, Repr

/-- The schema setters of `email` (`lowercase`, `trim`), for ASCII letters and
ASCII white space. -/
def normEmail (s : String) : String :=
  let lowered := s.data.map Char.toLower
  String.mk ((lowered.dropWhile Char.isWhitespace).reverse.dropWhile Char.isWhitespace).reverse

/-- The schema setter `trim` of `name`, for ASCII white space. -/
def trimStr (s : String) : String :=
  String.mk ((s.data.dropWhile Char.isWhitespace).reverse.dropWhile Char.isWhitespace).reverse

/-- Model of `User.findOne({ email })`. -/
def Store.findUserByEmail (st : Store) (email : String) : Option User :=
  st.users.find? (fun u => decide (u.email = normEmail email))

/-- Validators run by `findByIdAndUpdate(..., { runValidators: true })` on the
keys of the user update that are defined; returns the failing path. -/
def validateUserUpdate (lib : Lib) (name email role : Option String) : Option String :=
  if (match name with
      | some s => decide ((trimStr s).length < 2 ∨ 50 < (trimStr s).length)
      | none => false) then some "name"
  else if (match email with
      | some s => !lib.emailMatch (normEmail s)
      | none => false) then some "email"
  else if (match role with
      | some r => decide (¬ r ∈ ["user", "admin"])
      | none => false) then some "role"
  else none

/-- Handler `updateUser` (`adminController.js`, lines 78-107). `id` is
`req.params.id`. Keys of the update whose value is `undefined` are not
written. -/
def updateUser (lib : Lib) (st : Store) (caller : User) (id : String)
    (body : UpdateUserBody) (now : Int) : Store × Except Err User :=
  match castObjectId id with
  | none => (st, .error (.castError "_id" id))
  | some i =>
    match st.findUser i with
    | none => (st, .error (ApiError.notFound "User not found"))
    | some user =>
      if id = caller.id ∧ body.isActive = some (.bool false) then
        (st, .error (ApiError.badRequest "You cannot deactivate your own account"))
      else if truthy body.email = true ∧ body.email ≠ some user.email ∧
          (st.findUserByEmail (body.email.getD "")).isSome then
        (st, .error (ApiError.conflict "Email already in use"))
      else
        match (match body.isActive with
               | some v => (castBoolean v).map some
               | none => .ok none) with
        | .error e => (st, .error e)
        | .ok active =>
          match validateUserUpdate lib body.name body.email body.role with
          | some path => (st, .error (.validationError path))
          | none =>
            let email' := (body.email.map normEmail).getD user.email
            if st.users.any (fun u => decide (u._id ≠ i) && decide (u.email = email')) then
              (st, .error (.duplicateKey "email"))
            else
              let updatedUser : User :=
                { user with
                  name := (body.name.map trimStr).getD user.name
                  email := email'
                  role := body.role.getD user.role
                  isActive := active.getD user.isActive
                  updatedAt := now }
              let users' :=
                updateFirst (fun u => decide (u._id = i)) (fun _ => updatedUser) st.users
              ({ st with users := users' }, .ok updatedUser)

/-- Handler `deleteUser` (`adminController.js`, lines 109-126). -/
def deleteUser (st : Store) (caller : User) (id : String) : Store × Except Err Unit :=
  match castObjectId id with
  | none => (st, .error (.castError "_id" id))
  | some i =>
    match st.findUser i with
    | none => (st, .error (ApiError.notFound "User not found"))
    | some _ =>
      if id = caller.id then
        (st, .error (ApiError.badRequest "You cannot delete your own account"))
      else
        let tasks' := st.tasks.filter (fun t => !decide (t.user = i))
        let users' := st.users.eraseP (fun u => decide (u._id = i))
        ({ users := users', tasks := tasks' }, .ok ())

/-- Handler `deactivateUser` (`adminController.js`, lines 180-197). The
document is loaded without its password, so the save hook changes nothing. -/
def deactivateUser (st : Store) (caller : User) (id : String) (now : Int) :
    Store × Except Err Unit :=
  match castObjectId id with
  | none => (st, .error (.castError "_id" id))
  | some i =>
    match st.findUser i with
    | none => (st, .error (ApiError.notFound "User not found"))
    | some user =>
      if id = caller.id then
        (st, .error (ApiError.badRequest "You cannot deactivate your own account"))
      else if user.isActive = some false then (st, .ok ())
      else
        let saved := { user with isActive := some false, updatedAt := now }
        let users' := updateFirst (fun u => decide (u._id = i)) (fun _ => saved) st.users
        ({ st with users := users' }, .ok ())

/-- Handler `activateUser` (`adminController.js`, lines 199-212). -/
def activateUser (st : Store) (id : String) (now : Int) : Store × Except Err Unit :=
  match castObjectId id with
  | none => (st, .error (.castError "_id" id))
  | some i =>
    match st.findUser i with
    | none => (st, .error (ApiError.notFound "User not found"))
    | some user =>
      if user.isActive = some true then (st, .ok ())
      else
        let saved := { user with isActive := some true, updatedAt := now }
        let users' := updateFirst (fun u => decide (u._id = i)) (fun _ => saved) st.users
        ({ st with users := users' }, .ok ())

/-! ## Registration, login and profile (`controllers/authController.js`) -/

/-- The `user` object of the responses of `register`, `login` and
`updateProfile`. -/
structure AuthUser where
  id : String
  name : String
  email : String
  role : String
deriving DecidableEq, Repr

/-- The object literal `{ id: user._id, name: user.name, email: user.email,
role: user.role }` built by `register`, `login` and `updateProfile`. -/
def authUserView (u : User) : AuthUser :=
  { id := u._id.hex, name := u.name, email := u.email, role := u.role }

/-- Response data of `register` and `login`. -/
structure AuthResponse where
  user : AuthUser
  token : String
deriving DecidableEq, Repr

/-- `req.body` of `POST /auth/register` after `registerValidation` (`name` and
`email` sanitised to strings, `password` matched against the password
pattern). `role` is whatever JSON value was sent. -/
structure RegisterBody where
  name : String
  email : String
  password : String
  role : Option JVal := none
deriving DecidableEq, Repr

/-- Schema validation of a new user document (the validators of
`models/User.js`), on the values after the setters; returns the failing path. -/
def validateNewUser (lib : Lib) (name email password : String) : Option String :=
  if (trimStr name).length < 2 ∨ 50 < (trimStr name).length then some "name"
  else if (normEmail email).length = 0 ∨ lib.emailMatch (normEmail email) = false then
    some "email"
  else if password.length < 8 then some "password"
  else none

/-- Handler `register` (`authController.js`, lines 5-35). `newId` is the id
generated for the document, `salt` the salt generated by the save hook, `now`
the clock. A successful result is sent with status 201. -/
def register (lib : Lib) (cfg : Config) (st : Store) (body : RegisterBody)
    (newId : ObjectId) (salt : String) (now : Int) : Store × Except Err AuthResponse :=
  match st.findUserByEmail body.email with
  | some _ => (st, .error (ApiError.conflict "User with this email already exists"))
  | none =>
    let userRole := if body.role = some (.str "admin") then "admin" else "user"
    match validateNewUser lib body.name body.email body.password with
    | some path => (st, .error (.validationError path))
    | none =>
      if st.users.any (fun u => decide (u.email = normEmail body.email)) then
        (st, .error (.duplicateKey "email"))
      else if (st.findUser newId).isSome then (st, .error (.duplicateKey "_id"))
      else
        let doc : User :=
          { _id := newId
            name := trimStr body.name
            email := normEmail body.email
            password := body.password
            role := userRole
            isActive := some true
            lastLogin := none
            passwordChangedAt := none
            createdAt := now
            updatedAt := now }
        let user := userPreSave lib true true salt now doc
        ({ st with users := st.users ++ [user] },
          .ok { user := authUserView user, token := generateAuthToken lib cfg user now })

/-- `req.body` of `POST /auth/login` after `loginValidation`. -/
structure LoginBody where
  email : String
  password : String
deriving DecidableEq, Repr

/-- Static `findByCredentials` (`models/User.js`, lines 112-126): the query
`findOne({ email, isActive: true })`, then the password comparison. -/
def findByCredentials (lib : Lib) (st : Store) (email password : String) : Option User :=
  match st.users.find?
      (fun u => decide (u.email = normEmail email) && decide (u.isActive = some true)) with
  | none => none
  | some user => if lib.bcryptCompare password user.password = false then none else some user

/-- Handler `login` (`authController.js`, lines 37-62). The save of
`lastLogin` runs the save hook with an unmodified password. -/
def login (lib : Lib) (cfg : Config) (st : Store) (body : LoginBody) (now : Int) :
    Store × Except Err AuthResponse :=
  match findByCredentials lib st body.email body.password with
  | none => (st, .error (ApiError.unauthorized "Invalid email or password"))
  | some user =>
    let edited := { user with lastLogin := some now, updatedAt := now }
    let saved := userPreSave lib false false "" now edited
    let users' := updateFirst (fun u => decide (u._id = user._id)) (fun _ => saved) st.users
    ({ st with users := users' },
      .ok { user := authUserView saved, token := generateAuthToken lib cfg saved now })

/-- The `user` object of the response of `getMe`. -/
structure MeUser where
  id : String
  name : String
  email : String
  role : String
  createdAt : Int
  lastLogin : Option Int
deriving DecidableEq, Repr

/-- Handler `getMe` (`authController.js`, lines 64-76). -/
def getMe (st : Store) (caller : User) : Except Err MeUser :=
  match st.findUser caller._id with
  | none => .error (.typeError "Cannot read properties of null (reading _id)")
  | some user =>
    .ok { id := user._id.hex, name := user.name, email := user.email, role := user.role
          createdAt := user.createdAt, lastLogin := user.lastLogin }

/-- `req.body` of `PUT /auth/me`; the route validates nothing. -/
structure ProfileBody where
  name : Option String := none
  email : Option String := none
deriving DecidableEq, Repr

/-- Handler `updateProfile` (`authController.js`, lines 78-105). -/
def updateProfile (lib : Lib) (st : Store) (caller : User) (body : ProfileBody) (now : Int) :
    Store × Except Err AuthUser :=
  if truthy body.email = true ∧ body.email ≠ some caller.email ∧
      (st.findUserByEmail (body.email.getD "")).isSome then
    (st, .error (ApiError.conflict "Email already in use"))
  else
    match validateUserUpdate lib body.name body.email none with
    | some path => (st, .error (.validationError path))
    | none =>
      match st.findUser caller._id with
      | none => (st, .error (.typeError "Cannot read properties of null (reading email)"))
      | some user =>
        let email' := (body.email.map normEmail).getD user.email
        if st.users.any (fun u => decide (u._id ≠ caller._id) && decide (u.email = email')) then
          (st, .error (.duplicateKey "email"))
        else
          let updated : User :=
            { user with
              name := (body.name.map trimStr).getD user.name
              email := email'
              updatedAt := now }
          let users' :=
            updateFirst (fun u => decide (u._id = caller._id)) (fun _ => updated) st.users
          ({ st with users := users' }, .ok (authUserView updated))

/-- The plain object of a user document whose `password` path is loaded: every
stored path and the version key. An unset `passwordChangedAt` has no key. -/
def User.toObject (u : User) : List (String × JVal) :=
  [("_id", .str u._id.hex), ("name", .str u.name), ("email", .str u.email),
   ("password", .str u.password), ("role", .str u.role),
   ("isActive", match u.isActive with
      | some b => .bool b
      | none => .null),
   ("lastLogin", match u.lastLogin with
      | some d => .num d
      | none => .null)] ++
  (match u.passwordChangedAt with
   | some d => [("passwordChangedAt", .num d)]
   | none => []) ++
  [("createdAt", .num u.createdAt), ("updatedAt", .num u.updatedAt), ("__v", .num 0)]

/-- The `toJSON` transform of the user schema (`models/User.js`, lines 52-58):
`delete ret.password; delete ret.__v`. -/
def User.toJSON (u : User) : List (String × JVal) :=
  (u.toObject.filter (fun kv => decide (kv.1 ≠ "password"))).filter
    (fun kv => decide (kv.1 ≠ "__v"))

/-- The store in which the stored password hash of every user `u` is replaced
by `f u`, everything else being equal. Used to state that a response does not
depend on password hashes. -/
def Store.withPasswords (f : User → String) (st : Store) : Store :=
  { st with users := st.users.map (fun u => { u with password := f u }) }

/-! ## Role gate (`middleware/auth.js`, `routes/adminRoutes.js`) -/

/-- Middleware `authorize(...roles)` (`middleware/auth.js`, lines 55-74) on
`req.user`: the error passed to `next`, or `ok` when `next()` is called. -/
def authorize (roles : List String) (reqUser : Option User) : Except Err Unit :=
  match reqUser with
  | none => .error (ApiError.unauthorized "User not authenticated.")
  | some user =>
    if ¬ user.role ∈ roles then
      .error (ApiError.forbidden
        ("Role \x27" ++ user.role ++ "\x27 is not authorized to access this resource."))
    else .ok ()

/-- The middleware chain of `routes/adminRoutes.js` (lines 18-19) in front of
any handler of that router: `protect`, then `authorize('admin')`, then the
handler with the user `protect` stored in `req.user`. -/
def adminRouter {α : Type} (lib : Lib) (cfg : Config) (st : Store)
    (authorization : Option String) (now : Int)
    (handler : User → Store × Except Err α) : Store × Except Err α :=
  match protect lib cfg st authorization now with
  | .error e => (st, .error e)
  | .ok user =>
    match authorize ["admin"] (some user) with
    | .error e => (st, .error e)
    | .ok _ => handler user

/-! ## Request validation of the password change (`middleware/validation.js`) -/

/-- The characters `@$!%*?&` of the password pattern. -/
def passwordSpecials : List Char := ['@', '$', '!', '%', '*', '?', '&']

/-- Line terminators, which `.` does not match in a JavaScript pattern. -/
def isLineTerminator (c : Char) : Bool :=
  decide (c = '\n') || decide (c = '\r') || decide (c.toNat = 0x2028) || decide (c.toNat = 0x2029)

/-- The test of the password pattern of `changePasswordValidation` (line 182):
a lower-case letter, an upper-case letter, a digit and one of `@$!%*?&` on the
first line, and a first character that is a letter, a digit or one of these. -/
def passwordPattern (cs : List Char) : Bool :=
  let line := cs.takeWhile (fun c => !isLineTerminator c)
  line.any Char.isLower && line.any Char.isUpper && line.any Char.isDigit &&
  line.any (fun c => decide (c ∈ passwordSpecials)) &&
  (match cs with
   | c :: _ => c.isAlphanum || decide (c ∈ passwordSpecials)
   | [] => false)

/-- The chain `changePasswordValidation` (`middleware/validation.js`, lines
172-192): whether the request reaches the handler. -/
def changePasswordValidation (body : ChangePasswordBody) : Bool :=
  !body.currentPassword.data.isEmpty && !body.newPassword.data.isEmpty &&
  decide (8 ≤ body.newPassword.data.length) && passwordPattern body.newPassword.data &&
  decide (body.newPassword ≠ body.currentPassword)

/-! ## A regular expression fragment -/

/-- Characters with a special meaning in a regular expression pattern. -/
def regexMeta : List Char :=
  ['\\', '^', '$', '.', '|', '?', '*', '+', '(', ')', '[', ']', '\x7b', '\x7d']

/-- A pattern without special characters. -/
def isPlain (s : String) : Bool := s.data.all (fun c => !decide (c ∈ regexMeta))

/-- Whether a pattern of literal characters and dots matches at the start of
the text, letters compared without regard to case; a dot matches any character
but a line feed. -/
def matchHereI : List Char → List Char → Bool
  | [], _ => true
  | _ :: _, [] => false
  | p :: ps, c :: cs =>
    ((decide (p = '.') && !decide (c = '\n')) || decide (p.toLower = c.toLower)) &&
      matchHereI ps cs

/-- Whether such a pattern matches somewhere in the text: the unanchored search
of `$regex` with option `i`. -/
def searchI (pat : List Char) : List Char → Bool
  | [] => matchHereI pat []
  | c :: cs => matchHereI pat (c :: cs) || searchI pat cs

/-- Whether `s` occurs in `text` as a contiguous substring, letters compared
without regard to case. -/
def containsI (s text : String) : Prop :=
  List.IsInfix (s.data.map Char.toLower) (text.data.map Char.toLower)

/-! ## Reachable states -/

/-- The ids of the stored users. -/
def Store.userIds (st : Store) : List ObjectId := st.users.map (fun u => u._id)

/-- Whether the owner and the creator of every task are ids of stored users. -/
def Store.refsResolve (st : Store) : Bool :=
  st.tasks.all (fun t => decide (t.user ∈ st.userIds) && decide (t.createdBy ∈ st.userIds))

/-- One request handled by the service, as a transition of the store. The caller
of an authenticated route is a stored user (`protect` loads it from the store).
Two side conditions, which the code does not check, are part of the relation:
an administrator who names an owner in `createTask` or `updateTask` names the id
of a stored user, and `deleteUser` is applied only to a user all of whose created
tasks are owned by that user. -/
inductive Step (lib : Lib) (cfg : Config) : Store → Store → Prop where
  | register (st : Store) (body : RegisterBody) (newId : ObjectId) (salt : String) (now : Int) :
      Step lib cfg st (register lib cfg st body newId salt now).1
  | login (st : Store) (body : LoginBody) (now : Int) :
      Step lib cfg st (login lib cfg st body now).1
  | changePassword (st : Store) (caller : User) (body : ChangePasswordBody) (salt : String)
      (now tokenTime : Int) :
      Step lib cfg st (changePassword lib cfg st caller body salt now tokenTime).1
  | updateProfile (st : Store) (caller : User) (body : ProfileBody) (now : Int) :
      Step lib cfg st (updateProfile lib st caller body now).1
  | createTask (st : Store) (caller : User) (body : CreateTaskBody) (newId : ObjectId)
      (now : Int) (hcaller : caller._id ∈ st.userIds)
      (hassign : caller.role = "admin" → truthy body.userId = true →
        ∀ i, castObjectId (body.userId.getD "") = some i → i ∈ st.userIds) :
      Step lib cfg st (createTask st caller body newId now).1
  | updateTask (st : Store) (caller : User) (id : String) (body : UpdateTaskBody) (now : Int)
      (hassign : caller.role = "admin" → truthy body.userId = true →
        ∀ i, castObjectId (body.userId.getD "") = some i → i ∈ st.userIds) :
      Step lib cfg st (updateTask st caller id body now).1
  | deleteTask (st : Store) (caller : User) (id : String) :
      Step lib cfg st (deleteTask st caller id).1
  | bulkUpdateStatus (st : Store) (caller : User) (body : BulkBody) (now : Int) :
      Step lib cfg st (bulkUpdateStatus st caller body now).1
  | updateUser (st : Store) (caller : User) (id : String) (body : UpdateUserBody) (now : Int) :
      Step lib cfg st (updateUser lib st caller id body now).1
  | deactivateUser (st : Store) (caller : User) (id : String) (now : Int) :
      Step lib cfg st (deactivateUser st caller id now).1
  | activateUser (st : Store) (id : String) (now : Int) :
      Step lib cfg st (activateUser st id now).1
  | deleteUser (st : Store) (caller : User) (id : String)
      (hcreated : ∀ i, castObjectId id = some i →
        ∀ t ∈ st.tasks, t.createdBy = i → t.user = i) :
      Step lib cfg st (deleteUser st caller id).1

/-! ## Pagination validation and the user list (`middleware/validation.js`, `controllers/adminController.js`) -/

/-- Raw `req.query` of `GET /tasks`: every value is the string found in the URL,
an absent key is `none`. -/
structure RawTaskQuery where
  page : Option String := none
  limit : Option String := none
  sortBy : Option String := none
  order : Option String := none
  status : Option String := none
  priority : Option String := none
  search : Option String := none
  tag : Option String := none
  userId : Option String := none
deriving DecidableEq, Repr

/-- White space that `parseInt` skips at the start of its argument. -/
def isStrWhiteSpace (c : Char) : Bool :=
  decide (c.toNat ∈ [9, 10, 11, 12, 13, 32, 160, 5760, 8232, 8233, 8239, 8287, 12288, 65279]) ||
  (decide (8192 ≤ c.toNat) && decide (c.toNat ≤ 8202))

/-- Value of a string of decimal digits. -/
def digitsValue (cs : List Char) : Nat :=
  cs.foldl (fun n c => 10 * n + (c.toNat - 48)) 0

/-- JavaScript `parseInt(s, 10)`, which is what the sanitizer `toInt()` applies:
leading white space is skipped, a sign is read, then the longest run of decimal
digits; what follows is ignored. `none` is `NaN`. Values are exact here, whereas
JavaScript rounds integers beyond 2^53. -/
def parseInt (s : String) : Option Int :=
  let cs := s.data.dropWhile isStrWhiteSpace
  let neg := decide (cs.head? = some '-')
  let rest := if cs.head? = some '-' ∨ cs.head? = some '+' then cs.tail else cs
  let ds := rest.takeWhile Char.isDigit
  if ds.isEmpty then none
  else some (if neg then - (digitsValue ds : Int) else (digitsValue ds : Int))

/-- The check `isInt(\x7b min, max \x7d)` on a value already converted by `toInt()`. -/
def isIntBetween (min : Int) (max : Option Int) (v : Option Int) : Bool :=
  match v with
  | none => false
  | some n =>
    decide (min ≤ n) &&
    (match max with
     | some m => decide (n ≤ m)
     | none => true)

/-- Sort fields accepted by `paginationValidation`. -/
def sortFields : List String :=
  ["createdAt", "updatedAt", "title", "priority", "dueDate", "status"]

/-- The chain `paginationValidation` (`middleware/validation.js`, lines 148-170):
the fields that fail, in order. Every check is `optional()`, so an absent key
passes. -/
def paginationValidation (q : RawTaskQuery) : List String :=
  (match q.page with
   | some s => if isIntBetween 1 none (parseInt s) then [] else ["page"]
   | none => []) ++
  (match q.limit with
   | some s => if isIntBetween 1 (some 100) (parseInt s) then [] else ["limit"]
   | none => []) ++
  (match q.sortBy with
   | some s => if s ∈ sortFields then [] else ["sortBy"]
   | none => []) ++
  (match q.order with
   | some s => if s = "asc" ∨ s = "desc" then [] else ["order"]
   | none => [])

/-- The query the handler sees once the sanitizers have run: `page` and `limit`
replaced by the integers `toInt()` produced. -/
def sanitizeQuery (q : RawTaskQuery) : TaskQuery :=
  { page := (q.page.bind parseInt).map Int.toNat
    limit := (q.limit.bind parseInt).map Int.toNat
    sortBy := q.sortBy
    order := q.order
    status := q.status
    priority := q.priority
    search := q.search
    tag := q.tag
    userId := q.userId }

/-- The route `GET /tasks` behind `protect` (`routes/taskRoutes.js`, line 25):
`paginationValidation`, then `validate`, which throws
`ApiError.badRequest('Validation failed', ...)` when a check failed, then
`getTasks`. -/
def getTasksRoute (lib : Lib) (st : Store) (caller : User) (q : RawTaskQuery) :
    Except Err TaskPage :=
  if paginationValidation q ≠ [] then .error (ApiError.badRequest "Validation failed")
  else getTasks lib st caller (sanitizeQuery q)

/-- `req.query` of `GET /admin/users`. The route runs no validation
(`routes/adminRoutes.js`, line 22), so the handler reads the strings of the URL;
`page` and `limit` hold the number such a string denotes, modelled for strings of
decimal digits, on which `parseInt` and the implicit numeric conversions of the
handler agree. -/
structure UserListQuery where
  page : Option Nat := none
  limit : Option Nat := none
  sortBy : Option String := none
  order : Option String := none
  role : Option String := none
  search : Option String := none
  isActive : Option String := none
deriving DecidableEq, Repr

/-- The `pagination` block sent by `getAllUsers`. `totalPages` is `none` when
`Math.ceil(total / limit)` is not a finite number (`limit` zero), which JSON
renders as `null`. -/
structure UserPagination where
  total : Nat
  page : Nat
  limit : Nat
  totalPages : Option Nat
  hasNextPage : Bool
  hasPrevPage : Bool
deriving DecidableEq, Repr

/-- Body of the paginated response of `getAllUsers`. -/
structure UserPage where
  data : List (List (String × JVal))
  pagination : UserPagination
deriving DecidableEq, Repr

/-- Whether a user document satisfies the filter built by `getAllUsers`
(lines 17-33). -/
def userMatches (lib : Lib) (q : UserListQuery) (u : User) : Bool :=
  (if truthy q.role then decide (some u.role = q.role) else true) &&
  (match q.isActive with
   | some s => decide (u.isActive = some (decide (s = "true")))
   | none => true) &&
  (if truthy q.search then
     lib.regexI (q.search.getD "") u.name || lib.regexI (q.search.getD "") u.email
   else true)

/-- The value of field `sortBy` in a user document; a field the document does
not have sorts as `null`, booleans sort `false` before `true`. -/
def userSortKey (sortBy : String) (u : User) : SortKey :=
  if sortBy = "createdAt" then .num u.createdAt
  else if sortBy = "updatedAt" then .num u.updatedAt
  else if sortBy = "_id" then .str u._id.hex.data
  else if sortBy = "name" then .str u.name.data
  else if sortBy = "email" then .str u.email.data
  else if sortBy = "password" then .str u.password.data
  else if sortBy = "role" then .str u.role.data
  else if sortBy = "isActive" then
    (match u.isActive with
     | some b => .num (if b then 1 else 0)
     | none => .null)
  else if sortBy = "lastLogin" then
    (match u.lastLogin with
     | some d => .num d
     | none => .null)
  else if sortBy = "passwordChangedAt" then
    (match u.passwordChangedAt with
     | some d => .num d
     | none => .null)
  else .null

/-- Model of `.sort({ [sortBy]: sortOrder })` on users. -/
def sortUsers (sortBy : String) (asc : Bool) (l : List User) : List User :=
  if asc then
    l.insertionSort (fun a b => SortKey.le (userSortKey sortBy a) (userSortKey sortBy b) = true)
  else
    l.insertionSort (fun a b => SortKey.le (userSortKey sortBy b) (userSortKey sortBy a) = true)

/-- A user as returned by `.lean()`: the stored paths without `password`, which
the schema does not select. -/
def leanUser (u : User) : List (String × JVal) :=
  u.toObject.filter (fun kv => decide (kv.1 ≠ "password"))

/-- Handler `getAllUsers` (`adminController.js`, lines 6-61). A negative `skip`
(page zero with a positive limit) and a search string that is not a regular
expression are refused by the server. -/
def getAllUsers (lib : Lib) (st : Store) (q : UserListQuery) : Except Err UserPage :=
  let page := q.page.getD 1
  let limit := q.limit.getD 10
  let sortBy := q.sortBy.getD "createdAt"
  let order := q.order.getD "desc"
  let skip := (page - 1) * limit
  let sortOrder := decide (order = "asc")
  if truthy q.search = true ∧ lib.regexValid (q.search.getD "") = false then
    .error (.serverError "Regular expression is invalid")
  else if page = 0 ∧ limit ≠ 0 then
    .error (.serverError "skip value must be non-negative")
  else
    let found := st.users.filter (userMatches lib q)
    let users := (mongoLimit limit ((sortUsers sortBy sortOrder found).drop skip)).map leanUser
    let total := found.length
    let totalPages := (total + limit - 1) / limit
    .ok { data := users
          pagination :=
            { total := total
              page := page
              limit := limit
              totalPages := if limit = 0 then none else some totalPages
              hasNextPage := if limit = 0 then decide (0 < total) else decide (page < totalPages)
              hasPrevPage := decide (page > 1) } }

/-! ## The overdue virtual (`models/Task.js`) -/

/-- The virtual `isOverdue` (`models/Task.js`, lines 76-80), read at clock `now`. -/
def Task.isOverdue (t : Task) (now : Int) : Bool :=
  match t.dueDate with
  | none => false
  | some d =>
    if t.status = "completed" ∨ t.status = "cancelled" then false
    else decide (now > d)

/-! ## The error middleware (`middleware/errorMiddleware.js`) -/

/-- An error object reaching `errorHandler`, by the properties the middleware
reads. `statusCode` is `0` and `status` is the empty string when the property is
absent (only their truthiness is tested); `isOperational` is the truthiness of
that property, which in this repository only the constructor of `ApiError`
sets; `errors` is the array of an `ApiError` or the values of the `errors`
object of a Mongoose `ValidationError`, as pairs of field and message;
`keyValue` lists the keys of the `keyValue` object of a duplicate key error. -/
structure ErrorObj where
  name : String := "Error"
  message : String := ""
  stack : String := ""
  statusCode : Nat := 0
  status : String := ""
  isOperational : Bool := false
  code : Option JVal := none
  errors : Option (List (String × String)) := none
  path : Option String := none
  value : Option String := none
  keyValue : Option (List String) := none
deriving DecidableEq, Repr

/-- The object built by `new ApiError(message, statusCode, errors)`
(`utils/errorHandler.js`, lines 1-11). -/
def ApiError.new (message : String) (statusCode : Nat)
    (errors : Option (List (String × String))) : ErrorObj :=
  { name := "Error"
    message := message
    statusCode := statusCode
    status := if (Nat.toDigits 10 statusCode).head? = some '4' then "fail" else "error"
    isOperational := true
    errors := errors }

/-- String interpolation of a property that may be absent. -/
def interpolate (s : Option String) : String := s.getD "undefined"

def handleCastError (err : ErrorObj) : ErrorObj :=
  ApiError.new ("Invalid " ++ interpolate err.path ++ ": " ++ interpolate err.value) 400 none

/-- Reading the keys of an absent `keyValue` throws (`none`). -/
def handleDuplicateKeyError (err : ErrorObj) : Option ErrorObj :=
  match err.keyValue with
  | none => none
  | some keys =>
    some (ApiError.new (interpolate keys.head? ++ " already exists. Please use a different value.")
      409 none)

/-- Reading the values of an absent `errors` throws (`none`). -/
def handleValidationError (err : ErrorObj) : Option ErrorObj :=
  match err.errors with
  | none => none
  | some errors => some (ApiError.new "Validation failed" 400 (some errors))

def handleJWTError : ErrorObj :=
  ApiError.new "Invalid token. Please log in again." 401 none

def handleJWTExpiredError : ErrorObj :=
  ApiError.new "Your token has expired. Please log in again." 401 none

/-- JSON body of an error response; a key that is not sent is `none`. -/
structure ErrorBody where
  success : Bool
  status : String
  message : String
  errors : Option (List (String × String)) := none
  stack : Option String := none
  error : Option ErrorObj := none
deriving DecidableEq, Repr

/-- What the middleware sends. -/
structure ErrorResponse where
  statusCode : Nat
  body : ErrorBody
deriving DecidableEq, Repr

def sendErrorDev (err : ErrorObj) : ErrorResponse :=
  { statusCode := err.statusCode
    body :=
      { success := false
        status := err.status
        message := err.message
        errors := err.errors
        stack := some err.stack
        error := some err } }

def sendErrorProd (err : ErrorObj) : ErrorResponse :=
  if err.isOperational then
    { statusCode := err.statusCode
      body := { success := false, status := err.status, message := err.message, errors := err.errors } }
  else
    { statusCode := 500
      body :=
        { success := false
          status := "error"
          message := "Something went wrong. Please try again later." } }

/-- The middleware `errorHandler` (lines 61-81) for the value `nodeEnv` of
`NODE_ENV` (empty when unset). The copy `\x7b ...err \x7d` keeps every property
that `sendErrorProd` reads, `message` being copied explicitly. `none` means that
the middleware itself threw before sending. -/
def errorHandler (nodeEnv : String) (err0 : ErrorObj) : Option ErrorResponse :=
  let err : ErrorObj :=
    { err0 with
      statusCode := if err0.statusCode = 0 then 500 else err0.statusCode
      status := if err0.status = "" then "error" else err0.status }
  if nodeEnv = "development" then some (sendErrorDev err)
  else
    let error0 : ErrorObj := err
    let error1 : ErrorObj := if err.name = "CastError" then handleCastError err else error0
    match (if err.code = some (.num 11000) then handleDuplicateKeyError err else some error1) with
    | none => none
    | some error2 =>
      match (if err.name = "ValidationError" then handleValidationError err else some error2) with
      | none => none
      | some error3 =>
        let error4 : ErrorObj := if err.name = "JsonWebTokenError" then handleJWTError else error3
        let error5 : ErrorObj :=
          if err.name = "TokenExpiredError" then handleJWTExpiredError else error4
        some (sendErrorProd error5)

/-- The error the MongoDB driver raises when an insert violates the unique
index on `field`. -/
def duplicateKeyError (field : String) (message : String) : ErrorObj :=
  { name := "MongoServerError"
    message := message
    code := some (.num 11000)
    keyValue := some [field] }

/-- The errors the middleware does not classify: not flagged operational and
not recognised by name or by code. -/
def ErrorObj.isUnexpected (err : ErrorObj) : Bool :=
  !err.isOperational && decide (err.name ≠ "CastError") &&
  decide (err.code ≠ some (.num 11000)) && decide (err.name ≠ "ValidationError") &&
  decide (err.name ≠ "JsonWebTokenError") && decide (err.name ≠ "TokenExpiredError")

/-- The fixed response to an unexpected error outside development mode. -/
def genericErrorResponse : ErrorResponse :=
  { statusCode := 500
    body :=
      { success := false
        status := "error"
        message := "Something went wrong. Please try again later." } }

/-! ## Request bodies as key lists (`createTask`, `updateTask`) -/

/-- A JSON value of a request body; `other` stands for an object or an array
that is not an array of strings. -/
inductive BodyVal where
  | null
  | bool (b : Bool)
  | num (n : Int)
  | str (s : String)
  | strs (l : List String)
  | other (json : String)
deriving DecidableEq, Repr

/-- JavaScript truthiness of a JSON value. -/
def BodyVal.truthy (v : BodyVal) : Bool :=
  match v with
  | .null => false
  | .bool b => b
  | .num n => decide (n ≠ 0)
  | .str s => decide (s ≠ "")
  | .strs _ => true
  | .other _ => true

/-- A parsed JSON object as the list of its keys with their values;
`List.lookup` reads a key, `none` being `undefined`. -/
abbrev Body := List (String × BodyVal)

/-- The array `allowedUpdates` of `updateTask` (line 124). -/
def allowedUpdates : List String :=
  ["title", "description", "status", "priority", "dueDate", "tags"]

/-- Lines 124-135 of `taskController.js` on an arbitrary body: the object
`updates` passed to `Task.findByIdAndUpdate`, key by key. -/
def buildUpdates (role : String) (body : Body) : Body :=
  let updates := allowedUpdates.filterMap (fun field => (body.lookup field).map (fun v => (field, v)))
  match body.lookup "userId" with
  | some v => if role = "admin" ∧ v.truthy = true then updates ++ [("user", v)] else updates
  | none => updates

/-- The names destructured from `req.body` by `createTask` (line 91). -/
def createFields : List String :=
  ["title", "description", "status", "priority", "dueDate", "tags"]

/-- Lines 91-106 of `taskController.js` on an arbitrary body: the object passed
to `Task.create`, without the keys whose value is `undefined`. -/
def buildCreateDoc (caller : User) (body : Body) : Body :=
  let taskUserId : BodyVal :=
    match body.lookup "userId" with
    | some v => if caller.role = "admin" ∧ v.truthy = true then v else .str caller.id
    | none => .str caller.id
  createFields.filterMap (fun field => (body.lookup field).map (fun v => (field, v))) ++
    [("user", taskUserId), ("createdBy", .str caller.id)]

/-- One key of an object, present when the value is. -/
def optKey {α : Type} (k : String) (f : α → BodyVal) (v : Option α) : Body :=
  match v with
  | some a => [(k, f a)]
  | none => []

/-- The JSON object a typed body of `PUT /tasks/:id` stands for. -/
def UpdateTaskBody.toBody (b : UpdateTaskBody) : Body :=
  optKey "title" .str b.title ++ optKey "description" .str b.description ++
  optKey "status" .str b.status ++ optKey "priority" .str b.priority ++
  optKey "dueDate" .num b.dueDate ++ optKey "tags" .strs b.tags ++
  optKey "userId" .str b.userId ++ optKey "completedAt" .num b.completedAt ++
  optKey "createdBy" .str b.createdBy

/-- The object a typed update document stands for. -/
def TaskUpdate.toBody (u : TaskUpdate) : Body :=
  optKey "title" .str u.title ++ optKey "description" .str u.description ++
  optKey "status" .str u.status ++ optKey "priority" .str u.priority ++
  optKey "dueDate" .num u.dueDate ++ optKey "tags" .strs u.tags ++
  optKey "user" .str u.user

/-! ## Sample data -/

/-- An administrator. -/
def sampleAdmin : User :=
  { _id := ⟨"64b7f0c2a1d3e4f5a6b7c8d9"⟩, name := "Root", email := "root@x.com"
    password := "h0", role := "admin", isActive := some true, lastLogin := none
    passwordChangedAt := none, createdAt := 1000, updatedAt := 1000 }

/-- A member. -/
def sampleAlice : User :=
  { _id := ⟨"111111111111111111111111"⟩, name := "Alice", email := "a@x.com"
    password := "#Password@123", role := "user", isActive := some true, lastLogin := none
    passwordChangedAt := none, createdAt := 2000, updatedAt := 2000 }

/-- Another member. -/
def sampleBob : User :=
  { _id := ⟨"222222222222222222222222"⟩, name := "Bob", email := "b@x.com"
    password := "h2", role := "user", isActive := some true, lastLogin := none
    passwordChangedAt := none, createdAt := 3000, updatedAt := 3000 }

/-- A task with the given id and owner, otherwise schema defaults. -/
def sampleTask (i owner : String) : Task :=
  { _id := ⟨i⟩, title := "Write spec", description := "", status := "pending"
    priority := "medium", dueDate := none, tags := [], user := ⟨owner⟩
    createdBy := ⟨owner⟩, completedAt := none, createdAt := 5000, updatedAt := 5000 }

/-- A store with the three sample users, one task of Alice and one of Bob. -/
def sampleStore : Store :=
  { users := [sampleAdmin, sampleAlice, sampleBob]
    tasks := [sampleTask "aaaaaaaaaaaaaaaaaaaaaaaa" "111111111111111111111111",
              sampleTask "bbbbbbbbbbbbbbbbbbbbbbbb" "222222222222222222222222"] }

/-- The sample store after the administrator has created a task assigned to
an id that no user has. -/
def ghostStore : Store :=
  (createTask sampleStore sampleAdmin
    { title := some "Write spec", userId := some "999999999999999999999999" }
    ⟨"cccccccccccccccccccccccc"⟩ 6000).1

/-- Environment of the samples: the default token lifetime. -/
def sampleCfg : Config := { jwtSecret := "s3cret", jwtExpire := none }

/-- The payload of the token signed for Alice at clock time 9999 ms. -/
def oldPayload : JwtPayload := authPayload sampleCfg sampleAlice 9999

/-- Library oracles used for evaluation on sample data: search as a plain
equality test, a hash that marks the password, and a token codec that knows
the one token `old`, signed for Alice at 9999 ms. -/
def sampleLib : Lib :=
  { jwtParse := fun s => if s = "old" then .signed "s3cret" oldPayload else .malformed
    jwtSign := fun _ p => if p = oldPayload then "old" else "other"
    regexValid := fun _ => true
    regexI := fun p s => decide (p = s)
    emailMatch := fun _ => true
    bcryptHash := fun p _ => "#" ++ p
    bcryptCompare := fun c h => decide (h = "#" ++ c) }

/-- The administrator's own id written with upper-case hexadecimal digits. -/
def adminIdUpper : String := "64B7F0C2A1D3E4F5A6B7C8D9"

/-- The sample store after Alice has created a task with default status. -/
def createdStore : Store :=
  (createTask sampleStore sampleAlice { title := some "Write spec" }
    ⟨"cccccccccccccccccccccccc"⟩ 6000).1

/-- The store after Alice has then updated the status to completed. -/
def completedStore : Store :=
  (updateTask createdStore sampleAlice "cccccccccccccccccccccccc"
    { status := some "completed" } 7000).1

/-- The store after Alice has then updated the status back to pending. -/
def reopenedStore : Store :=
  (updateTask completedStore sampleAlice "cccccccccccccccccccccccc"
    { status := some "pending" } 8000).1

/-- Alice changes her password at clock time 20000 ms. -/
def afterLateChange : Store × Except Err String :=
  changePassword sampleLib sampleCfg sampleStore sampleAlice
    { currentPassword := "Password@123", newPassword := "Newpass@456" } "salt" 20000 20000

/-- Alice changes her password at clock time 10000 ms. -/
def afterChange : Store × Except Err String :=
  changePassword sampleLib sampleCfg sampleStore sampleAlice
    { currentPassword := "Password@123", newPassword := "Newpass@456" } "salt" 10000 10000

/-- Library oracles whose hash has the shape of a bcrypt hash: the marker of
the algorithm and cost, then the password. -/
def hashLib : Lib :=
  { sampleLib with
    bcryptHash := fun p _ => "$2a$12$" ++ p
    bcryptCompare := fun c h => decide (h = "$2a$12$" ++ c) }

/-- A member whose stored hash is the `hashLib` hash of Password@123. -/
def sampleCarol : User :=
  { _id := ⟨"333333333333333333333333"⟩, name := "Carol", email := "c@x.com"
    password := "$2a$12$Password@123", role := "user", isActive := some true
    lastLogin := none, passwordChangedAt := none, createdAt := 4000, updatedAt := 4000 }

/-- A store with Carol only. -/
def carolStore : Store := { users := [sampleCarol], tasks := [] }

/-- A password change whose new password is the stored hash string itself. -/
def hashAsNewPassword : ChangePasswordBody :=
  { currentPassword := "Password@123", newPassword := "$2a$12$Password@123" }

/-- The body with which the administrator assigns a task to Bob. -/
def assignToBob : CreateTaskBody :=
  { title := some "Write spec", userId := some "222222222222222222222222" }

/-- The task stored by that request at clock time 6000 ms. -/
def assignedTask : Task :=
  { _id := ⟨"cccccccccccccccccccccccc"⟩, title := "Write spec", description := ""
    status := "pending", priority := "medium", dueDate := none, tags := []
    user := ⟨"222222222222222222222222"⟩, createdBy := ⟨"64b7f0c2a1d3e4f5a6b7c8d9"⟩
    completedAt := none, createdAt := 6000, updatedAt := 6000 }

/-- A second administrator. -/
def sampleEve : User :=
  { _id := ⟨"555555555555555555555555"⟩, name := "Eve", email := "e@x.com"
    password := "h5", role := "admin", isActive := some true, lastLogin := none
    passwordChangedAt := none, createdAt := 4500, updatedAt := 4500 }

/-- The sample store with the second administrator. -/
def twoAdminStore : Store := { sampleStore with users := sampleStore.users ++ [sampleEve] }

/-- The first administrator assigns a task to Bob, then the second
administrator deletes the first. -/
def creatorDeletedStore : Store :=
  (deleteUser
    (createTask twoAdminStore sampleAdmin assignToBob ⟨"cccccccccccccccccccccccc"⟩ 6000).1
    sampleEve sampleAdmin.id).1

/-- Library oracles whose regular expression engine is the fragment of
literal characters and dots; other patterns are outside the fragment and are
treated as rejected. -/
def dotRegexLib : Lib :=
  { sampleLib with
    regexValid := fun p => p.data.all (fun c => decide (c = '.') || !decide (c ∈ regexMeta))
    regexI := fun p s => searchI p.data s.data }

/-- A store in which Alice has a pending task due at 1000 ms, a completed one
due at 1000 ms and a pending one due at 9000 ms, and Bob a pending task due at
1000 ms. -/
def dueStore : Store :=
  { users := [sampleAdmin, sampleAlice, sampleBob]
    tasks :=
      [{ sampleTask "aaaaaaaaaaaaaaaaaaaaaaa1" "111111111111111111111111" with
           dueDate := some 1000 },
       { sampleTask "aaaaaaaaaaaaaaaaaaaaaaa2" "111111111111111111111111" with
           dueDate := some 1000, status := "completed", completedAt := some 900 },
       { sampleTask "aaaaaaaaaaaaaaaaaaaaaaa3" "111111111111111111111111" with
           dueDate := some 9000 },
       { sampleTask "bbbbbbbbbbbbbbbbbbbbbbb1" "222222222222222222222222" with
           dueDate := some 1000 }] }

/-- A runtime error raised inside a handler, with its message and stack. -/
def sampleTypeError : ErrorObj :=
  { name := "TypeError"
    message := "Cannot read properties of null (reading \x27_id\x27)"
    stack := "TypeError: Cannot read properties of null\n    at getTask (taskController.js:83:51)" }

/-- A driver error that is not a duplicate key error. -/
def sampleDriverError : ErrorObj :=
  { name := "MongoServerError"
    message := "Regular expression is invalid: missing )"
    code := some (.num 51091) }

/-- The duplicate key error of a second registration with the email of Alice. -/
def sampleDuplicateEmail : ErrorObj :=
  duplicateKeyError "email"
    "E11000 duplicate key error collection: taskflow.users index: email_1 dup key"

/-! ## Theorems -/

/-- Every document in the result of a paged, sorted query is one of the
documents found. -/
theorem mem_page_of_found {sortBy : String} {asc : Bool} {skip limit : Nat}
    {found : List Task} {t : Task}
    (h : t ∈ mongoLimit limit ((sortTasks sortBy asc found).drop skip)) : t ∈ found := by
  have h1 : t ∈ (sortTasks sortBy asc found).drop skip := by
    unfold mongoLimit at h
    split at h
    · exact h
    · exact List.mem_of_mem_take h
  have h2 : t ∈ sortTasks sortBy asc found := List.mem_of_mem_drop h1
  unfold sortTasks at h2
  split at h2
  · exact (List.perm_insertionSort _ _).mem_iff.mp h2
  · exact (List.perm_insertionSort _ _).mem_iff.mp h2

/-- The document returned by a successful lookup has the id looked up. -/
theorem findUser_id {st : Store} {i : ObjectId} {u : User} (h : st.findUser i = some u) :
    u._id = i := by
  have := List.find?_some h
  simpa using this

/-- The document returned by a successful lookup has the id looked up. -/
theorem findTask_id {st : Store} {i : ObjectId} {t : Task} (h : st.findTask i = some t) :
    t._id = i := by
  have := List.find?_some h
  simpa using this

/-- Two ids are equal exactly when their renderings are. -/
theorem hex_ne_iff (a b : ObjectId) : a.hex ≠ b.hex ↔ a ≠ b := by
  cases a; cases b; simp

/-- C1: for a non-admin caller, every task in a page returned by `getTasks` is
owned by the caller (stored owner id and populated owner alike), a page is
returned whenever the search pattern, if any, is one the server accepts, and
the answer is the same whatever `query.userId` the request carries. -/
theorem getTasks_member_scoped (lib : Lib) (st : Store) (caller : User) (q : TaskQuery)
    (hrole : caller.role ≠ "admin") :
    (∀ r, getTasks lib st caller q = .ok r →
      ∀ p ∈ r.data, p.task.user = caller._id ∧ ∀ d, p.userDoc = some d → d._id = caller._id) ∧
    (searchAccepted lib (buildTaskFilter caller q) = true →
      ∃ r, getTasks lib st caller q = .ok r) ∧
    ∀ other : Option String,
      getTasks lib st caller { q with userId := other } = getTasks lib st caller q := by
  have hf : (buildTaskFilter caller q).user = some (.own caller._id) := by
    simp [buildTaskFilter, hrole]
  refine ⟨?_, ?_, ?_⟩
  · intro r hr p hp
    simp only [getTasks, findTasks, hf, OwnerFilter.cast, Option.map_some'] at hr
    split at hr
    · cases hr
    · rename_i found hfound
      split at hfound
      · cases hfound
        cases hr
        simp only [List.mem_map] at hp
        obtain ⟨t, ht, rfl⟩ := hp
        have hmem := mem_page_of_found ht
        rw [List.mem_filter] at hmem
        have := hmem.2
        simp only [taskMatches, Bool.and_eq_true, decide_eq_true_eq] at this
        have hown : t.user = caller._id := this.1.1.1.1
        refine ⟨by simpa [populateUser] using hown, ?_⟩
        intro d hd
        simp only [populateUser, Option.map_eq_some'] at hd
        obtain ⟨u, hu, rfl⟩ := hd
        simpa [hown] using findUser_id hu
      · cases hfound
  · intro hs
    simp only [getTasks, findTasks, hf, OwnerFilter.cast, Option.map_some', hs, if_true]
    exact ⟨_, rfl⟩
  · intro other
    have hb : buildTaskFilter caller { q with userId := other } = buildTaskFilter caller q := by
      simp [buildTaskFilter, hrole]
    simp only [getTasks, hb]

/-- Instance of C1: Alice lists tasks while naming Bob as owner. -/
theorem getTasks_member_scoped_witness :
    (∃ r, getTasks sampleLib sampleStore sampleAlice { userId := some sampleBob.id } = .ok r ∧
      ∀ p ∈ r.data, p.task.user = sampleAlice._id ∧
        ∀ d, p.userDoc = some d → d._id = sampleAlice._id) ∧
    ∀ other : Option String,
      getTasks sampleLib sampleStore sampleAlice
          { ({ userId := some sampleBob.id } : TaskQuery) with userId := other } =
        getTasks sampleLib sampleStore sampleAlice { userId := some sampleBob.id } :=
  have h := getTasks_member_scoped sampleLib sampleStore sampleAlice
    { userId := some sampleBob.id } (by decide)
  ⟨(h.2.1 (by decide)).elim (fun r hr => ⟨r, hr, h.1 r hr⟩), h.2.2⟩

/-- For an existing task, `updateTask` answers 403 exactly when the caller is
not an admin and is not the owner, and then the store is unchanged. -/
theorem updateTask_forbidden_iff (st : Store) (caller : User) (id : String)
    (body : UpdateTaskBody) (now : Int) (i : ObjectId) (t : Task)
    (hid : castObjectId id = some i) (ht : st.findTask i = some t) :
    ((∃ m, (updateTask st caller id body now).2 = .error (.api 403 m)) ↔
      (caller.role ≠ "admin" ∧ t.user ≠ caller._id)) ∧
    ((∃ m, (updateTask st caller id body now).2 = .error (.api 403 m)) →
      (updateTask st caller id body now).1 = st) := by
  by_cases hc : caller.role ≠ "admin" ∧ t.user ≠ caller._id
  · have hc' : caller.role ≠ "admin" ∧ t.user.hex ≠ caller.id := ⟨hc.1, (hex_ne_iff _ _).2 hc.2⟩
    simp [updateTask, hid, ht, hc', hc, ApiError.forbidden]
  · have hc' : ¬ (caller.role ≠ "admin" ∧ t.user.hex ≠ caller.id) := by
      intro h; exact hc ⟨h.1, (hex_ne_iff _ _).1 h.2⟩
    have hno : ¬ ∃ m, (updateTask st caller id body now).2 = .error (.api 403 m) := by
      rintro ⟨m, hm⟩
      simp only [updateTask, hid, ht, hc', if_false] at hm
      split at hm
      · simp at hm
      · split at hm <;> simp at hm
    exact ⟨⟨fun h => absurd h hno, fun h => absurd h hc⟩, fun h => absurd h hno⟩

/-- For an existing task, `deleteTask` answers 403 exactly when the caller is
not an admin and is not the owner, and then the store is unchanged. -/
theorem deleteTask_forbidden_iff (st : Store) (caller : User) (id : String)
    (i : ObjectId) (t : Task)
    (hid : castObjectId id = some i) (ht : st.findTask i = some t) :
    ((∃ m, (deleteTask st caller id).2 = .error (.api 403 m)) ↔
      (caller.role ≠ "admin" ∧ t.user ≠ caller._id)) ∧
    ((∃ m, (deleteTask st caller id).2 = .error (.api 403 m)) →
      (deleteTask st caller id).1 = st) := by
  by_cases hc : caller.role ≠ "admin" ∧ t.user ≠ caller._id
  · have hc' : caller.role ≠ "admin" ∧ t.user.hex ≠ caller.id := ⟨hc.1, (hex_ne_iff _ _).2 hc.2⟩
    simp [deleteTask, hid, ht, hc', hc, ApiError.forbidden]
  · have hc' : ¬ (caller.role ≠ "admin" ∧ t.user.hex ≠ caller.id) := by
      intro h; exact hc ⟨h.1, (hex_ne_iff _ _).1 h.2⟩
    have hno : ¬ ∃ m, (deleteTask st caller id).2 = .error (.api 403 m) := by
      rintro ⟨m, hm⟩
      simp [deleteTask, hid, ht, hc'] at hm
    exact ⟨⟨fun h => absurd h hno, fun h => absurd h hc⟩, fun h => absurd h hno⟩

/-- For an existing task whose owner is a stored user, `getTask` answers 403
exactly when the caller is not an admin and is not the owner. -/
theorem getTask_forbidden_iff_of_owner (st : Store) (caller : User) (id : String)
    (i : ObjectId) (t : Task) (o : User)
    (hid : castObjectId id = some i) (ht : st.findTask i = some t)
    (ho : st.findUser t.user = some o) :
    (∃ m, getTask st caller id = .error (.api 403 m)) ↔
      (caller.role ≠ "admin" ∧ t.user ≠ caller._id) := by
  have hoid : o._id = t.user := findUser_id ho
  by_cases hr : caller.role = "admin"
  · simp [getTask, hid, ht, hr]
  · simp only [getTask, hid, ht, Store.userRef, ho, Option.map_some', hoid, User.id]
    by_cases hu : t.user = caller._id
    · simp [hr, hu]
    · have : t.user.hex ≠ caller._id.hex := (hex_ne_iff _ _).2 hu
      simp [hr, hu, this, ApiError.forbidden]

/-- C2 (failing input): an admin assigns a new task to an id that no user has;
the task exists, Alice is neither admin nor owner, and `getTask` answers her
with a `TypeError` and not with 403, whereas `updateTask` and `deleteTask` on the
same task answer 403. -/
theorem getTask_unresolved_owner_typeError :
    (createTask sampleStore sampleAdmin
        { title := some "Write spec", userId := some "999999999999999999999999" }
        ⟨"cccccccccccccccccccccccc"⟩ 6000).2.isOk = true ∧
    (ghostStore.findTask ⟨"cccccccccccccccccccccccc"⟩).map (fun t => t.user) =
      some ⟨"999999999999999999999999"⟩ ∧
    sampleAlice.role ≠ "admin" ∧
    getTask ghostStore sampleAlice "cccccccccccccccccccccccc" =
      .error (.typeError "Cannot read properties of null (reading _id)") ∧
    (updateTask ghostStore sampleAlice "cccccccccccccccccccccccc" {} 7000).2 =
      .error (.api 403 "You do not have permission to update this task") ∧
    (deleteTask ghostStore sampleAlice "cccccccccccccccccccccccc").2 =
      .error (.api 403 "You do not have permission to delete this task") := by
  refine ⟨by decide, by decide, by decide, by decide, by decide, by decide⟩

/-- A bulk update by a non-admin caller keeps every task of another owner. -/
theorem bulkApply_others_unchanged (caller : User) (ids : List ObjectId) (status : String)
    (now : Int) (hrole : caller.role ≠ "admin") (l : List Task) :
    (l.map (bulkApply caller ids status now)).filter (fun t => decide (t.user ≠ caller._id)) =
      l.filter (fun t => decide (t.user ≠ caller._id)) := by
  induction l with
  | nil => rfl
  | cons t rest ih =>
    simp only [List.map_cons, List.filter_cons, ih]
    by_cases hu : t.user = caller._id
    · have h1 : (bulkApply caller ids status now t).user = caller._id := by
        unfold bulkApply; split <;> simp [hu]
      simp [hu, h1]
    · have h2 : bulkApply caller ids status now t = t := by
        simp [bulkApply, bulkMatch, hrole, hu]
      simp [hu, h2]

/-- C3 (counterexample): Alice, a member, names Bob as owner in `getTaskStats`
and in `createTask`, and lists Bob's task in `bulkUpdateStatus`; each call
succeeds instead of answering 403. -/
theorem member_foreign_owner_not_forbidden :
    sampleAlice.role ≠ "admin" ∧ sampleBob.id ≠ sampleAlice.id ∧
    getTaskStats sampleStore sampleAlice { userId := some sampleBob.id } 9000 =
      .ok { byStatus := [("pending", 1)], byPriority := [("medium", 1)], overdue := 0 } ∧
    ((createTask sampleStore sampleAlice
        { title := some "Write spec", userId := some sampleBob.id }
        ⟨"cccccccccccccccccccccccc"⟩ 6000).2.map (fun t => t.user)) = .ok sampleAlice._id ∧
    (bulkUpdateStatus sampleStore sampleAlice
        { taskIds := some ["bbbbbbbbbbbbbbbbbbbbbbbb"], status := some "completed" } 9000).2 =
      .ok { modifiedCount := 0 } := by
  refine ⟨by decide, by decide, by decide, by decide, by decide⟩

/-- C3 (amended): for a non-admin caller none of `getTaskStats`, `createTask`
and `bulkUpdateStatus` answers 403; an owner named in the request is ignored:
the statistics are those of the caller's own tasks, a created task has the
caller as owner and creator, and a bulk update leaves the tasks of every other
owner unchanged. -/
theorem member_foreign_owner_ignored (st : Store) (caller : User)
    (hrole : caller.role ≠ "admin") :
    (∀ (q : StatsQuery) (now : Int),
      getTaskStats st caller q now =
        .ok { byStatus := (getStats st caller._id).byStatus
              byPriority := (getStats st caller._id).byPriority
              overdue := (st.tasks.filter (overdueMatch caller._id now)).length }) ∧
    (∀ (body : CreateTaskBody) (newId : ObjectId) (now : Int),
      (∀ e, (createTask st caller body newId now).2 = .error e → e.isForbidden = false) ∧
      (∀ t, (createTask st caller body newId now).2 = .ok t →
        t.user = caller._id ∧ t.createdBy = caller._id) ∧
      ∀ other : Option String,
        createTask st caller { body with userId := other } newId now =
          createTask st caller body newId now) ∧
    (∀ (body : BulkBody) (now : Int),
      (∀ e, (bulkUpdateStatus st caller body now).2 = .error e → e.isForbidden = false) ∧
      (bulkUpdateStatus st caller body now).1.users = st.users ∧
      (bulkUpdateStatus st caller body now).1.tasks.filter
          (fun t => decide (t.user ≠ caller._id)) =
        st.tasks.filter (fun t => decide (t.user ≠ caller._id))) := by
  refine ⟨?_, ?_, ?_⟩
  · intro q now
    simp [getTaskStats, hrole, OwnerFilter.cast]
  · intro body newId now
    have hown : ∀ b : CreateTaskBody,
        (if caller.role = "admin" ∧ truthy b.userId = true then OwnerFilter.raw (b.userId.getD "")
         else OwnerFilter.own caller._id) = OwnerFilter.own caller._id := by
      intro b; simp [hrole]
    refine ⟨?_, ?_, ?_⟩
    · intro e he
      simp only [createTask, hown, OwnerFilter.cast] at he
      split at he
      · cases he; rfl
      · split at he
        · cases he; rfl
        · cases he
    · intro t ht
      simp only [createTask, hown, OwnerFilter.cast] at ht
      split at ht
      · cases ht
      · split at ht
        · cases ht
        · cases ht
          constructor <;> (unfold taskPreSave; split <;> [rfl; (split <;> rfl)])
    · intro other
      simp [createTask, hrole, OwnerFilter.cast]
  · intro body now
    refine ⟨?_, ?_, ?_⟩
    · intro e he
      unfold bulkUpdateStatus at he
      split at he
      · cases he; rfl
      · cases he; rfl
      · split at he
        · cases he; rfl
        · split at he
          · cases he; rfl
          · split at he
            · cases he; rfl
            · cases he
    · unfold bulkUpdateStatus
      split
      · rfl
      · rfl
      · split
        · rfl
        · split
          · rfl
          · split <;> rfl
    · unfold bulkUpdateStatus
      split
      · rfl
      · rfl
      · split
        · rfl
        · split
          · rfl
          · split
            · rfl
            · exact bulkApply_others_unchanged caller _ _ now hrole st.tasks

/-- Instance of the amended C3 on the sample store, for Alice. -/
theorem member_foreign_owner_ignored_witness :
    (∀ (q : StatsQuery) (now : Int),
      getTaskStats sampleStore sampleAlice q now =
        .ok { byStatus := (getStats sampleStore sampleAlice._id).byStatus
              byPriority := (getStats sampleStore sampleAlice._id).byPriority
              overdue := (sampleStore.tasks.filter (overdueMatch sampleAlice._id now)).length }) ∧
    (∀ (body : CreateTaskBody) (newId : ObjectId) (now : Int),
      (∀ e, (createTask sampleStore sampleAlice body newId now).2 = .error e →
        e.isForbidden = false) ∧
      (∀ t, (createTask sampleStore sampleAlice body newId now).2 = .ok t →
        t.user = sampleAlice._id ∧ t.createdBy = sampleAlice._id) ∧
      ∀ other : Option String,
        createTask sampleStore sampleAlice { body with userId := other } newId now =
          createTask sampleStore sampleAlice body newId now) ∧
    (∀ (body : BulkBody) (now : Int),
      (∀ e, (bulkUpdateStatus sampleStore sampleAlice body now).2 = .error e →
        e.isForbidden = false) ∧
      (bulkUpdateStatus sampleStore sampleAlice body now).1.users = sampleStore.users ∧
      (bulkUpdateStatus sampleStore sampleAlice body now).1.tasks.filter
          (fun t => decide (t.user ≠ sampleAlice._id)) =
        sampleStore.tasks.filter (fun t => decide (t.user ≠ sampleAlice._id))) :=
  member_foreign_owner_ignored sampleStore sampleAlice (by decide)

/-! ### Credential lifecycle -/

/-- Truncating division by 1000 lies between floor and floor plus one. -/
theorem tdiv_1000_bounds (x : Int) :
    x / 1000 ≤ Int.tdiv x 1000 ∧ Int.tdiv x 1000 ≤ x / 1000 + 1 := by
  rcases Int.le_total 0 x with h | h
  · rw [Int.tdiv_eq_ediv h (by decide)]; omega
  · obtain ⟨y, rfl⟩ : ∃ y : Int, x = -y := ⟨-x, by omega⟩
    have hy : 0 ≤ y := by omega
    rw [Int.neg_tdiv, Int.tdiv_eq_ediv hy (by decide)]
    omega

/-- Replacing the first match by a document that still matches leaves it the
document found. -/
theorem find?_updateFirst {α : Type} (p : α → Bool) (y : α) (hy : p y = true) (l : List α)
    (x : α) (hx : l.find? p = some x) :
    (updateFirst p (fun _ => y) l).find? p = some y := by
  induction l with
  | nil => simp at hx
  | cons a rest ih =>
    by_cases ha : p a = true
    · simp [updateFirst, ha, List.find?_cons, hy]
    · simp only [Bool.not_eq_true] at ha
      simp only [List.find?_cons, ha] at hx
      simp [updateFirst, ha, List.find?_cons, ih hx]

/-- The user document stored by a successful `changePassword` that modified
the password: `passwordChangedAt` is the save time minus 1000 ms. -/
theorem changePassword_saved (lib : Lib) (cfg : Config) (st : Store) (caller : User)
    (body : ChangePasswordBody) (salt : String) (now tokenTime : Int) (user : User)
    (tok : String)
    (hfind : st.findUser caller._id = some user)
    (hmod : body.newPassword ≠ user.password)
    (hok : (changePassword lib cfg st caller body salt now tokenTime).2 = .ok tok) :
    ∃ u', (changePassword lib cfg st caller body salt now tokenTime).1.findUser caller._id =
        some u' ∧
      u'.passwordChangedAt = some (now - 1000) ∧ u'.isActive = user.isActive ∧
      tok = generateAuthToken lib cfg u' tokenTime := by
  have hid : user._id = caller._id := findUser_id hfind
  have hcmp : lib.bcryptCompare body.currentPassword user.password = true := by
    by_contra h
    simp [changePassword, hfind, h] at hok
  have hlen : ¬ body.newPassword.length < 8 := by
    intro h
    simp [changePassword, hfind, hcmp, hmod, h] at hok
  simp only [changePassword, hfind, hcmp, hmod, hlen, ne_eq, not_false_eq_true, decide_True,
    Bool.true_eq_false, if_false] at hok ⊢
  refine ⟨_, find?_updateFirst _ _ (by simp [userPreSave, hid]) _ _ hfind, ?_, ?_, ?_⟩
  · simp [userPreSave]
  · simp [userPreSave]
  · simpa using hok.symm

/-- `protect` answers 401 when the token verifies but the stored user changed
the password after the token was issued. -/
theorem protect_rejects_changed (lib : Lib) (cfg : Config) (st : Store)
    (header : Option String) (v : Int) (s key : String) (p : JwtPayload) (u : User)
    (hs : bearerToken header = some s) (hp : lib.jwtParse s = .signed key p)
    (hu : st.findUser p.id = some u) (hc : u.changedPasswordAfter p.iat = true) :
    ∃ m, protect lib cfg st header v = .error (.api 401 m) := by
  simp only [protect, hs, jwtVerify, hp]
  split_ifs <;> simp [ApiError.unauthorized, hu, hc]
  split_ifs <;> simp

/-- C4 (counterexample): Alice holds a token issued at 9999 ms and changes her
password at 10000 ms, strictly later; the change is stored, yet
`changedPasswordAfter` is false for that token and `protect` still accepts it. -/
theorem recent_token_survives_password_change :
    afterChange.2.isOk = true ∧
    (afterChange.1.findUser sampleAlice._id).map (fun u => u.password) = some "#Newpass@456" ∧
    generateAuthToken sampleLib sampleCfg sampleAlice 9999 = "old" ∧
    (9999 : Int) < 10000 ∧
    (afterChange.1.findUser sampleAlice._id).map
        (fun u => u.changedPasswordAfter oldPayload.iat) = some false ∧
    (protect sampleLib sampleCfg afterChange.1 (some "Bearer old") 10001).map
        (fun u => u._id) = .ok sampleAlice._id := by
  refine ⟨by decide, by decide, by decide, by decide, by decide, by decide⟩

/-- C4 (amended): after a password change saved at clock time `now`, the stored
user rejects exactly the tokens whose `iat` is below the whole seconds of
`now - 1000`; every token of that user issued at a time `t` with
`t + 2000 ≤ now` is among them, and `protect` answers it with 401 at any later
time, expired or not. -/
theorem old_token_rejected_after_change (lib : Lib) (cfg : Config) (st : Store)
    (caller : User) (body : ChangePasswordBody) (salt : String) (now tokenTime : Int)
    (user : User) (tok : String) (header : Option String) (v t : Int) (s key : String)
    (p : JwtPayload)
    (hfind : st.findUser caller._id = some user)
    (hmod : body.newPassword ≠ user.password)
    (hok : (changePassword lib cfg st caller body salt now tokenTime).2 = .ok tok)
    (hs : bearerToken header = some s) (hp : lib.jwtParse s = .signed key p)
    (hpid : p.id = caller._id) (hiat : p.iat = t / 1000) (hold : t + 2000 ≤ now) :
    (∃ u', (changePassword lib cfg st caller body salt now tokenTime).1.findUser caller._id =
        some u' ∧
      (∀ iat, u'.changedPasswordAfter iat = decide (iat < Int.tdiv (now - 1000) 1000)) ∧
      u'.changedPasswordAfter p.iat = true) ∧
    ∃ m, protect lib cfg (changePassword lib cfg st caller body salt now tokenTime).1 header v =
      .error (.api 401 m) := by
  obtain ⟨u', hu', hch, -, -⟩ :=
    changePassword_saved lib cfg st caller body salt now tokenTime user tok hfind hmod hok
  have hall : ∀ iat, u'.changedPasswordAfter iat = decide (iat < Int.tdiv (now - 1000) 1000) := by
    intro iat; simp [User.changedPasswordAfter, hch]
  have hrej : u'.changedPasswordAfter p.iat = true := by
    rw [hall, hiat, decide_eq_true_eq]
    have := (tdiv_1000_bounds (now - 1000)).1
    omega
  refine ⟨⟨u', hu', hall, hrej⟩, ?_⟩
  exact protect_rejects_changed lib cfg _ header v s key p u' hs hp (hpid ▸ hu') hrej

/-- Instance of the amended C4: the token issued to Alice at 9999 ms is refused
after a password change saved at 20000 ms. -/
theorem old_token_rejected_after_change_witness :
    (∃ u', afterLateChange.1.findUser sampleAlice._id = some u' ∧
      (∀ iat, u'.changedPasswordAfter iat = decide (iat < Int.tdiv (20000 - 1000) 1000)) ∧
      u'.changedPasswordAfter oldPayload.iat = true) ∧
    ∃ m, protect sampleLib sampleCfg afterLateChange.1 (some "Bearer old") 20001 =
      .error (.api 401 m) :=
  old_token_rejected_after_change sampleLib sampleCfg sampleStore sampleAlice
    { currentPassword := "Password@123", newPassword := "Newpass@456" } "salt" 20000 20000
    sampleAlice "other" (some "Bearer old") 20001 9999 "old" "s3cret" oldPayload
    (by decide) (by decide) (by decide) (by decide) (by decide) (by decide) (by decide)
    (by decide)

/-- C5: after a password change saved at clock time `now`, `passwordChangedAt`
is `now - 1000`, and `changedPasswordAfter` is false for the `iat` of every
token issued at a time `t ≥ now`, in particular for the token that
`changePassword` returns. -/
theorem fresh_token_not_stale (lib : Lib) (cfg : Config) (st : Store) (caller : User)
    (body : ChangePasswordBody) (salt : String) (now tokenTime : Int) (user : User)
    (tok : String)
    (hfind : st.findUser caller._id = some user)
    (hmod : body.newPassword ≠ user.password)
    (hok : (changePassword lib cfg st caller body salt now tokenTime).2 = .ok tok)
    (hclock : now ≤ tokenTime) :
    ∃ u', (changePassword lib cfg st caller body salt now tokenTime).1.findUser caller._id =
        some u' ∧
      u'.passwordChangedAt = some (now - 1000) ∧
      (∀ t, now ≤ t → u'.changedPasswordAfter (t / 1000) = false) ∧
      tok = generateAuthToken lib cfg u' tokenTime ∧
      u'.changedPasswordAfter (authPayload cfg u' tokenTime).iat = false := by
  obtain ⟨u', hu', hch, -, htok⟩ :=
    changePassword_saved lib cfg st caller body salt now tokenTime user tok hfind hmod hok
  have hall : ∀ t, now ≤ t → u'.changedPasswordAfter (t / 1000) = false := by
    intro t ht
    simp only [User.changedPasswordAfter, hch, decide_eq_false_iff_not]
    have := (tdiv_1000_bounds (now - 1000)).2
    omega
  exact ⟨u', hu', hch, hall, htok, hall tokenTime hclock⟩

/-- Instance of C5: Alice changes her password at 10000 ms and the token
returned is signed at the same instant. -/
theorem fresh_token_not_stale_witness :
    ∃ u', afterChange.1.findUser sampleAlice._id = some u' ∧
      u'.passwordChangedAt = some (10000 - 1000) ∧
      (∀ t, (10000 : Int) ≤ t → u'.changedPasswordAfter (t / 1000) = false) ∧
      "other" = generateAuthToken sampleLib sampleCfg u' 10000 ∧
      u'.changedPasswordAfter (authPayload sampleCfg u' 10000).iat = false :=
  fresh_token_not_stale sampleLib sampleCfg sampleStore sampleAlice
    { currentPassword := "Password@123", newPassword := "Newpass@456" } "salt" 10000 10000
    sampleAlice "other" (by decide) (by decide) (by decide) (by decide)

/-- The errors of `jwtVerify` are the two token errors. -/
theorem jwtVerify_error (lib : Lib) (token secret issuer audience : String) (now : Int)
    (e : Err) (h : jwtVerify lib token secret issuer audience now = .error e) :
    (∃ m, e = .jsonWebTokenError m) ∨ e = .tokenExpiredError := by
  unfold jwtVerify at h
  split at h
  · cases h; exact Or.inl ⟨_, rfl⟩
  · split_ifs at h <;> cases h <;> first | exact Or.inl ⟨_, rfl⟩ | exact Or.inr rfl

/-- Every outcome of `protect`, by the stage at which it is decided. -/
theorem protect_cases (lib : Lib) (cfg : Config) (st : Store) (header : Option String)
    (now : Int) :
    (bearerToken header = none ∧ ∃ m, protect lib cfg st header now = .error (.api 401 m)) ∨
    (∃ s e, bearerToken header = some s ∧
      jwtVerify lib s cfg.jwtSecret "taskflow-api" "taskflow-client" now = .error e ∧
      ∃ m, protect lib cfg st header now = .error (.api 401 m)) ∨
    (∃ s p, bearerToken header = some s ∧
      jwtVerify lib s cfg.jwtSecret "taskflow-api" "taskflow-client" now = .ok p ∧
      st.findUser p.id = none ∧ ∃ m, protect lib cfg st header now = .error (.api 401 m)) ∨
    (∃ s p w, bearerToken header = some s ∧
      jwtVerify lib s cfg.jwtSecret "taskflow-api" "taskflow-client" now = .ok p ∧
      st.findUser p.id = some w ∧
      protect lib cfg st header now =
        if w.isActive ≠ some true then
          .error (ApiError.unauthorized "User account has been deactivated.")
        else if w.changedPasswordAfter p.iat then
          .error (ApiError.unauthorized "Password recently changed. Please log in again.")
        else .ok w) := by
  cases hb : bearerToken header with
  | none =>
    exact Or.inl ⟨rfl, "Access denied. No token provided.",
      by simp only [protect, hb, ApiError.unauthorized]⟩
  | some s =>
    cases hv : jwtVerify lib s cfg.jwtSecret "taskflow-api" "taskflow-client" now with
    | error e =>
      refine Or.inr (Or.inl ⟨s, e, rfl, hv, ?_⟩)
      rcases jwtVerify_error _ _ _ _ _ _ _ hv with ⟨m, rfl⟩ | rfl
      · exact ⟨"Invalid token.", by simp only [protect, hb, hv, ApiError.unauthorized]⟩
      · exact ⟨"Token has expired. Please log in again.",
          by simp only [protect, hb, hv, ApiError.unauthorized]⟩
    | ok p =>
      cases hu : st.findUser p.id with
      | none =>
        exact Or.inr (Or.inr (Or.inl ⟨s, p, rfl, hv, hu,
          "User belonging to this token no longer exists.",
          by simp only [protect, hb, hv, hu, ApiError.unauthorized]⟩))
      | some w =>
        exact Or.inr (Or.inr (Or.inr ⟨s, p, w, rfl, hv, hu, by simp only [protect, hb, hv, hu]⟩))

/-- C6: `protect` stores user `u` in `req.user` exactly when the header carries
a bearer token, `jwt.verify` accepts it for issuer taskflow-api and audience
taskflow-client, `u` is the stored user with the id of the token, `u.isActive`
is true and `changedPasswordAfter(iat)` is false; in every other case it fails
with status 401. `changedPasswordAfter` is false when `passwordChangedAt` is
unset. The user passed on is the stored record, whatever role and email the
token carries. -/
theorem protect_spec (lib : Lib) (cfg : Config) (st : Store) (header : Option String)
    (now : Int) :
    (∀ u, protect lib cfg st header now = .ok u ↔
      ∃ s p, bearerToken header = some s ∧
        jwtVerify lib s cfg.jwtSecret "taskflow-api" "taskflow-client" now = .ok p ∧
        st.findUser p.id = some u ∧ u.isActive = some true ∧
        u.changedPasswordAfter p.iat = false) ∧
    ((∃ u, protect lib cfg st header now = .ok u) ∨
      ∃ m, protect lib cfg st header now = .error (.api 401 m)) ∧
    (∀ (u : User) (iat : Int), u.passwordChangedAt = none → u.changedPasswordAfter iat = false) ∧
    (∀ u, protect lib cfg st header now = .ok u → u ∈ st.users) := by
  have key : ∀ u, protect lib cfg st header now = .ok u ↔
      ∃ s p, bearerToken header = some s ∧
        jwtVerify lib s cfg.jwtSecret "taskflow-api" "taskflow-client" now = .ok p ∧
        st.findUser p.id = some u ∧ u.isActive = some true ∧
        u.changedPasswordAfter p.iat = false := by
    intro u
    rcases protect_cases lib cfg st header now with
      ⟨hb, m, hm⟩ | ⟨s, e, hb, hv, m, hm⟩ | ⟨s, p, hb, hv, hu, m, hm⟩ | ⟨s, p, w, hb, hv, hu, hval⟩
    · constructor
      · intro h; rw [hm] at h; cases h
      · rintro ⟨s', p', hb', -⟩; rw [hb] at hb'; cases hb'
    · constructor
      · intro h; rw [hm] at h; cases h
      · rintro ⟨s', p', hb', hv', -⟩
        rw [hb] at hb'; cases hb'
        rw [hv] at hv'; cases hv'
    · constructor
      · intro h; rw [hm] at h; cases h
      · rintro ⟨s', p', hb', hv', hu', -⟩
        rw [hb] at hb'; cases hb'
        rw [hv] at hv'; cases hv'
        rw [hu] at hu'; cases hu'
    · rw [hval]
      constructor
      · intro h
        by_cases h1 : w.isActive = some true
        · by_cases h2 : w.changedPasswordAfter p.iat = true
          · simp [h1, h2, ApiError.unauthorized] at h
          · rw [if_neg (by simp [h1]), if_neg h2] at h
            cases h
            exact ⟨s, p, hb, hv, hu, h1, by simpa using h2⟩
        · simp [h1, ApiError.unauthorized] at h
      · rintro ⟨s', p', hb', hv', hu', ha', hc'⟩
        rw [hb] at hb'; cases hb'
        rw [hv] at hv'; cases hv'
        rw [hu] at hu'; cases hu'
        simp [ha', hc']
  refine ⟨key, ?_, ?_, ?_⟩
  · rcases protect_cases lib cfg st header now with
      ⟨-, m, hm⟩ | ⟨s, e, -, -, m, hm⟩ | ⟨s, p, -, -, -, m, hm⟩ | ⟨s, p, w, -, -, -, hval⟩
    · exact Or.inr ⟨m, hm⟩
    · exact Or.inr ⟨m, hm⟩
    · exact Or.inr ⟨m, hm⟩
    · rw [hval]
      split_ifs
      · exact Or.inr ⟨_, rfl⟩
      · exact Or.inr ⟨_, rfl⟩
      · exact Or.inl ⟨_, rfl⟩
  · intro u iat h
    simp [User.changedPasswordAfter, h]
  · intro u h
    obtain ⟨s, p, -, -, hu, -, -⟩ := (key u).1 h
    exact List.mem_of_find?_eq_some hu

/-! ### User administration -/

/-- With the caller's id in canonical form, `deleteUser` and `deactivateUser`
refuse with status 400 and leave the store unchanged. -/
theorem admin_self_guard_canonical (st : Store) (caller : User) (now : Int) (u : User)
    (hc : castObjectId caller.id = some caller._id)
    (hu : st.findUser caller._id = some u) :
    deleteUser st caller caller.id =
      (st, .error (.api 400 "You cannot delete your own account")) ∧
    deactivateUser st caller caller.id now =
      (st, .error (.api 400 "You cannot deactivate your own account")) := by
  simp [deleteUser, deactivateUser, hc, hu, ApiError.badRequest]

/-- On an existing target whose request id is not the caller's id string,
`deleteUser` and `deactivateUser` succeed. -/
theorem admin_other_target_succeeds (st : Store) (caller : User) (id : String) (now : Int)
    (i : ObjectId) (u : User)
    (hc : castObjectId id = some i) (hu : st.findUser i = some u) (hne : id ≠ caller.id) :
    (deleteUser st caller id).2 = .ok () ∧ (deactivateUser st caller id now).2 = .ok () := by
  constructor
  · simp [deleteUser, hc, hu, hne]
  · simp only [deactivateUser, hc, hu, hne, if_false]
    split <;> rfl

/-- C7 (failing input): the administrator sends their own id with upper-case
hexadecimal digits. The id passes `isMongoId` and resolves to the caller, yet
`deleteUser` removes the caller and `deactivateUser` clears the caller's
`isActive`; with the id in lower case both calls are refused. -/
theorem admin_self_delete_by_uppercase_id :
    sampleAdmin.role = "admin" ∧ isMongoId adminIdUpper = true ∧
    (castObjectId adminIdUpper).bind sampleStore.findUser = some sampleAdmin ∧
    (deleteUser sampleStore sampleAdmin adminIdUpper).2 = .ok () ∧
    (deleteUser sampleStore sampleAdmin adminIdUpper).1.findUser sampleAdmin._id = none ∧
    (deactivateUser sampleStore sampleAdmin adminIdUpper 9000).2 = .ok () ∧
    ((deactivateUser sampleStore sampleAdmin adminIdUpper 9000).1.findUser sampleAdmin._id).map
        (fun u => u.isActive) = some (some false) ∧
    deleteUser sampleStore sampleAdmin sampleAdmin.id =
      (sampleStore, .error (.api 400 "You cannot delete your own account")) := by
  refine ⟨by decide, by decide, by decide, by decide, by decide, by decide, by decide,
    by decide⟩

/-- With the caller's id in canonical form and `isActive` the boolean `false`,
`updateUser` refuses with status 400 and leaves the store unchanged. -/
theorem updateUser_self_guard_literal (lib : Lib) (st : Store) (caller : User) (now : Int)
    (u : User) (body : UpdateUserBody)
    (hc : castObjectId caller.id = some caller._id)
    (hu : st.findUser caller._id = some u) (hb : body.isActive = some (.bool false)) :
    updateUser lib st caller caller.id body now =
      (st, .error (.api 400 "You cannot deactivate your own account")) := by
  simp [updateUser, hc, hu, hb, ApiError.badRequest]

/-- C8 (failing input): the administrator updates their own user with
`isActive` given as the string false, or with the boolean `false` and the id in
upper case. Both requests succeed and the stored `isActive` of the caller
becomes `false`. -/
theorem admin_self_deactivate_by_updateUser :
    sampleAdmin.role = "admin" ∧ sampleAdmin.isActive = some true ∧
    (castObjectId sampleAdmin.id).bind sampleStore.findUser = some sampleAdmin ∧
    (updateUser sampleLib sampleStore sampleAdmin sampleAdmin.id
        { isActive := some (.str "false") } 9000).2.isOk = true ∧
    ((updateUser sampleLib sampleStore sampleAdmin sampleAdmin.id
        { isActive := some (.str "false") } 9000).1.findUser sampleAdmin._id).map
        (fun u => u.isActive) = some (some false) ∧
    (castObjectId adminIdUpper).bind sampleStore.findUser = some sampleAdmin ∧
    (updateUser sampleLib sampleStore sampleAdmin adminIdUpper
        { isActive := some (.bool false) } 9000).2.isOk = true ∧
    ((updateUser sampleLib sampleStore sampleAdmin adminIdUpper
        { isActive := some (.bool false) } 9000).1.findUser sampleAdmin._id).map
        (fun u => u.isActive) = some (some false) := by
  refine ⟨by decide, by decide, by decide, by decide, by decide, by decide, by decide,
    by decide⟩

/-- Removing the first document with a given key from a list without repeated
keys removes every document with that key. -/
theorem eraseP_eq_filter_of_nodup (i : ObjectId) (l : List User)
    (hnd : (l.map (fun u => u._id)).Nodup) :
    l.eraseP (fun u => decide (u._id = i)) = l.filter (fun u => !decide (u._id = i)) := by
  induction l with
  | nil => rfl
  | cons a rest ih =>
    simp only [List.map_cons, List.nodup_cons] at hnd
    by_cases ha : a._id = i
    · have hrest : rest.filter (fun u => !decide (u._id = i)) = rest := by
        rw [List.filter_eq_self]
        intro u hu
        have : u._id ≠ i := by
          intro h
          exact hnd.1 (List.mem_map.2 ⟨u, hu, by rw [h, ha]⟩)
        simp [this]
      simp [List.eraseP_cons, List.filter_cons, ha, hrest]
    · simp [List.eraseP_cons, List.filter_cons, ha, ih hnd.2]

/-- C9: after a successful `deleteUser` on target id `i`, the task store is the
previous one without the tasks owned by `i` (none of them remains, every task of
another owner is kept), and the user store is the previous one without the user
`i`, so the target is no longer found. -/
theorem deleteUser_cascade (st : Store) (caller : User) (id : String)
    (hnd : (st.users.map (fun u => u._id)).Nodup)
    (hok : (deleteUser st caller id).2 = .ok ()) :
    ∃ i, castObjectId id = some i ∧
      (deleteUser st caller id).1.tasks = st.tasks.filter (fun t => !decide (t.user = i)) ∧
      ((deleteUser st caller id).1.tasks.filter (fun t => decide (t.user = i))).length = 0 ∧
      (∀ t, t.user ≠ i → (t ∈ (deleteUser st caller id).1.tasks ↔ t ∈ st.tasks)) ∧
      (deleteUser st caller id).1.users = st.users.filter (fun u => !decide (u._id = i)) ∧
      (deleteUser st caller id).1.findUser i = none := by
  cases hc : castObjectId id with
  | none => simp [deleteUser, hc] at hok
  | some i =>
    cases hu : st.findUser i with
    | none => simp [deleteUser, hc, hu, ApiError.notFound] at hok
    | some u =>
      by_cases hself : id = caller.id
      · simp only [deleteUser, hc, hu, if_pos hself] at hok
        cases hok
      · have hval : deleteUser st caller id =
            ({ users := st.users.eraseP (fun u => decide (u._id = i))
               tasks := st.tasks.filter (fun t => !decide (t.user = i)) }, .ok ()) := by
          simp [deleteUser, hc, hu, hself]
        rw [hval]
        refine ⟨i, rfl, rfl, ?_, ?_, ?_, ?_⟩
        · simp [List.filter_filter]
        · intro t ht
          simp [List.mem_filter, ht]
        · exact eraseP_eq_filter_of_nodup i st.users hnd
        · simp only [Store.findUser, eraseP_eq_filter_of_nodup i st.users hnd]
          rw [List.find?_eq_none]
          intro x hx
          simp only [List.mem_filter] at hx
          simpa using hx.2

/-- Instance of C9: the administrator deletes Bob from the sample store. -/
theorem deleteUser_cascade_witness :
    ∃ i, castObjectId sampleBob.id = some i ∧
      (deleteUser sampleStore sampleAdmin sampleBob.id).1.tasks =
        sampleStore.tasks.filter (fun t => !decide (t.user = i)) ∧
      ((deleteUser sampleStore sampleAdmin sampleBob.id).1.tasks.filter
        (fun t => decide (t.user = i))).length = 0 ∧
      (∀ t, t.user ≠ i →
        (t ∈ (deleteUser sampleStore sampleAdmin sampleBob.id).1.tasks ↔ t ∈ sampleStore.tasks)) ∧
      (deleteUser sampleStore sampleAdmin sampleBob.id).1.users =
        sampleStore.users.filter (fun u => !decide (u._id = i)) ∧
      (deleteUser sampleStore sampleAdmin sampleBob.id).1.findUser i = none :=
  deleteUser_cascade sampleStore sampleAdmin sampleBob.id (by decide) (by decide)

/-! ### Completion timestamp -/

/-- A successful `updateTask` never changes `completedAt`. -/
theorem updateTask_keeps_completedAt (st : Store) (caller : User) (id : String)
    (body : UpdateTaskBody) (now : Int) (i : ObjectId) (t : Task) (r : PopTask)
    (hid : castObjectId id = some i) (ht : st.findTask i = some t)
    (hok : (updateTask st caller id body now).2 = .ok r) :
    r.task.completedAt = t.completedAt ∧ r.task.status = body.status.getD t.status := by
  simp only [updateTask, hid, ht] at hok
  split at hok
  · cases hok
  · split at hok
    · cases hok
    · split at hok
      · cases hok
      · cases hok
        simp [populateUser, applyTaskUpdate, buildTaskUpdate]

/-- C10 (failing input): Alice creates a task with default status pending and
updates its status to completed. The update succeeds and the stored status is
completed, but the stored `completedAt` is still `null`, although the save hook
applied to the same document would set it. After the update back to pending
`completedAt` is `null`. -/
theorem completedAt_not_set_by_updateTask :
    (createdStore.findTask ⟨"cccccccccccccccccccccccc"⟩).map
        (fun t => (t.status, t.completedAt)) = some ("pending", none) ∧
    (updateTask createdStore sampleAlice "cccccccccccccccccccccccc"
        { status := some "completed" } 7000).2.isOk = true ∧
    (completedStore.findTask ⟨"cccccccccccccccccccccccc"⟩).map
        (fun t => (t.status, t.completedAt)) = some ("completed", none) ∧
    (completedStore.findTask ⟨"cccccccccccccccccccccccc"⟩).map
        (fun t => (taskPreSave true 7000 t).completedAt) = some (some 7000) ∧
    (reopenedStore.findTask ⟨"cccccccccccccccccccccccc"⟩).map
        (fun t => (t.status, t.completedAt)) = some ("pending", none) := by
  refine ⟨by decide, by decide, by decide, by decide, by decide⟩

/-! ### Login and registration -/

/-- With unique emails, `findByCredentials` returns `u` exactly when `u` is the
stored, active user with the given email and the password matches its hash. -/
theorem findByCredentials_eq_some_iff (lib : Lib) (st : Store) (email password : String)
    (u : User) (hemail : (st.users.map (fun u => u.email)).Nodup) :
    findByCredentials lib st email password = some u ↔
      (u ∈ st.users ∧ u.email = normEmail email ∧ u.isActive = some true ∧
        lib.bcryptCompare password u.password = true) := by
  unfold findByCredentials
  constructor
  · intro h
    cases hf : st.users.find?
        (fun u => decide (u.email = normEmail email) && decide (u.isActive = some true)) with
    | none => simp [hf] at h
    | some w =>
      simp only [hf] at h
      split at h
      · cases h
      · cases h
        have hp := List.find?_some hf
        simp only [Bool.and_eq_true, decide_eq_true_eq] at hp
        refine ⟨List.mem_of_find?_eq_some hf, hp.1, hp.2, ?_⟩
        rename_i hc
        simpa using hc
  · rintro ⟨hu, he, ha, hc⟩
    cases hf : st.users.find?
        (fun u => decide (u.email = normEmail email) && decide (u.isActive = some true)) with
    | none =>
      rw [List.find?_eq_none] at hf
      exact absurd (by simp [he, ha]) (hf u hu)
    | some w =>
      have hp := List.find?_some hf
      simp only [Bool.and_eq_true, decide_eq_true_eq] at hp
      have hw : w = u :=
        List.inj_on_of_nodup_map hemail (List.mem_of_find?_eq_some hf) hu (by rw [hp.1, he])
      subst hw
      simp [hc]

/-- The response of `login` for the user returned by `findByCredentials`. -/
theorem login_of_found (lib : Lib) (cfg : Config) (st : Store) (body : LoginBody) (now : Int)
    (u : User) (h : findByCredentials lib st body.email body.password = some u) :
    (login lib cfg st body now).2 =
      .ok { user := authUserView u, token := generateAuthToken lib cfg u now } := by
  simp [login, h, userPreSave, authUserView, generateAuthToken, authPayload]

/-- C11: with unique emails in the user store, `login` succeeds exactly when a
stored user has the given email, is active and the supplied password matches its
hash, and then answers with that identity and a token for it; in every other
case `findByCredentials` returns `null` and `login` fails with status 401 and
the message Invalid email or password, leaving the store unchanged. -/
theorem login_spec (lib : Lib) (cfg : Config) (st : Store) (body : LoginBody) (now : Int)
    (hemail : (st.users.map (fun u => u.email)).Nodup) :
    ((∃ r, (login lib cfg st body now).2 = .ok r) ↔
      ∃ u ∈ st.users, u.email = normEmail body.email ∧ u.isActive = some true ∧
        lib.bcryptCompare body.password u.password = true) ∧
    (∀ u ∈ st.users, u.email = normEmail body.email → u.isActive = some true →
        lib.bcryptCompare body.password u.password = true →
      (login lib cfg st body now).2 =
        .ok { user := authUserView u, token := generateAuthToken lib cfg u now }) ∧
    ((¬ ∃ u ∈ st.users, u.email = normEmail body.email ∧ u.isActive = some true ∧
        lib.bcryptCompare body.password u.password = true) →
      findByCredentials lib st body.email body.password = none ∧
      login lib cfg st body now = (st, .error (.api 401 "Invalid email or password"))) := by
  have hsucc : ∀ u ∈ st.users, u.email = normEmail body.email → u.isActive = some true →
      lib.bcryptCompare body.password u.password = true →
      (login lib cfg st body now).2 =
        .ok { user := authUserView u, token := generateAuthToken lib cfg u now } := by
    intro u hu he ha hc
    exact login_of_found lib cfg st body now u
      ((findByCredentials_eq_some_iff lib st _ _ u hemail).2 ⟨hu, he, ha, hc⟩)
  have hfail : (¬ ∃ u ∈ st.users, u.email = normEmail body.email ∧ u.isActive = some true ∧
        lib.bcryptCompare body.password u.password = true) →
      findByCredentials lib st body.email body.password = none ∧
      login lib cfg st body now = (st, .error (.api 401 "Invalid email or password")) := by
    intro hno
    have hnone : findByCredentials lib st body.email body.password = none := by
      cases hf : findByCredentials lib st body.email body.password with
      | none => rfl
      | some w =>
        have := (findByCredentials_eq_some_iff lib st _ _ w hemail).1 hf
        exact absurd ⟨w, this⟩ hno
    exact ⟨hnone, by simp [login, hnone, ApiError.unauthorized]⟩
  refine ⟨⟨?_, ?_⟩, hsucc, hfail⟩
  · rintro ⟨r, hr⟩
    by_contra hno
    rw [(hfail hno).2] at hr
    cases hr
  · rintro ⟨u, hu, he, ha, hc⟩
    exact ⟨_, hsucc u hu he ha hc⟩

/-- Instance of C11: the sample store has unique emails. -/
theorem login_spec_witness :
    ((∃ r, (login sampleLib sampleCfg sampleStore
        { email := "a@x.com", password := "Password@123" } 9000).2 = .ok r) ↔
      ∃ u ∈ sampleStore.users, u.email = normEmail "a@x.com" ∧ u.isActive = some true ∧
        sampleLib.bcryptCompare "Password@123" u.password = true) ∧
    (∀ u ∈ sampleStore.users, u.email = normEmail "a@x.com" → u.isActive = some true →
        sampleLib.bcryptCompare "Password@123" u.password = true →
      (login sampleLib sampleCfg sampleStore
        { email := "a@x.com", password := "Password@123" } 9000).2 =
        .ok { user := authUserView u, token := generateAuthToken sampleLib sampleCfg u 9000 }) ∧
    ((¬ ∃ u ∈ sampleStore.users, u.email = normEmail "a@x.com" ∧ u.isActive = some true ∧
        sampleLib.bcryptCompare "Password@123" u.password = true) →
      findByCredentials sampleLib sampleStore "a@x.com" "Password@123" = none ∧
      login sampleLib sampleCfg sampleStore
          { email := "a@x.com", password := "Password@123" } 9000 =
        (sampleStore, .error (.api 401 "Invalid email or password"))) :=
  login_spec sampleLib sampleCfg sampleStore
    { email := "a@x.com", password := "Password@123" } 9000 (by decide)

/-! ### Token lifetime -/

/-- The outcome of `protect` for a token minted by `generateAuthToken` at clock
time `T`, presented while its user is stored, active and has not changed the
password since: only the expiry test decides. -/
theorem protect_own_token (lib : Lib) (cfg : Config) (st : Store) (u w : User)
    (header : Option String) (T t : Int)
    (hb : bearerToken header = some (generateAuthToken lib cfg u T))
    (hcodec : lib.jwtParse (generateAuthToken lib cfg u T) =
      .signed cfg.jwtSecret (authPayload cfg u T))
    (hfind : st.findUser u._id = some w) (hact : w.isActive = some true)
    (hpw : w.changedPasswordAfter (T / 1000) = false) :
    protect lib cfg st header t =
      if T / 1000 + cfg.expiresIn ≤ t / 1000 then
        .error (.api 401 "Token has expired. Please log in again.")
      else .ok w := by
  simp only [protect, hb, jwtVerify, hcodec]
  by_cases hexp : T / 1000 + cfg.expiresIn ≤ t / 1000
  · simp [authPayload, hexp, ApiError.unauthorized]
  · simp [authPayload, hexp, hfind, hact, hpw]

/-- C12 (counterexample): the token signed for Alice at 9999 ms with the
default lifetime of 7 days is refused as expired at 604809000 ms, which lies
before 9999 ms plus 7 days, although Alice is stored, active and has never
changed her password; one millisecond earlier it is accepted. -/
theorem token_expires_before_issue_plus_lifetime :
    generateAuthToken sampleLib sampleCfg sampleAlice 9999 = "old" ∧
    sampleCfg.expiresIn = 604800 ∧
    (9999 : Int) ≤ 604809000 ∧ (604809000 : Int) < 9999 + 604800 * 1000 ∧
    sampleStore.findUser sampleAlice._id = some sampleAlice ∧
    sampleAlice.isActive = some true ∧ sampleAlice.passwordChangedAt = none ∧
    protect sampleLib sampleCfg sampleStore (some "Bearer old") 604809000 =
      .error (.api 401 "Token has expired. Please log in again.") ∧
    protect sampleLib sampleCfg sampleStore (some "Bearer old") 604808999 =
      .ok sampleAlice := by
  refine ⟨by decide, by decide, by decide, by decide, by decide, by decide, by decide,
    by decide, by decide⟩

/-- C12 (amended): a token minted at clock time `T` (milliseconds) with
lifetime `E` seconds, 7 days when `JWT_EXPIRE` is unset, is accepted by
`protect` exactly at the times `t` whose whole second is below the whole second
of `T` plus `E`, while its user is stored, active and has not changed the
password; so it is accepted throughout `T ≤ t ≤ T + 1000 E - 1000` and refused
with status 401 from `T + 1000 E` on. -/
theorem token_accepted_until_expiry_second (lib : Lib) (cfg : Config) (st : Store)
    (u w : User) (header : Option String) (T : Int)
    (hb : bearerToken header = some (generateAuthToken lib cfg u T))
    (hcodec : lib.jwtParse (generateAuthToken lib cfg u T) =
      .signed cfg.jwtSecret (authPayload cfg u T))
    (hfind : st.findUser u._id = some w) (hact : w.isActive = some true)
    (hpw : w.changedPasswordAfter (T / 1000) = false) :
    (∀ t, protect lib cfg st header t = .ok w ↔ t / 1000 < T / 1000 + cfg.expiresIn) ∧
    (∀ t, T / 1000 + cfg.expiresIn ≤ t / 1000 →
      protect lib cfg st header t =
        .error (.api 401 "Token has expired. Please log in again.")) ∧
    (∀ t, T ≤ t → t + 1000 ≤ T + 1000 * cfg.expiresIn →
      protect lib cfg st header t = .ok w) ∧
    (∀ t, T + 1000 * cfg.expiresIn ≤ t →
      protect lib cfg st header t =
        .error (.api 401 "Token has expired. Please log in again.")) ∧
    (cfg.jwtExpire = none → cfg.expiresIn = 7 * 24 * 60 * 60) := by
  have hval := fun t => protect_own_token lib cfg st u w header T t hb hcodec hfind hact hpw
  refine ⟨?_, ?_, ?_, ?_, ?_⟩
  · intro t
    rw [hval t]
    by_cases hexp : T / 1000 + cfg.expiresIn ≤ t / 1000
    · simp only [if_pos hexp]
      constructor
      · intro h; cases h
      · intro h; omega
    · simp only [if_neg hexp, true_iff]
      omega
  · intro t ht
    rw [hval t, if_pos ht]
  · intro t h1 h2
    rw [hval t, if_neg (by omega)]
  · intro t ht
    rw [hval t, if_pos (by omega)]
  · intro h
    simp [Config.expiresIn, h]

/-- Instance of the amended C12: the token signed for Alice at 9999 ms. -/
theorem token_accepted_until_expiry_second_witness :
    (∀ t, protect sampleLib sampleCfg sampleStore (some "Bearer old") t = .ok sampleAlice ↔
      t / 1000 < 9999 / 1000 + sampleCfg.expiresIn) ∧
    (∀ t, 9999 / 1000 + sampleCfg.expiresIn ≤ t / 1000 →
      protect sampleLib sampleCfg sampleStore (some "Bearer old") t =
        .error (.api 401 "Token has expired. Please log in again.")) ∧
    (∀ t, 9999 ≤ t → t + 1000 ≤ 9999 + 1000 * sampleCfg.expiresIn →
      protect sampleLib sampleCfg sampleStore (some "Bearer old") t = .ok sampleAlice) ∧
    (∀ t, 9999 + 1000 * sampleCfg.expiresIn ≤ t →
      protect sampleLib sampleCfg sampleStore (some "Bearer old") t =
        .error (.api 401 "Token has expired. Please log in again.")) ∧
    (sampleCfg.jwtExpire = none → sampleCfg.expiresIn = 7 * 24 * 60 * 60) :=
  token_accepted_until_expiry_second sampleLib sampleCfg sampleStore sampleAlice sampleAlice
    (some "Bearer old") 9999 (by decide) (by decide) (by decide) (by decide) (by decide)

/-! ### Password change -/

/-- C13 (failing input): Carol sends her correct current password and, as new
password, the string of her stored hash. The request passes validation and the
current password matches, the handler answers 200 with a token, yet nothing is
stored: the stored hash is unchanged, is not a hash of the new password, and
the new password does not verify against it. -/
theorem changePassword_same_as_hash_not_stored :
    changePasswordValidation hashAsNewPassword = true ∧
    carolStore.findUser sampleCarol._id = some sampleCarol ∧
    hashLib.bcryptCompare hashAsNewPassword.currentPassword sampleCarol.password = true ∧
    (changePassword hashLib sampleCfg carolStore sampleCarol hashAsNewPassword
      "salt" 10000 10000).2.isOk = true ∧
    (changePassword hashLib sampleCfg carolStore sampleCarol hashAsNewPassword
      "salt" 10000 10000).1 = carolStore ∧
    sampleCarol.password ≠ hashLib.bcryptHash hashAsNewPassword.newPassword "salt" ∧
    hashLib.bcryptCompare hashAsNewPassword.newPassword sampleCarol.password = false := by
  refine ⟨by decide, by decide, by decide, by decide, by decide, by decide, by decide⟩

/-- The three outcomes of `changePassword` for a stored caller and a new
password of at least 8 characters: status 401 with the store unchanged when the
current password does not match the stored hash; the stored hash replaced by
`bcrypt.hash(newPassword, salt)`, `passwordChangedAt` set to `now - 1000` and a
token returned when it matches and the new password differs from the stored
hash string; and, when the new password is the stored hash string itself, a
token returned although the save hook stored nothing. -/
theorem changePassword_spec (lib : Lib) (cfg : Config) (st : Store) (caller : User)
    (body : ChangePasswordBody) (salt : String) (now tokenTime : Int) (user : User)
    (hfind : st.findUser caller._id = some user)
    (hlen : 8 ≤ body.newPassword.length) :
    (lib.bcryptCompare body.currentPassword user.password = false →
      changePassword lib cfg st caller body salt now tokenTime =
        (st, .error (.api 401 "Current password is incorrect"))) ∧
    (lib.bcryptCompare body.currentPassword user.password = true →
      body.newPassword ≠ user.password →
      ∃ u', (changePassword lib cfg st caller body salt now tokenTime).1.findUser caller._id =
          some u' ∧
        u'.password = lib.bcryptHash body.newPassword salt ∧
        u'.passwordChangedAt = some (now - 1000) ∧
        (changePassword lib cfg st caller body salt now tokenTime).1.tasks = st.tasks ∧
        (changePassword lib cfg st caller body salt now tokenTime).2 =
          .ok (generateAuthToken lib cfg u' tokenTime)) ∧
    (lib.bcryptCompare body.currentPassword user.password = true →
      body.newPassword = user.password →
      changePassword lib cfg st caller body salt now tokenTime =
        (st, .ok (generateAuthToken lib cfg user tokenTime))) := by
  have hid : user._id = caller._id := findUser_id hfind
  have hlen' : ¬ body.newPassword.length < 8 := by omega
  refine ⟨?_, ?_, ?_⟩
  · intro hc
    simp [changePassword, hfind, hc, ApiError.unauthorized]
  · intro hc hmod
    simp only [changePassword, hfind, hc, hmod, hlen', ne_eq, not_false_eq_true, decide_True,
      Bool.true_eq_false, if_false]
    refine ⟨_, find?_updateFirst _ _ (by simp [userPreSave, hid]) _ _ hfind, ?_, ?_, ?_, ?_⟩
    · simp [userPreSave]
    · simp [userPreSave]
    · trivial
    · rfl
  · intro hc hsame
    simp [changePassword, hfind, hc, hsame]

/-- Instance of the three outcomes: Alice in the sample store. -/
theorem changePassword_spec_witness :
    (sampleLib.bcryptCompare "Password@123" sampleAlice.password = false →
      changePassword sampleLib sampleCfg sampleStore sampleAlice
          { currentPassword := "Password@123", newPassword := "Newpass@456" }
          "salt" 10000 10000 =
        (sampleStore, .error (.api 401 "Current password is incorrect"))) ∧
    (sampleLib.bcryptCompare "Password@123" sampleAlice.password = true →
      "Newpass@456" ≠ sampleAlice.password →
      ∃ u', afterChange.1.findUser sampleAlice._id = some u' ∧
        u'.password = sampleLib.bcryptHash "Newpass@456" "salt" ∧
        u'.passwordChangedAt = some (10000 - 1000) ∧
        afterChange.1.tasks = sampleStore.tasks ∧
        afterChange.2 = .ok (generateAuthToken sampleLib sampleCfg u' 10000)) ∧
    (sampleLib.bcryptCompare "Password@123" sampleAlice.password = true →
      "Newpass@456" = sampleAlice.password →
      changePassword sampleLib sampleCfg sampleStore sampleAlice
          { currentPassword := "Password@123", newPassword := "Newpass@456" }
          "salt" 10000 10000 =
        (sampleStore, .ok (generateAuthToken sampleLib sampleCfg sampleAlice 10000))) :=
  changePassword_spec sampleLib sampleCfg sampleStore sampleAlice
    { currentPassword := "Password@123", newPassword := "Newpass@456" } "salt" 10000 10000
    sampleAlice (by decide) (by decide)

/-- C14: when a stored user has an email that equals the given one up to letter
case (stored emails being in the normal form the schema setters produce),
`register` fails with status 409, creates no user and returns no token. -/
theorem register_conflict (lib : Lib) (cfg : Config) (st : Store) (body : RegisterBody)
    (newId : ObjectId) (salt : String) (now : Int) (u : User)
    (hu : u ∈ st.users) (hnorm : u.email = normEmail u.email)
    (hci : u.email.data.map Char.toLower = body.email.data.map Char.toLower) :
    register lib cfg st body newId salt now =
      (st, .error (.api 409 "User with this email already exists")) := by
  have he : u.email = normEmail body.email := by
    rw [hnorm]
    simp only [normEmail, hci]
  have hfound : (st.findUserByEmail body.email).isSome = true := by
    simp only [Store.findUserByEmail, List.find?_isSome]
    exact ⟨u, hu, by simp [he]⟩
  cases hf : st.findUserByEmail body.email with
  | none => simp [hf] at hfound
  | some w => simp [register, hf, ApiError.conflict]

/-- Instance of C14: a registration with Alice's email in upper case. -/
theorem register_conflict_witness :
    register sampleLib sampleCfg sampleStore
        { name := "Mallory", email := "A@X.COM", password := "Password@123" }
        ⟨"444444444444444444444444"⟩ "salt" 9000 =
      (sampleStore, .error (.api 409 "User with this email already exists")) :=
  register_conflict sampleLib sampleCfg sampleStore
    { name := "Mallory", email := "A@X.COM", password := "Password@123" }
    ⟨"444444444444444444444444"⟩ "salt" 9000 sampleAlice (by decide) (by decide) (by decide)

/-! ### Outbound serialisation of users -/

/-- A lookup whose test does not read the password commutes with replacing the
stored hashes. -/
theorem find?_withPasswords (f : User → String) (p : User → Bool) (l : List User)
    (hp : ∀ u, p { u with password := f u } = p u) :
    (l.map (fun u => { u with password := f u })).find? p =
      (l.find? p).map (fun u => { u with password := f u }) := by
  induction l with
  | nil => rfl
  | cons a rest ih =>
    simp only [List.map_cons, List.find?_cons, hp a]
    cases p a <;> simp [ih]

/-- The response of a successful `register`, written out. -/
theorem register_ok_response (lib : Lib) (cfg : Config) (st : Store) (body : RegisterBody)
    (newId : ObjectId) (salt : String) (now : Int) (r : AuthResponse)
    (h : (register lib cfg st body newId salt now).2 = .ok r) :
    r = { user :=
            { id := newId.hex, name := trimStr body.name, email := normEmail body.email
              role := if body.role = some (.str "admin") then "admin" else "user" }
          token := lib.jwtSign cfg.jwtSecret
            { id := newId, email := normEmail body.email
              role := if body.role = some (.str "admin") then "admin" else "user"
              iat := now / 1000, exp := now / 1000 + cfg.expiresIn
              iss := "taskflow-api", aud := "taskflow-client" } } := by
  cases hf : st.findUserByEmail body.email with
  | some w => simp [register, hf] at h
  | none =>
    cases hv : validateNewUser lib body.name body.email body.password with
    | some path => simp [register, hf, hv] at h
    | none =>
      by_cases hany : st.users.any (fun u => decide (u.email = normEmail body.email)) = true
      · simp only [register, hf, hv, hany, if_true] at h
        cases h
      · by_cases hid : (st.findUser newId).isSome = true
        · simp only [register, hf, hv, hany, hid, if_true, if_false] at h
          cases h
        · simp only [register, hf, hv, hany, hid, if_false] at h
          cases h
          simp [userPreSave, authUserView, generateAuthToken, authPayload]

/-- The response of a successful `login` is built from the user found by the
query of `findByCredentials`. -/
theorem login_ok_response (lib : Lib) (cfg : Config) (st : Store) (body : LoginBody)
    (now : Int) (r : AuthResponse) (h : (login lib cfg st body now).2 = .ok r) :
    ∃ w, st.users.find?
        (fun u => decide (u.email = normEmail body.email) && decide (u.isActive = some true)) =
        some w ∧
      r = { user := authUserView w, token := generateAuthToken lib cfg w now } := by
  cases hfc : findByCredentials lib st body.email body.password with
  | none => simp [login, hfc] at h
  | some u =>
    rw [login_of_found lib cfg st body now u hfc] at h
    cases h
    refine ⟨u, ?_, rfl⟩
    unfold findByCredentials at hfc
    cases hq : st.users.find?
        (fun u => decide (u.email = normEmail body.email) && decide (u.isActive = some true)) with
    | none => simp [hq] at hfc
    | some w =>
      simp only [hq] at hfc
      split at hfc
      · cases hfc
      · cases hfc; rfl

/-- C15: the `toJSON` output of a user has no `password` key and is the same
for two users that differ only in the password hash; the responses of
`register`, `login`, `getMe` and `updateProfile` are the same when the raw
password of the request and the stored password hashes are replaced by any
others (both requests succeeding, for `register` and `login`). -/
theorem secret_never_serialized :
    (∀ u : User, ∀ kv ∈ u.toJSON, kv.1 ≠ "password") ∧
    (∀ (u : User) (pw : String), ({ u with password := pw } : User).toJSON = u.toJSON) ∧
    (∀ (lib : Lib) (cfg : Config) (st : Store) (body : RegisterBody) (newId : ObjectId)
        (salt salt' : String) (now : Int) (pw : String) (r r' : AuthResponse),
      (register lib cfg st body newId salt now).2 = .ok r →
      (register lib cfg st { body with password := pw } newId salt' now).2 = .ok r' →
      r' = r) ∧
    (∀ (lib : Lib) (cfg : Config) (st : Store) (body : LoginBody) (now : Int)
        (f : User → String) (pw : String) (r r' : AuthResponse),
      (login lib cfg st body now).2 = .ok r →
      (login lib cfg (st.withPasswords f) { body with password := pw } now).2 = .ok r' →
      r' = r) ∧
    (∀ (st : Store) (caller : User) (f : User → String) (pw : String),
      getMe (st.withPasswords f) { caller with password := pw } = getMe st caller) ∧
    (∀ (lib : Lib) (st : Store) (caller : User) (body : ProfileBody) (now : Int)
        (f : User → String) (pw : String),
      (updateProfile lib (st.withPasswords f) { caller with password := pw } body now).2 =
        (updateProfile lib st caller body now).2) := by
  refine ⟨?_, ?_, ?_, ?_, ?_, ?_⟩
  · intro u kv hkv
    simp only [User.toJSON, List.mem_filter, decide_eq_true_eq] at hkv
    exact hkv.1.2
  · intro u pw
    simp only [User.toJSON, User.toObject]
    cases u.passwordChangedAt <;> simp [List.filter_cons]
  · intro lib cfg st body newId salt salt' now pw r r' h h'
    rw [register_ok_response _ _ _ _ _ _ _ _ h, register_ok_response _ _ _ _ _ _ _ _ h']
  · intro lib cfg st body now f pw r r' h h'
    have hfind := find?_withPasswords f
      (fun u => decide (u.email = normEmail body.email) && decide (u.isActive = some true))
      st.users (fun _ => rfl)
    obtain ⟨w, hw, rfl⟩ := login_ok_response lib cfg st body now r h
    obtain ⟨w', hw', rfl⟩ :=
      login_ok_response lib cfg (st.withPasswords f) { body with password := pw } now r' h'
    simp only [Store.withPasswords, hfind, hw, Option.map_some', Option.some.injEq] at hw'
    subst hw'
    simp [authUserView, generateAuthToken, authPayload]
  · intro st caller f pw
    have hfind := find?_withPasswords f (fun u => decide (u._id = caller._id)) st.users
      (fun _ => rfl)
    simp only [getMe, Store.findUser, Store.withPasswords, hfind]
    cases st.users.find? (fun u => decide (u._id = caller._id)) <;> rfl
  · intro lib st caller body now f pw
    have hfind := find?_withPasswords f (fun u => decide (u._id = caller._id)) st.users
      (fun _ => rfl)
    have hmail : ∀ e, ((st.withPasswords f).findUserByEmail e).isSome =
        (st.findUserByEmail e).isSome := by
      intro e
      have := find?_withPasswords f (fun u => decide (u.email = normEmail e)) st.users
        (fun _ => rfl)
      simp only [Store.findUserByEmail, Store.withPasswords, this]
      cases st.users.find? (fun u => decide (u.email = normEmail e)) <;> rfl
    have hany : ∀ e, (st.withPasswords f).users.any
          (fun u => decide (u._id ≠ caller._id) && decide (u.email = e)) =
        st.users.any (fun u => decide (u._id ≠ caller._id) && decide (u.email = e)) := by
      intro e
      simp only [Store.withPasswords, List.any_map]
      rfl
    simp only [updateProfile, hmail]
    split
    · rfl
    · split
      · rfl
      · simp only [Store.findUser, Store.withPasswords, hfind]
        cases hq : st.users.find? (fun u => decide (u._id = caller._id)) with
        | none => rfl
        | some w =>
          have hany' := hany ((body.email.map normEmail).getD w.email)
          simp only [Store.withPasswords] at hany'
          simp only [Option.map_some', hany']
          split
          · rfl
          · simp [authUserView]

/-! ### Role gate -/

/-- C16: `authorize('admin')` passes exactly the users whose role is admin,
answers 403 for a user with any other role and 401 when `req.user` is unset;
behind `protect` and this gate, a handler of the admin router is run only for
a caller with role admin: for any other authenticated caller the answer is 403
and the store is unchanged whatever the handler is, and a request that
`protect` refuses never reaches the handler either. -/
theorem authorize_admin_gate :
    authorize ["admin"] none = .error (.api 401 "User not authenticated.") ∧
    (∀ u : User, u.role ≠ "admin" →
      authorize ["admin"] (some u) =
        .error (.api 403
          ("Role \x27" ++ u.role ++ "\x27 is not authorized to access this resource."))) ∧
    (∀ u : User, authorize ["admin"] (some u) = .ok () ↔ u.role = "admin") ∧
    (∀ (α : Type) (lib : Lib) (cfg : Config) (st : Store) (header : Option String) (now : Int)
        (handler : User → Store × Except Err α) (u : User),
      protect lib cfg st header now = .ok u → u.role ≠ "admin" →
      adminRouter lib cfg st header now handler =
        (st, .error (.api 403
          ("Role \x27" ++ u.role ++ "\x27 is not authorized to access this resource.")))) ∧
    (∀ (α : Type) (lib : Lib) (cfg : Config) (st : Store) (header : Option String) (now : Int)
        (handler : User → Store × Except Err α) (u : User),
      protect lib cfg st header now = .ok u → u.role = "admin" →
      adminRouter lib cfg st header now handler = handler u) ∧
    (∀ (α : Type) (lib : Lib) (cfg : Config) (st : Store) (header : Option String) (now : Int)
        (handler : User → Store × Except Err α) (e : Err),
      protect lib cfg st header now = .error e →
      adminRouter lib cfg st header now handler = (st, .error e)) := by
  refine ⟨rfl, ?_, ?_, ?_, ?_, ?_⟩
  · intro u hu
    simp [authorize, hu, ApiError.forbidden]
  · intro u
    by_cases hu : u.role = "admin"
    · simp [authorize, hu]
    · simp [authorize, hu, ApiError.forbidden]
  · intro α lib cfg st header now handler u hp hu
    simp [adminRouter, hp, authorize, hu, ApiError.forbidden]
  · intro α lib cfg st header now handler u hp hu
    simp [adminRouter, hp, authorize, hu]
  · intro α lib cfg st header now handler e hp
    simp [adminRouter, hp]

/-! ### Scoping for administrators and task assignment -/

/-- When the query of `getTasks` finds the documents `found`, the handler
answers with a page of them and reports their number as total. -/
theorem getTasks_ok_of_found (lib : Lib) (st : Store) (caller : User) (q : TaskQuery)
    (found : List Task) (h : findTasks lib st (buildTaskFilter caller q) = .ok found) :
    ∃ r, getTasks lib st caller q = .ok r ∧ r.pagination.total = found.length ∧
      (∀ p ∈ r.data, p.task ∈ found) ∧
      r.data = (mongoLimit (q.limit.getD 10)
        ((sortTasks (q.sortBy.getD "createdAt") (decide (q.order.getD "desc" = "asc"))
          found).drop ((q.page.getD 1 - 1) * q.limit.getD 10))).map (populateUser st) := by
  simp only [getTasks, h]
  refine ⟨_, rfl, rfl, ?_, rfl⟩
  intro p hp
  simp only [List.mem_map] at hp
  obtain ⟨t, ht, rfl⟩ := hp
  exact mem_page_of_found ht

/-- C17: for an admin caller the owner condition of the filter built by
`getTasks` is `query.userId` when a non-empty one is sent and is absent
otherwise; the documents matched are then those that satisfy the other
conditions, of every owner without an override and of the owner the override
denotes with one. In particular, with no other condition, an admin without an
override gets all tasks counted, and with an override exactly the tasks of that
owner. -/
theorem getTasks_admin_owner_filter (lib : Lib) (st : Store) (caller : User)
    (q : TaskQuery) (hadmin : caller.role = "admin") :
    (buildTaskFilter caller q).user =
      (if truthy q.userId = true then q.userId.map OwnerFilter.raw else none) ∧
    (truthy q.userId = false → searchAccepted lib (buildTaskFilter caller q) = true →
      findTasks lib st (buildTaskFilter caller q) =
        .ok (st.tasks.filter (taskMatches lib none (buildTaskFilter caller q)))) ∧
    (∀ (t : Task) (o : ObjectId),
      taskMatches lib none (buildTaskFilter caller q) { t with user := o } =
        taskMatches lib none (buildTaskFilter caller q) t) ∧
    (∀ s i, q.userId = some s → s ≠ "" → castObjectId s = some i →
      searchAccepted lib (buildTaskFilter caller q) = true →
      findTasks lib st (buildTaskFilter caller q) =
        .ok (st.tasks.filter (fun t =>
          decide (t.user = i) && taskMatches lib none (buildTaskFilter caller q) t))) ∧
    (truthy q.userId = false →
      ∃ r, getTasks lib st caller { userId := q.userId } = .ok r ∧
        r.pagination.total = st.tasks.length) ∧
    (∀ s i, q.userId = some s → s ≠ "" → castObjectId s = some i →
      ∃ r, getTasks lib st caller { userId := q.userId } = .ok r ∧
        r.pagination.total = (st.tasks.filter (fun t => decide (t.user = i))).length ∧
        ∀ p ∈ r.data, p.task.user = i) := by
  have hf : (buildTaskFilter caller q).user =
      (if truthy q.userId = true then q.userId.map OwnerFilter.raw else none) := by
    simp [buildTaskFilter, hadmin]
  refine ⟨hf, ?_, ?_, ?_, ?_, ?_⟩
  · intro hno hs
    simp [findTasks, hf, hno, hs]
  · intro t o
    simp [taskMatches]
  · intro s i hq hne hc hs
    have hf' : (buildTaskFilter caller q).user = some (.raw s) := by
      rw [hf, hq]; simp [truthy, hne]
    simp only [findTasks, hf', Option.map_some', OwnerFilter.cast, hc, hs, if_true]
    congr 1
    apply List.filter_congr
    intro t _
    simp [taskMatches, Bool.and_assoc]
  · intro hno
    have hfound : findTasks lib st (buildTaskFilter caller { userId := q.userId }) =
        .ok st.tasks := by
      have hb : buildTaskFilter caller { userId := q.userId } = { user := none } := by
        simp only [buildTaskFilter, hadmin, hno]
        simp [truthy]
      simp [findTasks, hb, searchAccepted, taskMatches]
    obtain ⟨r, hr, htot, -, -⟩ := getTasks_ok_of_found lib st caller _ _ hfound
    exact ⟨r, hr, htot⟩
  · intro s i hq hne hc
    have ht : truthy (some s) = true := by simp [truthy, hne]
    have hfound : findTasks lib st (buildTaskFilter caller { userId := q.userId }) =
        .ok (st.tasks.filter (fun t => decide (t.user = i))) := by
      have hb : buildTaskFilter caller { userId := q.userId } =
          { user := some (.raw s) } := by
        simp only [buildTaskFilter, hadmin, hq, ht]
        simp [truthy]
      simp only [findTasks, hb, searchAccepted, OwnerFilter.cast, hc, Option.map_some', if_true]
      congr 1
      apply List.filter_congr
      intro t _
      simp [taskMatches]
    obtain ⟨r, hr, htot, hmem, -⟩ := getTasks_ok_of_found lib st caller _ _ hfound
    refine ⟨r, hr, htot, ?_⟩
    intro p hp
    have := hmem p hp
    simpa using (List.mem_filter.1 this).2

/-- Instance of C17: the administrator lists tasks with Bob as owner override. -/
theorem getTasks_admin_owner_filter_witness :
    (buildTaskFilter sampleAdmin { userId := some sampleBob.id }).user =
      some (.raw sampleBob.id) ∧
    ∃ r, getTasks sampleLib sampleStore sampleAdmin { userId := some sampleBob.id } = .ok r ∧
      r.pagination.total = 1 ∧ ∀ p ∈ r.data, p.task.user = sampleBob._id :=
  have h := getTasks_admin_owner_filter sampleLib sampleStore sampleAdmin
    { userId := some sampleBob.id } (by decide)
  ⟨h.1, (h.2.2.2.2.2 sampleBob.id sampleBob._id rfl (by decide) (by decide)).elim
    (fun r hr => ⟨r, hr.1, hr.2.1.trans (by decide), hr.2.2⟩)⟩

/-- Every element of a list lies on one of its pages of ten. -/
theorem mem_some_page {α : Type} (x : α) :
    ∀ (n : Nat) (l : List α), l.length ≤ n → x ∈ l → ∃ j, x ∈ (l.drop (j * 10)).take 10 := by
  intro n
  induction n with
  | zero =>
    intro l hl hx
    have : l = [] := List.length_eq_zero.1 (by omega)
    subst this
    cases hx
  | succ n ih =>
    intro l hl hx
    have hsplit : x ∈ l.take 10 ++ l.drop 10 := by rw [List.take_append_drop]; exact hx
    rcases List.mem_append.1 hsplit with h | h
    · exact ⟨0, by simpa using h⟩
    · have hlen : (l.drop 10).length ≤ n := by
        rw [List.length_drop]; omega
      obtain ⟨j, hj⟩ := ih _ hlen h
      refine ⟨j + 1, ?_⟩
      rw [List.drop_drop] at hj
      have he : 10 + j * 10 = (j + 1) * 10 := by omega
      rw [he] at hj
      exact hj

/-- Every task on a page returned to a non-admin caller is owned by the
caller. -/
theorem member_page_owned (lib : Lib) (st : Store) (caller : User) (q : TaskQuery)
    (r : TaskPage) (hrole : caller.role ≠ "admin")
    (hr : getTasks lib st caller q = .ok r) : ∀ p ∈ r.data, p.task.user = caller._id := by
  have hf : (buildTaskFilter caller q).user = some (.own caller._id) := by
    simp [buildTaskFilter, hrole]
  cases hfound : findTasks lib st (buildTaskFilter caller q) with
  | error e => simp [getTasks, hfound] at hr
  | ok found =>
    obtain ⟨r', hr', -, hmem, -⟩ := getTasks_ok_of_found lib st caller q found hfound
    rw [hr] at hr'
    cases hr'
    intro p hp
    have hin := hmem p hp
    simp only [findTasks, hf, OwnerFilter.cast, Option.map_some'] at hfound
    split at hfound
    · cases hfound
      have := (List.mem_filter.1 hin).2
      simp only [taskMatches, Bool.and_eq_true, decide_eq_true_eq] at this
      exact this.1.1.1.1
    · cases hfound

/-- The owner, the creator and the place of a task stored by `createTask`. -/
theorem createTask_stored_task (st : Store) (caller : User)
    (body : CreateTaskBody) (newId : ObjectId) (now : Int) (t : Task)
    (hok : (createTask st caller body newId now).2 = .ok t) :
    (caller.role = "admin" → truthy body.userId = true →
      castObjectId (body.userId.getD "") = some t.user) ∧
    (¬ (caller.role = "admin" ∧ truthy body.userId = true) → t.user = caller._id) ∧
    t.createdBy = caller._id ∧
    (createTask st caller body newId now).1.tasks = st.tasks ++ [t] := by
  have hshape : ∃ owner,
      (if caller.role = "admin" ∧ truthy body.userId = true then
          OwnerFilter.raw (body.userId.getD "")
        else OwnerFilter.own caller._id).cast = some owner ∧
      t.user = owner ∧ t.createdBy = caller._id ∧
      (createTask st caller body newId now).1.tasks = st.tasks ++ [t] := by
    unfold createTask at hok ⊢
    cases hc : (if caller.role = "admin" ∧ truthy body.userId = true then
          OwnerFilter.raw (body.userId.getD "")
        else OwnerFilter.own caller._id).cast with
    | none => simp [hc] at hok
    | some owner =>
      simp only [hc] at hok ⊢
      cases hv : validateNewTask body.title body.status body.priority body.description
          body.tags with
      | some path => simp [hv] at hok
      | none =>
        simp only [hv] at hok ⊢
        by_cases hdup : (st.findTask newId).isSome = true
        · simp [hdup] at hok
        · simp only [hdup, if_false] at hok ⊢
          cases hok
          refine ⟨owner, rfl, ?_, ?_, rfl⟩
          · unfold taskPreSave; split <;> [rfl; (split <;> rfl)]
          · unfold taskPreSave; split <;> [rfl; (split <;> rfl)]
  obtain ⟨owner, hcast, hown, hcreator, htasks⟩ := hshape
  refine ⟨?_, ?_, hcreator, htasks⟩
  · intro ha hu
    simpa [ha, hu, OwnerFilter.cast, hown] using hcast
  · intro hno
    simp only [hno, if_false, OwnerFilter.cast, Option.some.injEq] at hcast
    rw [hown, hcast]

/-- C18: a task stored by `createTask` has as owner the id that `body.userId`
denotes when the caller is an admin and a non-empty `body.userId` is sent, the
caller's id in every other case, and always the caller as creator; after the
call the task is on some page of the task list of the member who owns it and on
no page returned to any other member. -/
theorem createTask_owner_and_visibility (st : Store) (caller : User) (body : CreateTaskBody)
    (newId : ObjectId) (now : Int) (t : Task)
    (hok : (createTask st caller body newId now).2 = .ok t) :
    (caller.role = "admin" → truthy body.userId = true →
      castObjectId (body.userId.getD "") = some t.user) ∧
    (¬ (caller.role = "admin" ∧ truthy body.userId = true) → t.user = caller._id) ∧
    t.createdBy = caller._id ∧
    (createTask st caller body newId now).1.tasks = st.tasks ++ [t] ∧
    (∀ (lib : Lib) (m : User), m.role ≠ "admin" → m._id = t.user →
      ∃ page r, getTasks lib (createTask st caller body newId now).1 m
          { page := some page } = .ok r ∧
        ∃ p ∈ r.data, p.task = t) ∧
    (∀ (lib : Lib) (b : User) (q : TaskQuery) (r : TaskPage), b.role ≠ "admin" →
      b._id ≠ t.user →
      getTasks lib (createTask st caller body newId now).1 b q = .ok r →
      ∀ p ∈ r.data, p.task ≠ t) := by
  obtain ⟨hadm, hmem, hcreator, htasks⟩ :=
    createTask_stored_task st caller body newId now t hok
  refine ⟨hadm, hmem, hcreator, htasks, ?_, ?_⟩
  · intro lib m hm hmid
    have hfound : ∀ page, findTasks lib (createTask st caller body newId now).1
        (buildTaskFilter m { page := some page }) =
        .ok ((st.tasks ++ [t]).filter (fun x => decide (x.user = m._id))) := by
      intro page
      have hb : buildTaskFilter m { page := some page } = { user := some (.own m._id) } := by
        simp only [buildTaskFilter, hm]
        simp [truthy, hm]
      simp only [findTasks, hb, searchAccepted, OwnerFilter.cast, Option.map_some', if_true,
        htasks]
      congr 1
      apply List.filter_congr
      intro x _
      simp [taskMatches]
    have htin : t ∈ (st.tasks ++ [t]).filter (fun x => decide (x.user = m._id)) := by
      simp [List.mem_filter, hmid]
    have hsorted : t ∈ sortTasks "createdAt" (decide ("desc" = "asc"))
        ((st.tasks ++ [t]).filter (fun x => decide (x.user = m._id))) := by
      unfold sortTasks
      split
      · exact (List.perm_insertionSort _ _).mem_iff.mpr htin
      · exact (List.perm_insertionSort _ _).mem_iff.mpr htin
    obtain ⟨j, hj⟩ := mem_some_page t _ _ (Nat.le_refl _) hsorted
    obtain ⟨r, hr, -, -, hdata⟩ :=
      getTasks_ok_of_found lib _ m { page := some (j + 1) } _ (hfound (j + 1))
    refine ⟨j + 1, r, hr, populateUser (createTask st caller body newId now).1 t, ?_, rfl⟩
    rw [hdata]
    apply List.mem_map_of_mem
    simpa [mongoLimit] using hj
  · intro lib b q r hb hne hr p hp hpt
    have := member_page_owned lib _ b q r hb hr p hp
    rw [hpt] at this
    exact hne this.symm

/-- Instance of C18: the administrator assigns a task to Bob. -/
theorem createTask_owner_and_visibility_witness :
    (sampleAdmin.role = "admin" → truthy assignToBob.userId = true →
      castObjectId (assignToBob.userId.getD "") = some assignedTask.user) ∧
    (¬ (sampleAdmin.role = "admin" ∧ truthy assignToBob.userId = true) →
      assignedTask.user = sampleAdmin._id) ∧
    assignedTask.createdBy = sampleAdmin._id ∧
    (createTask sampleStore sampleAdmin assignToBob ⟨"cccccccccccccccccccccccc"⟩ 6000).1.tasks =
      sampleStore.tasks ++ [assignedTask] ∧
    (∀ (lib : Lib) (m : User), m.role ≠ "admin" → m._id = assignedTask.user →
      ∃ page r, getTasks lib
          (createTask sampleStore sampleAdmin assignToBob ⟨"cccccccccccccccccccccccc"⟩ 6000).1 m
          { page := some page } = .ok r ∧
        ∃ p ∈ r.data, p.task = assignedTask) ∧
    (∀ (lib : Lib) (b : User) (q : TaskQuery) (r : TaskPage), b.role ≠ "admin" →
      b._id ≠ assignedTask.user →
      getTasks lib
          (createTask sampleStore sampleAdmin assignToBob ⟨"cccccccccccccccccccccccc"⟩ 6000).1 b
          q = .ok r →
      ∀ p ∈ r.data, p.task ≠ assignedTask) :=
  createTask_owner_and_visibility sampleStore sampleAdmin assignToBob
    ⟨"cccccccccccccccccccccccc"⟩ 6000 assignedTask (by decide)

/-! ### Resolvable owners and creators -/

/-- C19 (counterexample): in the sample store every owner and creator is a
stored user. After the administrator, a stored user, creates a task for an id
that no user has, the owner of that task is not a stored user. After one
administrator has assigned a task to Bob and another administrator has deleted
the first, the creator of that task is not a stored user. -/
theorem refs_not_always_resolvable :
    sampleStore.refsResolve = true ∧ sampleAdmin ∈ sampleStore.users ∧
    (createTask sampleStore sampleAdmin
        { title := some "Write spec", userId := some "999999999999999999999999" }
        ⟨"cccccccccccccccccccccccc"⟩ 6000).2.isOk = true ∧
    ghostStore.refsResolve = false ∧
    twoAdminStore.refsResolve = true ∧ sampleEve ∈ twoAdminStore.users ∧
    (deleteUser
      (createTask twoAdminStore sampleAdmin assignToBob ⟨"cccccccccccccccccccccccc"⟩ 6000).1
      sampleEve sampleAdmin.id).2 = .ok () ∧
    creatorDeletedStore.refsResolve = false := by
  refine ⟨by decide, by decide, by decide, by decide, by decide, by decide, by decide,
    by decide⟩

/-- The Boolean test `refsResolve` in logical form. -/
theorem refsResolve_iff (st : Store) :
    st.refsResolve = true ↔
      ∀ t ∈ st.tasks, t.user ∈ st.userIds ∧ t.createdBy ∈ st.userIds := by
  simp [Store.refsResolve]

/-- Replacing the first match by a document with the same key leaves the list of
keys unchanged. -/
theorem map_updateFirst_const {α β : Type} (g : α → β) (p : α → Bool) (y : α) (l : List α)
    (h : ∀ x ∈ l, p x = true → g y = g x) :
    (updateFirst p (fun _ => y) l).map g = l.map g := by
  induction l with
  | nil => rfl
  | cons a rest ih =>
    by_cases ha : p a = true
    · simp [updateFirst, ha, h a (List.mem_cons_self _ _) ha]
    · simp only [Bool.not_eq_true] at ha
      simp [updateFirst, ha, ih (fun x hx => h x (List.mem_cons_of_mem _ hx))]

/-- A document of the list after replacing the first match is the replacement
or a document of the list before. -/
theorem mem_updateFirst_const {α : Type} (p : α → Bool) (y : α) (l : List α) (x : α)
    (hx : x ∈ updateFirst p (fun _ => y) l) : x ∈ l ∨ x = y := by
  induction l with
  | nil => simp [updateFirst] at hx
  | cons a rest ih =>
    by_cases ha : p a = true
    · simp only [updateFirst, ha, if_true, List.mem_cons] at hx
      rcases hx with h | h
      · exact Or.inr h
      · exact Or.inl (List.mem_cons_of_mem _ h)
    · simp only [Bool.not_eq_true] at ha
      simp only [updateFirst, ha, Bool.false_eq_true, if_false, List.mem_cons] at hx
      rcases hx with h | h
      · exact Or.inl (h ▸ List.mem_cons_self _ _)
      · rcases ih h with h' | h'
        · exact Or.inl (List.mem_cons_of_mem _ h')
        · exact Or.inr h'

/-- A transition that keeps the tasks and every user id keeps owners and
creators resolvable. -/
theorem refsResolve_of_users_grow (st st' : Store) (ht : st'.tasks = st.tasks)
    (hu : ∀ i ∈ st.userIds, i ∈ st'.userIds) (h : st.refsResolve = true) :
    st'.refsResolve = true := by
  rw [refsResolve_iff] at h ⊢
  intro t htm
  rw [ht] at htm
  exact ⟨hu _ (h t htm).1, hu _ (h t htm).2⟩

/-- A transition that replaces one stored user by a document with the same id
keeps owners and creators resolvable. -/
theorem refsResolve_of_user_replaced (st : Store) (i : ObjectId) (y : User) (hy : y._id = i)
    (h : st.refsResolve = true) :
    ({ st with users := updateFirst (fun u => decide (u._id = i)) (fun _ => y) st.users } :
      Store).refsResolve = true := by
  refine refsResolve_of_users_grow st
    { st with users := updateFirst (fun u => decide (u._id = i)) (fun _ => y) st.users }
    rfl ?_ h
  intro k hk
  have : (updateFirst (fun u => decide (u._id = i)) (fun _ => y) st.users).map
      (fun u => u._id) = st.users.map (fun u => u._id) := by
    apply map_updateFirst_const
    intro x _ hx
    simp only [decide_eq_true_eq] at hx
    rw [hy, hx]
  simpa [Store.userIds, this] using hk

/-- The store after `register`: unchanged, or one user appended. -/
theorem register_store (lib : Lib) (cfg : Config) (st : Store) (body : RegisterBody)
    (newId : ObjectId) (salt : String) (now : Int) :
    (register lib cfg st body newId salt now).1 = st ∨
      ∃ u, (register lib cfg st body newId salt now).1 =
        { st with users := st.users ++ [u] } := by
  cases hf : st.findUserByEmail body.email with
  | some w => simp [register, hf]
  | none =>
    cases hv : validateNewUser lib body.name body.email body.password with
    | some path => simp [register, hf, hv]
    | none =>
      by_cases hany : st.users.any (fun u => decide (u.email = normEmail body.email)) = true
      · left; simp [register, hf, hv, hany]
      · by_cases hid : (st.findUser newId).isSome = true
        · left; simp [register, hf, hv, hany, hid]
        · right
          simp only [register, hf, hv, hany, hid, if_false]
          exact ⟨_, rfl⟩

/-- The store after a handler that saves one user document: unchanged, or one
stored user replaced by a document with the same id. -/
theorem user_save_store (lib : Lib) (cfg : Config) (st : Store) :
    (∀ (body : LoginBody) (now : Int),
      (login lib cfg st body now).1 = st ∨ ∃ i y, y._id = i ∧
        (login lib cfg st body now).1 =
          { st with users := updateFirst (fun u => decide (u._id = i)) (fun _ => y) st.users }) ∧
    (∀ (caller : User) (body : ChangePasswordBody) (salt : String) (now tokenTime : Int),
      (changePassword lib cfg st caller body salt now tokenTime).1 = st ∨ ∃ i y, y._id = i ∧
        (changePassword lib cfg st caller body salt now tokenTime).1 =
          { st with users := updateFirst (fun u => decide (u._id = i)) (fun _ => y) st.users }) ∧
    (∀ (caller : User) (body : ProfileBody) (now : Int),
      (updateProfile lib st caller body now).1 = st ∨ ∃ i y, y._id = i ∧
        (updateProfile lib st caller body now).1 =
          { st with users := updateFirst (fun u => decide (u._id = i)) (fun _ => y) st.users }) ∧
    (∀ (caller : User) (id : String) (body : UpdateUserBody) (now : Int),
      (updateUser lib st caller id body now).1 = st ∨ ∃ i y, y._id = i ∧
        (updateUser lib st caller id body now).1 =
          { st with users := updateFirst (fun u => decide (u._id = i)) (fun _ => y) st.users }) ∧
    (∀ (caller : User) (id : String) (now : Int),
      (deactivateUser st caller id now).1 = st ∨ ∃ i y, y._id = i ∧
        (deactivateUser st caller id now).1 =
          { st with users := updateFirst (fun u => decide (u._id = i)) (fun _ => y) st.users }) := by
  refine ⟨?_, ?_, ?_, ?_, ?_⟩
  · intro body now
    cases hfc : findByCredentials lib st body.email body.password with
    | none => left; simp [login, hfc]
    | some u =>
      right
      simp only [login, hfc]
      exact ⟨u._id, _, by simp [userPreSave], rfl⟩
  · intro caller body salt now tokenTime
    cases hf : st.findUser caller._id with
    | none => left; simp [changePassword, hf]
    | some user =>
      simp only [changePassword, hf]
      split
      · left; rfl
      · split
        · left; rfl
        · split
          · left; rfl
          · right
            refine ⟨caller._id, _, ?_, rfl⟩
            have := findUser_id hf
            simp only [userPreSave]
            split <;> simp [this]
  · intro caller body now
    unfold updateProfile
    split
    · left; rfl
    · split
      · left; rfl
      · cases hf : st.findUser caller._id with
        | none => left; rfl
        | some user =>
          simp only
          split
          · left; rfl
          · right
            refine ⟨caller._id, _, ?_, rfl⟩
            show user._id = caller._id
            exact findUser_id hf
  · intro caller id body now
    cases hc : castObjectId id with
    | none => left; simp [updateUser, hc]
    | some i =>
      cases hf : st.findUser i with
      | none => left; simp [updateUser, hc, hf]
      | some user =>
        simp only [updateUser, hc, hf]
        split
        · left; rfl
        · split
          · left; rfl
          · split
            · left; rfl
            · split
              · left; rfl
              · split
                · left; rfl
                · right
                  refine ⟨i, _, ?_, rfl⟩
                  show user._id = i
                  exact findUser_id hf
  · intro caller id now
    cases hc : castObjectId id with
    | none => left; simp [deactivateUser, hc]
    | some i =>
      cases hf : st.findUser i with
      | none => left; simp [deactivateUser, hc, hf]
      | some user =>
        simp only [deactivateUser, hc, hf]
        split
        · left; rfl
        · split
          · left; rfl
          · right
            refine ⟨i, _, ?_, rfl⟩
            show user._id = i
            exact findUser_id hf

/-- `createTask` never changes the users, and changes nothing when it fails. -/
theorem createTask_frame (st : Store) (caller : User) (body : CreateTaskBody)
    (newId : ObjectId) (now : Int) :
    (createTask st caller body newId now).1.users = st.users ∧
    (∀ e, (createTask st caller body newId now).2 = .error e →
      (createTask st caller body newId now).1 = st) := by
  cases hc : (if caller.role = "admin" ∧ truthy body.userId = true then
        OwnerFilter.raw (body.userId.getD "")
      else OwnerFilter.own caller._id).cast with
  | none => simp [createTask, hc]
  | some owner =>
    cases hv : validateNewTask body.title body.status body.priority body.description
        body.tags with
    | some path => simp [createTask, hc, hv]
    | none =>
      by_cases hdup : (st.findTask newId).isSome = true
      · simp [createTask, hc, hv, hdup]
      · simp [createTask, hc, hv, hdup]

/-- `createTask` keeps owners and creators resolvable when the caller is a
stored user and an owner named by an administrator is the id of a stored user. -/
theorem refsResolve_createTask (st : Store) (caller : User) (body : CreateTaskBody)
    (newId : ObjectId) (now : Int) (hcaller : caller._id ∈ st.userIds)
    (hassign : caller.role = "admin" → truthy body.userId = true →
      ∀ i, castObjectId (body.userId.getD "") = some i → i ∈ st.userIds)
    (h : st.refsResolve = true) :
    (createTask st caller body newId now).1.refsResolve = true := by
  obtain ⟨husers, hfail⟩ := createTask_frame st caller body newId now
  cases hr : (createTask st caller body newId now).2 with
  | error e => rw [hfail e hr]; exact h
  | ok t =>
    obtain ⟨hadm, hmem, hcr, htasks⟩ :=
      createTask_stored_task st caller body newId now t hr
    rw [refsResolve_iff] at h ⊢
    intro x hx
    simp only [Store.userIds, husers]
    rw [htasks, List.mem_append, List.mem_singleton] at hx
    rcases hx with hx | rfl
    · exact h x hx
    · refine ⟨?_, by rw [hcr]; exact hcaller⟩
      by_cases hc : caller.role = "admin" ∧ truthy body.userId = true
      · exact hassign hc.1 hc.2 _ (hadm hc.1 hc.2)
      · rw [hmem hc]; exact hcaller

/-- `updateTask` keeps owners and creators resolvable when an owner named by an
administrator is the id of a stored user. -/
theorem refsResolve_updateTask (st : Store) (caller : User) (id : String)
    (body : UpdateTaskBody) (now : Int)
    (hassign : caller.role = "admin" → truthy body.userId = true →
      ∀ i, castObjectId (body.userId.getD "") = some i → i ∈ st.userIds)
    (h : st.refsResolve = true) :
    (updateTask st caller id body now).1.refsResolve = true := by
  cases hc : castObjectId id with
  | none => simpa [updateTask, hc] using h
  | some i =>
    cases hf : st.findTask i with
    | none => simpa [updateTask, hc, hf] using h
    | some task =>
      by_cases hden : caller.role ≠ "admin" ∧ task.user.hex ≠ caller.id
      · simpa [updateTask, hc, hf, hden] using h
      · cases ho : (match (buildTaskUpdate caller body).user with
            | some s => (castObjectId s).map some
            | none => some none) with
        | none =>
          simp only [updateTask, hc, hf, hden, if_false, ho]
          exact h
        | some owner =>
          cases hv : validateTaskUpdate (buildTaskUpdate caller body) with
          | some path =>
            simp only [updateTask, hc, hf, hden, if_false, ho, hv]
            exact h
          | none =>
            simp only [updateTask, hc, hf, hden, if_false, ho, hv]
            have htask := h
            rw [refsResolve_iff] at h ⊢
            intro x hx
            show x.user ∈ st.userIds ∧ x.createdBy ∈ st.userIds
            rcases mem_updateFirst_const _ _ _ _ hx with hx' | rfl
            · exact h x hx'
            · have hold := h task (List.mem_of_find?_eq_some hf)
              refine ⟨?_, hold.2⟩
              cases owner with
              | none => exact hold.1
              | some o =>
                show o ∈ st.userIds
                simp only [buildTaskUpdate] at ho
                by_cases ha : caller.role = "admin" ∧ truthy body.userId = true
                · simp only [ha, and_self, if_true] at ho
                  cases hb : body.userId with
                  | none => simp [hb, truthy] at ha
                  | some s =>
                    simp only [hb] at ho
                    cases hcs : castObjectId s with
                    | none => simp [hcs] at ho
                    | some o' =>
                      simp only [hcs, Option.map_some', Option.some.injEq] at ho
                      subst ho
                      exact hassign ha.1 ha.2 o' (by simp [hb, hcs])
                · simp [ha] at ho

/-- A bulk update changes neither the owner nor the creator of a task. -/
theorem bulkApply_refs (caller : User) (ids : List ObjectId) (status : String) (now : Int)
    (t : Task) :
    (bulkApply caller ids status now t).user = t.user ∧
    (bulkApply caller ids status now t).createdBy = t.createdBy := by
  unfold bulkApply; split <;> exact ⟨rfl, rfl⟩

/-- The remaining task handlers and `deleteUser` keep owners and creators
resolvable, `deleteUser` provided every task created by the target is owned by
the target. -/
theorem refsResolve_delete_bulk (st : Store) (caller : User) (h : st.refsResolve = true) :
    (∀ id, (deleteTask st caller id).1.refsResolve = true) ∧
    (∀ body now, (bulkUpdateStatus st caller body now).1.refsResolve = true) ∧
    (∀ id, (∀ i, castObjectId id = some i → ∀ t ∈ st.tasks, t.createdBy = i → t.user = i) →
      (deleteUser st caller id).1.refsResolve = true) := by
  refine ⟨?_, ?_, ?_⟩
  · intro id
    cases hc : castObjectId id with
    | none => simpa [deleteTask, hc] using h
    | some i =>
      cases hf : st.findTask i with
      | none => simpa [deleteTask, hc, hf] using h
      | some task =>
        simp only [deleteTask, hc, hf]
        split
        · exact h
        · rw [refsResolve_iff] at h ⊢
          intro x hx
          exact h x (List.mem_of_mem_eraseP hx)
  · intro body now
    unfold bulkUpdateStatus
    split
    · exact h
    · exact h
    · split
      · exact h
      · split
        · exact h
        · split
          · exact h
          · rw [refsResolve_iff] at h ⊢
            intro x hx
            simp only [List.mem_map] at hx
            obtain ⟨t, ht, rfl⟩ := hx
            rw [(bulkApply_refs caller _ _ now t).1, (bulkApply_refs caller _ _ now t).2]
            exact h t ht
  · intro id hcreated
    cases hc : castObjectId id with
    | none => simpa [deleteUser, hc] using h
    | some i =>
      cases hf : st.findUser i with
      | none => simpa [deleteUser, hc, hf] using h
      | some user =>
        simp only [deleteUser, hc, hf]
        split
        · exact h
        · rw [refsResolve_iff] at h ⊢
          intro x hx
          simp only [List.mem_filter, Bool.not_eq_true', decide_eq_false_iff_not] at hx
          have hkeep : ∀ k, k ∈ st.userIds → k ≠ i →
              k ∈ (st.users.eraseP (fun u => decide (u._id = i))).map (fun u => u._id) := by
            intro k hk hne
            simp only [Store.userIds, List.mem_map] at hk
            obtain ⟨u, hu, rfl⟩ := hk
            exact List.mem_map.2 ⟨u, (List.mem_eraseP_of_neg (by simpa using hne)).2 hu, rfl⟩
          refine ⟨hkeep _ (h x hx.1).1 hx.2, hkeep _ (h x hx.1).2 ?_⟩
          intro hcb
          exact hx.2 (hcreated i hc x hx.1 hcb)

/-- The store after `activateUser`: unchanged, or one stored user replaced by a
document with the same id. -/
theorem activateUser_store (st : Store) (id : String) (now : Int) :
    (activateUser st id now).1 = st ∨ ∃ i y, y._id = i ∧
      (activateUser st id now).1 =
        { st with users := updateFirst (fun u => decide (u._id = i)) (fun _ => y) st.users } := by
  cases hc : castObjectId id with
  | none => left; simp [activateUser, hc]
  | some i =>
    cases hf : st.findUser i with
    | none => left; simp [activateUser, hc, hf]
    | some user =>
      simp only [activateUser, hc, hf]
      split
      · left; rfl
      · right
        refine ⟨i, _, ?_, rfl⟩
        show user._id = i
        exact findUser_id hf

/-- Every transition keeps the owners and creators of all tasks resolvable. -/
theorem refsResolve_step (lib : Lib) (cfg : Config) (st st' : Store)
    (hstep : Step lib cfg st st') (h : st.refsResolve = true) : st'.refsResolve = true := by
  have hsave : ∀ s : Store, (s = st ∨ ∃ i y, y._id = i ∧
      s = { st with users := updateFirst (fun u => decide (u._id = i)) (fun _ => y) st.users }) →
      s.refsResolve = true := by
    rintro s (rfl | ⟨i, y, hy, rfl⟩)
    · exact h
    · exact refsResolve_of_user_replaced st i y hy h
  obtain ⟨hlogin, hpw, hprof, hupd, hdeact⟩ := user_save_store lib cfg st
  cases hstep with
  | register body newId salt now =>
    rcases register_store lib cfg st body newId salt now with hst | ⟨u, hst⟩
    · rw [hst]; exact h
    · rw [hst]
      refine refsResolve_of_users_grow st { st with users := st.users ++ [u] } rfl ?_ h
      intro k hk
      simp only [Store.userIds, List.map_append, List.mem_append] at hk ⊢
      exact Or.inl hk
  | login body now => exact hsave _ (hlogin body now)
  | changePassword caller body salt now tokenTime =>
    exact hsave _ (hpw caller body salt now tokenTime)
  | updateProfile caller body now => exact hsave _ (hprof caller body now)
  | createTask caller body newId now hcaller hassign =>
    exact refsResolve_createTask st caller body newId now hcaller hassign h
  | updateTask caller id body now hassign =>
    exact refsResolve_updateTask st caller id body now hassign h
  | deleteTask caller id => exact (refsResolve_delete_bulk st caller h).1 id
  | bulkUpdateStatus caller body now => exact (refsResolve_delete_bulk st caller h).2.1 body now
  | updateUser caller id body now => exact hsave _ (hupd caller id body now)
  | deactivateUser caller id now => exact hsave _ (hdeact caller id now)
  | activateUser id now => exact hsave _ (activateUser_store st id now)
  | deleteUser caller id hcreated => exact (refsResolve_delete_bulk st caller h).2.2 id hcreated

/-- An id is the id of a stored user exactly when the lookup finds a user. -/
theorem mem_userIds_iff (st : Store) (i : ObjectId) :
    i ∈ st.userIds ↔ (st.findUser i).isSome = true := by
  simp [Store.userIds, Store.findUser]

/-- C19 (amended): the owner and the creator of every task are ids of stored
users in every state reached from a state with that property by handled
requests, provided an administrator who names an owner in `createTask` or
`updateTask` names the id of a stored user and `deleteUser` is applied only to a
user all of whose created tasks are owned by that user (the side conditions of
`Step`). -/
theorem refsResolve_reachable (lib : Lib) (cfg : Config) (st0 st : Store)
    (hreach : Relation.ReflTransGen (Step lib cfg) st0 st) (h0 : st0.refsResolve = true) :
    st.refsResolve = true ∧
    ∀ t ∈ st.tasks, (st.findUser t.user).isSome = true ∧
      (st.findUser t.createdBy).isSome = true := by
  have hinv : st.refsResolve = true := by
    induction hreach with
    | refl => exact h0
    | tail _ hstep ih => exact refsResolve_step lib cfg _ _ hstep ih
  refine ⟨hinv, ?_⟩
  intro t ht
  have := (refsResolve_iff st).1 hinv t ht
  exact ⟨(mem_userIds_iff st _).1 this.1, (mem_userIds_iff st _).1 this.2⟩

/-- Instance of the amended C19: Alice creates a task in the sample store. -/
theorem refsResolve_reachable_witness :
    createdStore.refsResolve = true ∧
    ∀ t ∈ createdStore.tasks, (createdStore.findUser t.user).isSome = true ∧
      (createdStore.findUser t.createdBy).isSome = true :=
  refsResolve_reachable sampleLib sampleCfg sampleStore createdStore
    (Relation.ReflTransGen.single
      (Step.createTask sampleStore sampleAlice { title := some "Write spec" }
        ⟨"cccccccccccccccccccccccc"⟩ 6000 (by decide)
        (fun h => absurd h (by decide))))
    (by decide)

/-! ### Free-text search -/

/-- A pattern of characters other than the dot matches at the start of a text
exactly when it is a prefix of the text, letters compared without regard to
case. -/
theorem matchHereI_plain (pat : List Char) (hp : ∀ c ∈ pat, c ≠ '.') :
    ∀ text : List Char,
      matchHereI pat text = true ↔
        List.IsPrefix (pat.map Char.toLower) (text.map Char.toLower) := by
  induction pat with
  | nil => intro text; simp [matchHereI]
  | cons p ps ih =>
    intro text
    have hp' : p ≠ '.' := hp p (List.mem_cons_self _ _)
    have ih' := ih (fun c hc => hp c (List.mem_cons_of_mem _ hc))
    cases text with
    | nil => simp [matchHereI]
    | cons c cs =>
      simp only [matchHereI, hp', decide_False, Bool.false_and, Bool.false_or,
        Bool.and_eq_true, decide_eq_true_eq, List.map_cons, List.cons_prefix_cons, ih' cs]

/-- A pattern of characters other than the dot is found in a text exactly when
it occurs in it as a contiguous substring, letters compared without regard to
case. -/
theorem searchI_plain (pat : List Char) (hp : ∀ c ∈ pat, c ≠ '.') :
    ∀ text : List Char,
      searchI pat text = true ↔
        List.IsInfix (pat.map Char.toLower) (text.map Char.toLower) := by
  intro text
  induction text with
  | nil =>
    simp only [searchI, matchHereI_plain pat hp, List.map_nil, List.prefix_nil, List.infix_nil]
  | cons c cs ih =>
    simp only [searchI, Bool.or_eq_true, matchHereI_plain pat hp, ih, List.map_cons,
      List.infix_cons_iff]

/-- On patterns without special characters the engine of `dotRegexLib` is the
substring test without regard to case. -/
theorem dotRegexLib_plain (p subject : String) (hp : isPlain p = true) :
    dotRegexLib.regexI p subject = true ↔ containsI p subject := by
  have hdot : ∀ c ∈ p.data, c ≠ '.' := by
    intro c hc hdot
    simp only [isPlain, List.all_eq_true] at hp
    have := hp c hc
    rw [hdot] at this
    exact absurd this (by decide)
  exact searchI_plain p.data hdot subject.data

/-- C20 (counterexample): with the search string W.ite the list of Alice
contains her task titled Write spec, although the string does not occur, in any
letter case, in the title or in the description of that task: the dot is
interpreted as a wildcard. -/
theorem search_dot_is_wildcard :
    dotRegexLib.regexValid "W.ite" = true ∧
    (getTasks dotRegexLib sampleStore sampleAlice { search := some "W.ite" }).map
        (fun r => r.data.map (fun p => (p.task._id, p.task.title, p.task.description))) =
      .ok [(⟨"aaaaaaaaaaaaaaaaaaaaaaaa"⟩, "Write spec", "")] ∧
    ¬ containsI "W.ite" "Write spec" ∧ ¬ containsI "W.ite" "" := by
  refine ⟨by decide, by decide, ?_, ?_⟩
  · unfold containsI; decide
  · unfold containsI; decide

/-- C20 (amended): the free-text search of `getTasks` applies the search string
as a regular expression, without regard to case, to title and description: the
documents matched are those the caller may see for which the pattern matches
the title or the description. When the search string has no special character
of regular expressions, and the engine treats such a pattern as literal text,
a visible task matches exactly when the string occurs, compared without regard
to case, as a contiguous substring of its title or of its description. -/
theorem search_filter_is_regex (lib : Lib) (st : Store) (caller : User) (s : String)
    (hs : s ≠ "") (hvalid : lib.regexValid s = true) :
    findTasks lib st (buildTaskFilter caller { search := some s }) =
      .ok (st.tasks.filter (fun t =>
        (decide (caller.role = "admin") || decide (t.user = caller._id)) &&
          (lib.regexI s t.title || lib.regexI s t.description))) ∧
    (isPlain s = true →
      (∀ p subject, isPlain p = true → (lib.regexI p subject = true ↔ containsI p subject)) →
      ∀ t ∈ st.tasks, (caller.role = "admin" ∨ t.user = caller._id) →
        (t ∈ st.tasks.filter (fun t =>
            (decide (caller.role = "admin") || decide (t.user = caller._id)) &&
              (lib.regexI s t.title || lib.regexI s t.description)) ↔
          (containsI s t.title ∨ containsI s t.description))) := by
  have ht : truthy (some s) = true := by simp [truthy, hs]
  constructor
  · by_cases hadmin : caller.role = "admin"
    · have hb : buildTaskFilter caller { search := some s } = { search := some s } := by
        simp only [buildTaskFilter, hadmin, ht]
        simp [truthy]
      simp only [findTasks, hb, searchAccepted, hvalid, if_true]
      congr 1
      apply List.filter_congr
      intro t _
      simp [taskMatches, hadmin]
    · have hb : buildTaskFilter caller { search := some s } =
          { user := some (.own caller._id), search := some s } := by
        simp only [buildTaskFilter, hadmin, ht]
        simp [truthy, hadmin]
      simp only [findTasks, hb, searchAccepted, hvalid, if_true, OwnerFilter.cast,
        Option.map_some']
      congr 1
      apply List.filter_congr
      intro t _
      simp [taskMatches, hadmin]
  · intro hplain hlit t htm hvis
    have hown : (decide (caller.role = "admin") || decide (t.user = caller._id)) = true := by
      rcases hvis with h | h <;> simp [h]
    simp only [List.mem_filter, htm, true_and, hown, Bool.true_and, Bool.or_eq_true,
      hlit s _ hplain]

/-- Instance of the amended C20: Alice searches for the plain string SPEC. -/
theorem search_filter_is_regex_witness :
    findTasks dotRegexLib sampleStore (buildTaskFilter sampleAlice { search := some "SPEC" }) =
      .ok (sampleStore.tasks.filter (fun t =>
        (decide (sampleAlice.role = "admin") || decide (t.user = sampleAlice._id)) &&
          (dotRegexLib.regexI "SPEC" t.title || dotRegexLib.regexI "SPEC" t.description))) ∧
    ∀ t ∈ sampleStore.tasks, (sampleAlice.role = "admin" ∨ t.user = sampleAlice._id) →
      (t ∈ sampleStore.tasks.filter (fun t =>
          (decide (sampleAlice.role = "admin") || decide (t.user = sampleAlice._id)) &&
            (dotRegexLib.regexI "SPEC" t.title || dotRegexLib.regexI "SPEC" t.description)) ↔
        (containsI "SPEC" t.title ∨ containsI "SPEC" t.description)) :=
  have h := search_filter_is_regex dotRegexLib sampleStore sampleAlice "SPEC"
    (by decide) (by decide)
  ⟨h.1, h.2 (by decide) dotRegexLib_plain⟩

/-! ### Pagination -/

/-- A successful `getTasks`, written out: the documents found, the page of them
that is sent and the pagination block. -/
theorem getTasks_ok_shape (lib : Lib) (st : Store) (caller : User) (q : TaskQuery)
    (r : TaskPage) (h : getTasks lib st caller q = .ok r) :
    ∃ found, findTasks lib st (buildTaskFilter caller q) = .ok found ∧
      r.data = (mongoLimit (q.limit.getD 10)
        ((sortTasks (q.sortBy.getD "createdAt") (decide (q.order.getD "desc" = "asc"))
          found).drop ((q.page.getD 1 - 1) * q.limit.getD 10))).map (populateUser st) ∧
      r.pagination =
        { total := found.length
          page := q.page.getD 1
          limit := q.limit.getD 10
          totalPages := (found.length + q.limit.getD 10 - 1) / q.limit.getD 10
          hasNextPage :=
            decide (q.page.getD 1 < (found.length + q.limit.getD 10 - 1) / q.limit.getD 10)
          hasPrevPage := decide (q.page.getD 1 > 1) } := by
  cases hf : findTasks lib st (buildTaskFilter caller q) with
  | error e => simp [getTasks, hf] at h
  | ok found =>
    simp only [getTasks, hf] at h
    cases h
    exact ⟨found, rfl, rfl, rfl⟩

/-- A limit that passes `isInt` between 1 and 100 after `toInt()` is such an
integer. -/
theorem isIntBetween_limit (v : Option Int) (h : isIntBetween 1 (some 100) v = true) :
    ∃ n : Nat, v = some (n : Int) ∧ 1 ≤ n ∧ n ≤ 100 := by
  cases v with
  | none => simp [isIntBetween] at h
  | some n =>
    simp only [isIntBetween, Bool.and_eq_true, decide_eq_true_eq] at h
    refine ⟨n.toNat, ?_, ?_, ?_⟩
    · rw [Int.toNat_of_nonneg (by omega)]
    · omega
    · omega

/-- The limit check of `paginationValidation` passes when the chain reports no
failing field. -/
theorem paginationValidation_limit (q : RawTaskQuery) (h : paginationValidation q = [])
    (s : String) (hs : q.limit = some s) : isIntBetween 1 (some 100) (parseInt s) = true := by
  simp only [paginationValidation, hs, List.append_eq_nil] at h
  obtain ⟨⟨⟨_, h2⟩, _⟩, _⟩ := h
  by_contra hc
  rw [if_neg hc] at h2
  cases h2

/-- `mongoLimit` with a positive limit returns at most that many documents. -/
theorem length_mongoLimit_le {α : Type} (n : Nat) (l : List α) (hn : 1 ≤ n) :
    (mongoLimit n l).length ≤ n := by
  unfold mongoLimit
  rw [if_neg (by omega)]
  simp [List.length_take]

/-- C21 (counterexample): the page size is not clamped. `GET /tasks` with
`limit=1000` or `limit=0` is rejected with status 400 instead of being served
with 100 or 1 records per page, and `getAllUsers`, whose route runs no
validation, reports the limits 1000 and 0 as requested. -/
theorem page_size_not_clamped :
    getTasksRoute sampleLib sampleStore sampleAlice { limit := some "1000" } =
      .error (ApiError.badRequest "Validation failed") ∧
    getTasksRoute sampleLib sampleStore sampleAlice { limit := some "0" } =
      .error (ApiError.badRequest "Validation failed") ∧
    (∃ r, getAllUsers sampleLib sampleStore { limit := some 1000 } = .ok r ∧
      r.pagination.limit = 1000) ∧
    (∃ r, getAllUsers sampleLib sampleStore { limit := some 0 } = .ok r ∧
      r.pagination.limit = 0 ∧ r.data.length = 3) := by
  refine ⟨by decide, by decide, ⟨_, rfl, rfl⟩, ⟨_, rfl, rfl, ?_⟩⟩
  decide

/-- C21 (amended): `GET /tasks` validates the requested page size instead of
clamping it. A request that is served reports a limit between 1 and 100 and
carries at most that many records; the limit is 10 when none is requested and
otherwise the integer that `toInt()` reads from the requested string. A
requested limit that reads as no integer, or as one below 1 or above 100, is
answered with 400 `Validation failed`. -/
theorem getTasks_limit_validated (lib : Lib) (st : Store) (caller : User) (q : RawTaskQuery) :
    (∀ r, getTasksRoute lib st caller q = .ok r →
      1 ≤ r.pagination.limit ∧ r.pagination.limit ≤ 100 ∧
      r.data.length ≤ r.pagination.limit ∧
      (q.limit = none → r.pagination.limit = 10) ∧
      (∀ s, q.limit = some s → parseInt s = some (r.pagination.limit : Int))) ∧
    (∀ s, q.limit = some s → (∀ n, parseInt s = some n → n < 1 ∨ 100 < n) →
      getTasksRoute lib st caller q = .error (ApiError.badRequest "Validation failed")) := by
  constructor
  · intro r h
    by_cases hv : paginationValidation q = []
    · simp only [getTasksRoute, hv, ne_eq, not_true_eq_false, if_false] at h
      obtain ⟨found, _, hdata, hpag⟩ := getTasks_ok_shape lib st caller _ r h
      have hlim : r.pagination.limit = (sanitizeQuery q).limit.getD 10 := by rw [hpag]
      cases hl : q.limit with
      | none =>
        have h10 : (sanitizeQuery q).limit.getD 10 = 10 := by simp [sanitizeQuery, hl]
        rw [h10] at hlim hdata
        refine ⟨by omega, by omega, ?_, fun _ => hlim, fun s hs => by cases hs⟩
        rw [hdata, List.length_map, hlim]
        exact length_mongoLimit_le _ _ (by omega)
      | some s =>
        obtain ⟨n, hn, h1, h100⟩ := isIntBetween_limit _ (paginationValidation_limit q hv s hl)
        have hn' : (sanitizeQuery q).limit.getD 10 = n := by simp [sanitizeQuery, hl, hn]
        rw [hn'] at hlim hdata
        refine ⟨by omega, by omega, ?_, fun h0 => (by cases h0), ?_⟩
        · rw [hdata, List.length_map, hlim]
          exact length_mongoLimit_le _ _ h1
        · intro s' hs'
          cases hs'
          rw [hn, hlim]
    · simp [getTasksRoute, hv] at h
  · intro s hs hbad
    have hv : paginationValidation q ≠ [] := by
      intro hv
      obtain ⟨n, hn, h1, h100⟩ := isIntBetween_limit _ (paginationValidation_limit q hv s hs)
      rcases hbad _ hn with h | h <;> omega
    simp [getTasksRoute, hv]

/-- A page precedes the last one exactly when records lie beyond it. -/
theorem lt_ceil_div_iff (total limit page : Nat) (hl : 1 ≤ limit) :
    page < (total + limit - 1) / limit ↔ page * limit < total := by
  rw [Nat.lt_iff_add_one_le, Nat.le_div_iff_mul_le (by omega), Nat.add_mul]
  omega

/-- The computed page count is the least number of pages that hold all records. -/
theorem ceil_div_le_iff (total limit k : Nat) (hl : 1 ≤ limit) :
    (total + limit - 1) / limit ≤ k ↔ total ≤ k * limit := by
  have h := lt_ceil_div_iff total limit k hl
  omega

/-- `Math.ceil(total / limit)` on natural numbers. -/
theorem ceil_div_eq (total limit : Nat) (hl : 1 ≤ limit) :
    (total + limit - 1) / limit = ⌈(total : ℚ) / (limit : ℚ)⌉₊ := by
  have hpos : (0 : ℚ) < (limit : ℚ) := by exact_mod_cast hl
  apply le_antisymm
  · rw [ceil_div_le_iff total limit _ hl]
    have h := Nat.le_ceil ((total : ℚ) / (limit : ℚ))
    rw [div_le_iff₀ hpos] at h
    exact_mod_cast h
  · rw [Nat.ceil_le, div_le_iff₀ hpos]
    have h := (ceil_div_le_iff total limit _ hl).1 (le_refl _)
    exact_mod_cast h

/-- A successful `getAllUsers`, written out. -/
theorem getAllUsers_ok_shape (lib : Lib) (st : Store) (q : UserListQuery) (r : UserPage)
    (h : getAllUsers lib st q = .ok r) :
    r.data = (mongoLimit (q.limit.getD 10)
        ((sortUsers (q.sortBy.getD "createdAt") (decide (q.order.getD "desc" = "asc"))
          (st.users.filter (userMatches lib q))).drop
            ((q.page.getD 1 - 1) * q.limit.getD 10))).map leanUser ∧
      r.pagination =
        { total := (st.users.filter (userMatches lib q)).length
          page := q.page.getD 1
          limit := q.limit.getD 10
          totalPages :=
            if q.limit.getD 10 = 0 then none
            else some (((st.users.filter (userMatches lib q)).length + q.limit.getD 10 - 1) /
              q.limit.getD 10)
          hasNextPage :=
            if q.limit.getD 10 = 0 then decide (0 < (st.users.filter (userMatches lib q)).length)
            else decide (q.page.getD 1 <
              ((st.users.filter (userMatches lib q)).length + q.limit.getD 10 - 1) /
                q.limit.getD 10)
          hasPrevPage := decide (q.page.getD 1 > 1) } := by
  by_cases h1 : truthy q.search = true ∧ lib.regexValid (q.search.getD "") = false
  · simp only [getAllUsers, if_pos h1] at h
    cases h
  · by_cases h2 : q.page.getD 1 = 0 ∧ q.limit.getD 10 ≠ 0
    · simp only [getAllUsers, if_neg h1, if_pos h2] at h
      cases h
    · simp only [getAllUsers, if_neg h1, if_neg h2] at h
      cases h
      exact ⟨rfl, rfl⟩

/-- The records skipped and the page itself end at index `page * limit`. -/
theorem skip_add_limit (page limit : Nat) (hp : 1 ≤ page) :
    (page - 1) * limit + limit = page * limit := by
  obtain ⟨k, rfl⟩ : ∃ k, page = k + 1 := ⟨page - 1, by omega⟩
  simp [Nat.add_mul]

/-- C22: for a page size of at least 1 and a page index of at least 1, the
pagination block of `getTasks` and of `getAllUsers` has `total` the number of
records matching the filter, `totalPages = ceil(total / limit)`, the page sent
is what remains of the sorted records after skipping `(page - 1) * limit` of
them, cut to `limit`, so that it ends at index `page * limit`, `hasPrevPage`
holds exactly when `page > 1`, and `hasNextPage` exactly when
`page * limit < total`. -/
theorem pagination_block (lib : Lib) (st : Store) (caller : User) (q : TaskQuery)
    (uq : UserListQuery)
    (hl : 1 ≤ q.limit.getD 10) (hp : 1 ≤ q.page.getD 1)
    (hul : 1 ≤ uq.limit.getD 10) (hup : 1 ≤ uq.page.getD 1) :
    (∀ r, getTasks lib st caller q = .ok r →
      ∃ found, findTasks lib st (buildTaskFilter caller q) = .ok found ∧
        r.pagination.total = found.length ∧
        r.pagination.page = q.page.getD 1 ∧ r.pagination.limit = q.limit.getD 10 ∧
        r.pagination.totalPages = ⌈(found.length : ℚ) / (q.limit.getD 10 : ℚ)⌉₊ ∧
        r.data = (((sortTasks (q.sortBy.getD "createdAt") (decide (q.order.getD "desc" = "asc"))
          found).drop ((q.page.getD 1 - 1) * q.limit.getD 10)).take (q.limit.getD 10)).map
            (populateUser st) ∧
        (q.page.getD 1 - 1) * q.limit.getD 10 + q.limit.getD 10 =
          q.page.getD 1 * q.limit.getD 10 ∧
        (r.pagination.hasPrevPage = true ↔ 1 < q.page.getD 1) ∧
        (r.pagination.hasNextPage = true ↔ q.page.getD 1 * q.limit.getD 10 < found.length)) ∧
    (∀ r, getAllUsers lib st uq = .ok r →
      r.pagination.total = (st.users.filter (userMatches lib uq)).length ∧
      r.pagination.page = uq.page.getD 1 ∧ r.pagination.limit = uq.limit.getD 10 ∧
      r.pagination.totalPages =
        some ⌈((st.users.filter (userMatches lib uq)).length : ℚ) / (uq.limit.getD 10 : ℚ)⌉₊ ∧
      r.data = (((sortUsers (uq.sortBy.getD "createdAt") (decide (uq.order.getD "desc" = "asc"))
          (st.users.filter (userMatches lib uq))).drop
            ((uq.page.getD 1 - 1) * uq.limit.getD 10)).take (uq.limit.getD 10)).map leanUser ∧
      (uq.page.getD 1 - 1) * uq.limit.getD 10 + uq.limit.getD 10 =
        uq.page.getD 1 * uq.limit.getD 10 ∧
      (r.pagination.hasPrevPage = true ↔ 1 < uq.page.getD 1) ∧
      (r.pagination.hasNextPage = true ↔
        uq.page.getD 1 * uq.limit.getD 10 < (st.users.filter (userMatches lib uq)).length)) := by
  constructor
  · intro r h
    obtain ⟨found, hf, hdata, hpag⟩ := getTasks_ok_shape lib st caller q r h
    refine ⟨found, hf, by rw [hpag], by rw [hpag], by rw [hpag], ?_, ?_,
      skip_add_limit _ _ hp, ?_, ?_⟩
    · rw [hpag]
      exact ceil_div_eq _ _ hl
    · rw [hdata, mongoLimit, if_neg (by omega)]
    · rw [hpag]
      simp
    · rw [hpag]
      simp only [decide_eq_true_eq]
      exact lt_ceil_div_iff _ _ _ hl
  · intro r h
    obtain ⟨hdata, hpag⟩ := getAllUsers_ok_shape lib st uq r h
    have hne : ¬ uq.limit.getD 10 = 0 := by omega
    refine ⟨by rw [hpag], by rw [hpag], by rw [hpag], ?_, ?_, skip_add_limit _ _ hup, ?_, ?_⟩
    · rw [hpag]
      simp only [if_neg hne]
      rw [ceil_div_eq _ _ hul]
    · rw [hdata, mongoLimit, if_neg hne]
    · rw [hpag]
      simp
    · rw [hpag]
      simp only [if_neg hne, decide_eq_true_eq]
      exact lt_ceil_div_iff _ _ _ hul

/-- Instance of C22: the administrator lists the two sample tasks and the three
sample users one per page and asks for the first page. -/
theorem pagination_block_witness :
    (∃ r, getTasks sampleLib sampleStore sampleAdmin { limit := some 1 } = .ok r ∧
      r.pagination.total = 2 ∧ r.pagination.totalPages = 2 ∧ r.data.length = 1 ∧
      r.pagination.hasPrevPage = false ∧ r.pagination.hasNextPage = true) ∧
    (∃ r, getAllUsers sampleLib sampleStore { limit := some 1 } = .ok r ∧
      r.pagination.total = 3 ∧ r.pagination.totalPages = some ⌈((3 : Nat) : ℚ) / ((1 : Nat) : ℚ)⌉₊ ∧
      (r.pagination.hasNextPage = true ↔ 1 * 1 < 3)) :=
  have h := pagination_block sampleLib sampleStore sampleAdmin { limit := some 1 }
    { limit := some 1 } (by decide) (by decide) (by decide) (by decide)
  ⟨⟨_, rfl, by decide, by decide, by decide, by decide, by decide⟩,
   ⟨_, rfl, by decide, (h.2 _ rfl).2.2.2.1, (h.2 _ rfl).2.2.2.2.2.2.2⟩⟩


/-! ### Statistics -/

/-- Counting a label leaves the entries of the other labels as they are. -/
theorem mem_bump_of_ne (k k' : String) (n : Nat) (hne : k' ≠ k) (acc : List (String × Nat)) :
    (k', n) ∈ bump k acc ↔ (k', n) ∈ acc := by
  induction acc with
  | nil => simp [bump, hne]
  | cons p rest ih =>
    obtain ⟨a, m⟩ := p
    by_cases ha : a = k
    · subst ha
      simp [bump, hne]
    · simp [bump, ha, ih]

/-- Counting a label adds one to its entry, or creates the entry with count one. -/
theorem mem_bump_self (k : String) (n : Nat) (acc : List (String × Nat))
    (hnd : (acc.map Prod.fst).Nodup) :
    (k, n) ∈ bump k acc ↔
      (∃ m, (k, m) ∈ acc ∧ n = m + 1) ∨ (k ∉ acc.map Prod.fst ∧ n = 1) := by
  induction acc with
  | nil => simp [bump]
  | cons p rest ih =>
    obtain ⟨a, m⟩ := p
    simp only [List.map_cons, List.nodup_cons] at hnd
    obtain ⟨hnot, hrest⟩ := hnd
    by_cases ha : a = k
    · subst ha
      have hno : ∀ x, (a, x) ∉ rest := fun x hx => hnot (List.mem_map.2 ⟨(a, x), hx, rfl⟩)
      simp [bump, hno]
    · have hka : ¬ k = a := fun h => ha h.symm
      simp [bump, ha, hka, ih hrest]

/-- Counting a label keeps the labels distinct. -/
theorem nodup_keys_bump (k : String) (acc : List (String × Nat))
    (hnd : (acc.map Prod.fst).Nodup) : ((bump k acc).map Prod.fst).Nodup := by
  induction acc with
  | nil => simp [bump]
  | cons p rest ih =>
    obtain ⟨a, m⟩ := p
    simp only [List.map_cons, List.nodup_cons] at hnd
    obtain ⟨hnot, hrest⟩ := hnd
    by_cases ha : a = k
    · subst ha
      simp only [bump, if_true, List.map_cons, List.nodup_cons]
      exact ⟨hnot, hrest⟩
    · simp only [bump, if_neg ha, List.map_cons, List.nodup_cons]
      refine ⟨?_, ih hrest⟩
      intro hmem
      obtain ⟨⟨b, x⟩, hbx, hb⟩ := List.mem_map.1 hmem
      simp only at hb
      subst hb
      have hbk : b ≠ k := ha
      exact hnot (List.mem_map.2 ⟨(b, x), (mem_bump_of_ne k b x hbk rest).1 hbx, rfl⟩)

/-- Counting a label adds one to the sum of the counts. -/
theorem sum_bump (k : String) (acc : List (String × Nat)) :
    ((bump k acc).map Prod.snd).sum = (acc.map Prod.snd).sum + 1 := by
  induction acc with
  | nil => simp [bump]
  | cons p rest ih =>
    obtain ⟨a, m⟩ := p
    by_cases ha : a = k
    · simp [bump, ha]; omega
    · simp [bump, ha, ih]; omega

/-- Grouping processes the labels in order. -/
theorem groupCount_append (l : List String) (k : String) :
    groupCount (l ++ [k]) = bump k (groupCount l) := by
  simp [groupCount, List.foldl_append]

/-- The grouping stage: one entry per label that occurs, carrying the number of
its occurrences; the counts add up to the number of labels. -/
theorem groupCount_spec (l : List String) :
    ((groupCount l).map Prod.fst).Nodup ∧
    (∀ k n, (k, n) ∈ groupCount l ↔ 0 < n ∧ n = l.count k) ∧
    ((groupCount l).map Prod.snd).sum = l.length := by
  induction l using List.reverseRecOn with
  | nil =>
    simp only [groupCount, List.foldl_nil, List.map_nil, List.nodup_nil, List.not_mem_nil,
      List.count_nil, List.sum_nil, List.length_nil, true_and, and_true, false_iff]
    intro k n h
    omega
  | append_singleton l k ih =>
    obtain ⟨hnd, hmem, hsum⟩ := ih
    rw [groupCount_append]
    refine ⟨nodup_keys_bump k _ hnd, ?_, ?_⟩
    · intro k' n
      by_cases hk : k' = k
      · subst hk
        rw [mem_bump_self k' n _ hnd]
        have hkey : k' ∉ (groupCount l).map Prod.fst ↔ l.count k' = 0 := by
          constructor
          · intro hno
            by_contra hc
            exact hno (List.mem_map.2 ⟨(k', l.count k'),
              (hmem k' _).2 ⟨Nat.pos_of_ne_zero hc, rfl⟩, rfl⟩)
          · intro h0 hin
            obtain ⟨⟨b, x⟩, hbx, hb⟩ := List.mem_map.1 hin
            simp only at hb
            subst hb
            have := (hmem b x).1 hbx
            omega
        simp only [hmem, hkey, List.count_append, List.count_singleton_self]
        constructor
        · rintro (⟨m, ⟨_, rfl⟩, rfl⟩ | ⟨h0, rfl⟩)
          · exact ⟨by omega, rfl⟩
          · exact ⟨by omega, by omega⟩
        · rintro ⟨_, rfl⟩
          by_cases h0 : l.count k' = 0
          · right; exact ⟨h0, by omega⟩
          · left; exact ⟨l.count k', ⟨by omega, rfl⟩, rfl⟩
      · rw [mem_bump_of_ne k k' n hk, hmem]
        have hkk : ¬ k = k' := fun h => hk h.symm
        simp [List.count_append, List.count_singleton, hkk]
    · rw [sum_bump, hsum]
      simp

/-- Occurrences of a label among the values of a field. -/
theorem count_map_eq_length_filter (f : Task → String) (k : String) (l : List Task) :
    (l.map f).count k = (l.filter (fun t => decide (f t = k))).length := by
  induction l with
  | nil => rfl
  | cons t rest ih =>
    by_cases h : f t = k
    · simp [List.count_cons, List.filter_cons, h, ih]
    · simp [List.count_cons, List.filter_cons, h, ih]

/-- C23: in the result of `getStats owner`, `byStatus` has one entry per
status label that occurs among the tasks of `owner`, its count is the number of
those tasks with that status and is therefore never zero, and the counts add
up to the number of tasks of `owner`; likewise `byPriority` for the priority
labels. -/
theorem getStats_counts (st : Store) (owner : ObjectId) :
    (∀ k n, (k, n) ∈ (getStats st owner).byStatus ↔
      0 < n ∧ n = (st.tasks.filter
        (fun t => decide (t.user = owner) && decide (t.status = k))).length) ∧
    ((getStats st owner).byStatus.map Prod.fst).Nodup ∧
    ((getStats st owner).byStatus.map Prod.snd).sum =
      (st.tasks.filter (fun t => decide (t.user = owner))).length ∧
    (∀ k n, (k, n) ∈ (getStats st owner).byPriority ↔
      0 < n ∧ n = (st.tasks.filter
        (fun t => decide (t.user = owner) && decide (t.priority = k))).length) ∧
    ((getStats st owner).byPriority.map Prod.fst).Nodup ∧
    ((getStats st owner).byPriority.map Prod.snd).sum =
      (st.tasks.filter (fun t => decide (t.user = owner))).length := by
  obtain ⟨hs1, hs2, hs3⟩ :=
    groupCount_spec ((st.tasks.filter (fun t => decide (t.user = owner))).map (fun t => t.status))
  obtain ⟨hp1, hp2, hp3⟩ :=
    groupCount_spec ((st.tasks.filter (fun t => decide (t.user = owner))).map (fun t => t.priority))
  refine ⟨?_, hs1, by simpa using hs3, ?_, hp1, by simpa using hp3⟩
  · intro k n
    show (k, n) ∈ groupCount _ ↔ _
    rw [hs2, count_map_eq_length_filter, List.filter_filter]
    simp only [Bool.and_comm]
  · intro k n
    show (k, n) ∈ groupCount _ ↔ _
    rw [hp2, count_map_eq_length_filter, List.filter_filter]
    simp only [Bool.and_comm]


/-- The overdue query selects, among the tasks of the owner, those whose
`isOverdue` virtual is true at the same instant. -/
theorem overdueMatch_eq_isOverdue (owner : ObjectId) (now : Int) (t : Task) :
    overdueMatch owner now t = (decide (t.user = owner) && t.isOverdue now) := by
  unfold overdueMatch Task.isOverdue
  cases hd : t.dueDate with
  | none => simp
  | some d =>
    by_cases hc : t.status = "completed"
    · simp [hc]
    · by_cases hx : t.status = "cancelled"
      · simp [hx]
      · simp [hc, hx]

/-- A successful `getTaskStats`, written out for the owner it selects. -/
theorem getTaskStats_ok_shape (st : Store) (caller : User) (q : StatsQuery) (now : Int)
    (r : TaskStatsResponse) (h : getTaskStats st caller q now = .ok r) :
    ∃ owner,
      (if caller.role = "admin" ∧ truthy q.userId = true then castObjectId (q.userId.getD "")
        else some caller._id) = some owner ∧
      r = { byStatus := (getStats st owner).byStatus
            byPriority := (getStats st owner).byPriority
            overdue := (st.tasks.filter (overdueMatch owner now)).length } := by
  by_cases hc : caller.role = "admin" ∧ truthy q.userId = true
  · cases ho : castObjectId (q.userId.getD "") with
    | none => simp [getTaskStats, hc, OwnerFilter.cast, ho] at h
    | some owner =>
      simp only [getTaskStats, hc, and_self, if_true, OwnerFilter.cast, ho] at h
      cases h
      exact ⟨owner, by rw [if_pos hc], rfl⟩
  · simp only [getTaskStats, if_neg hc, OwnerFilter.cast] at h
    cases h
    exact ⟨caller._id, by rw [if_neg hc], rfl⟩

/-- C24: the overdue count of `getTaskStats` is the number of tasks of the
selected owner (the caller, or for an administrator the owner named by a
non-empty `userId`) whose status is neither completed nor cancelled and whose
due date is set and strictly before the clock; it never exceeds the number of
the owner's tasks with a due date in the past, and a task of the owner is
counted exactly when its `isOverdue` virtual is true at that instant. -/
theorem overdue_count (st : Store) (caller : User) (q : StatsQuery) (now : Int)
    (r : TaskStatsResponse) (h : getTaskStats st caller q now = .ok r) :
    ∃ owner,
      (if caller.role = "admin" ∧ truthy q.userId = true then castObjectId (q.userId.getD "")
        else some caller._id) = some owner ∧
      r.overdue = (st.tasks.filter (fun t =>
        decide (t.user = owner) && decide (t.status ≠ "completed") &&
          decide (t.status ≠ "cancelled") && t.dueDate.any (fun d => decide (d < now)))).length ∧
      r.overdue ≤ (st.tasks.filter (fun t =>
        decide (t.user = owner) && t.dueDate.any (fun d => decide (d < now)))).length ∧
      r.overdue = (st.tasks.filter (fun t =>
        decide (t.user = owner) && t.isOverdue now)).length ∧
      (∀ t ∈ st.tasks, t.user = owner →
        (t ∈ st.tasks.filter (overdueMatch owner now) ↔ t.isOverdue now = true)) := by
  obtain ⟨owner, ho, hr⟩ := getTaskStats_ok_shape st caller q now r h
  subst hr
  refine ⟨owner, ho, ?_, ?_, ?_, ?_⟩
  · show (st.tasks.filter (overdueMatch owner now)).length = _
    congr 1
    apply List.filter_congr
    intro t _
    cases hd : t.dueDate <;> simp [overdueMatch, hd, Bool.and_assoc]
  · show (st.tasks.filter (overdueMatch owner now)).length ≤ _
    apply List.Sublist.length_le
    apply List.monotone_filter_right
    intro t ht
    cases hd : t.dueDate <;> simp_all [overdueMatch]
  · show (st.tasks.filter (overdueMatch owner now)).length = _
    congr 1
    apply List.filter_congr
    intro t _
    exact overdueMatch_eq_isOverdue owner now t
  · intro t ht hu
    simp [List.mem_filter, ht, overdueMatch_eq_isOverdue, hu]

/-- Instance of C24: at 5000 ms Alice has one overdue task among her two tasks
with a due date in the past. -/
theorem overdue_count_witness :
    ∃ r, getTaskStats dueStore sampleAlice {} 5000 = .ok r ∧ r.overdue = 1 ∧
      (dueStore.tasks.filter (fun t =>
        decide (t.user = sampleAlice._id) && t.dueDate.any (fun d => decide (d < 5000)))).length
        = 2 ∧
      ∃ owner, some sampleAlice._id = some owner ∧
        r.overdue = (dueStore.tasks.filter (fun t =>
          decide (t.user = owner) && t.isOverdue 5000)).length :=
  ⟨_, rfl, by decide, by decide,
    (overdue_count dueStore sampleAlice {} 5000 _ rfl).elim
      (fun owner ho => ⟨owner, ho.1, ho.2.2.2.1⟩)⟩


/-! ### Error responses -/

/-- C25: outside development mode, every error that is not flagged operational
(only `ApiError` sets the flag) and is not recognised as a `CastError`, a
duplicate key error (code 11000), a `ValidationError`, a `JsonWebTokenError` or
a `TokenExpiredError` is answered with status 500 and the fixed body
`success: false, status: 'error', message: 'Something went wrong. Please try
again later.'`, without `errors`, `stack` or the error itself; two such errors
get the same response whatever their message, stack or other fields. -/
theorem unexpected_error_generic (nodeEnv : String) (e1 e2 : ErrorObj)
    (hmode : nodeEnv ≠ "development") (h1 : e1.isUnexpected = true)
    (h2 : e2.isUnexpected = true) :
    errorHandler nodeEnv e1 = some genericErrorResponse ∧
    errorHandler nodeEnv e1 = errorHandler nodeEnv e2 := by
  have key : ∀ e : ErrorObj, e.isUnexpected = true →
      errorHandler nodeEnv e = some genericErrorResponse := by
    intro e he
    simp only [ErrorObj.isUnexpected, Bool.and_eq_true, Bool.not_eq_true', decide_eq_true_eq] at he
    obtain ⟨⟨⟨⟨⟨hop, hcast⟩, hdup⟩, hval⟩, hjwt⟩, hexp⟩ := he
    simp only [errorHandler, if_neg hmode, if_neg hcast, if_neg hdup, if_neg hval, if_neg hjwt,
      if_neg hexp, sendErrorProd, hop]
    rfl
  exact ⟨key e1 h1, (key e1 h1).trans (key e2 h2).symm⟩

/-- Instance of C25: a runtime error and a driver error in production mode. -/
theorem unexpected_error_generic_witness :
    sampleTypeError.isUnexpected = true ∧ sampleDriverError.isUnexpected = true ∧
    errorHandler "production" sampleTypeError = some genericErrorResponse ∧
    errorHandler "production" sampleTypeError = errorHandler "production" sampleDriverError :=
  ⟨by decide, by decide,
    unexpected_error_generic "production" sampleTypeError sampleDriverError (by decide)
      (by decide) (by decide)⟩

/-- C26 (counterexample): in development mode the duplicate key error of a
second registration is sent with status 500 and the driver's message, not as
a conflict with status 409. -/
theorem duplicate_key_is_500_in_development :
    (errorHandler "development" sampleDuplicateEmail).map (fun r => r.statusCode) = some 500 ∧
    (errorHandler "development" sampleDuplicateEmail).map (fun r => r.body.message) =
      some "E11000 duplicate key error collection: taskflow.users index: email_1 dup key" := by
  decide

/-- C26 (amended): outside development mode a duplicate key error (code 11000)
whose `keyValue` starts with `field`, as the store raises when `User.create`
violates the unique index on `email`, is answered as a conflict: status 409,
`status: 'fail'` and the message naming the field. In development mode the
error is sent as it is, with the status it carries or else 500. -/
theorem duplicate_key_conflict_outside_development (nodeEnv : String) (err : ErrorObj)
    (field : String) (rest : List String)
    (hcode : err.code = some (.num 11000)) (hkeys : err.keyValue = some (field :: rest))
    (hval : err.name ≠ "ValidationError") (hjwt : err.name ≠ "JsonWebTokenError")
    (hexp : err.name ≠ "TokenExpiredError") :
    (nodeEnv ≠ "development" →
      errorHandler nodeEnv err =
        some { statusCode := 409
               body :=
                 { success := false
                   status := "fail"
                   message := field ++ " already exists. Please use a different value." } }) ∧
    (errorHandler "development" err).map (fun r => r.statusCode) =
      some (if err.statusCode = 0 then 500 else err.statusCode) ∧
    (errorHandler "development" err).map (fun r => r.body.message) = some err.message := by
  refine ⟨?_, ?_, ?_⟩
  · intro hmode
    simp only [errorHandler, if_neg hmode, hcode, if_true, handleDuplicateKeyError, hkeys,
      if_neg hval, if_neg hjwt, if_neg hexp, sendErrorProd, ApiError.new, interpolate,
      List.head?_cons, Option.getD_some]
    rfl
  · simp [errorHandler, sendErrorDev]
  · simp [errorHandler, sendErrorDev]

/-- Instance of C26: the duplicate email error in production mode. -/
theorem duplicate_key_conflict_outside_development_witness :
    errorHandler "production" sampleDuplicateEmail =
      some { statusCode := 409
             body :=
               { success := false
                 status := "fail"
                 message := "email already exists. Please use a different value." } } :=
  (duplicate_key_conflict_outside_development "production" sampleDuplicateEmail "email" []
    rfl rfl (by decide) (by decide) (by decide)).1 (by decide)


/-! ### Save hook and writable fields of a task -/

/-- A successful `createTask`, written out: the document handed to the save
hook and the store afterwards. -/
theorem createTask_ok_shape (st : Store) (caller : User) (body : CreateTaskBody)
    (newId : ObjectId) (now : Int) (t : Task)
    (hok : (createTask st caller body newId now).2 = .ok t) :
    ∃ owner,
      t = taskPreSave body.status.isSome now
        { _id := newId
          title := body.title.getD ""
          description := body.description.getD ""
          status := body.status.getD "pending"
          priority := body.priority.getD "medium"
          dueDate := body.dueDate
          tags := body.tags.getD []
          user := owner
          createdBy := caller._id
          completedAt := none
          createdAt := now
          updatedAt := now } ∧
      (createTask st caller body newId now).1 = { st with tasks := st.tasks ++ [t] } := by
  unfold createTask at hok ⊢
  cases hc : (if caller.role = "admin" ∧ truthy body.userId = true then
        OwnerFilter.raw (body.userId.getD "")
      else OwnerFilter.own caller._id).cast with
  | none => simp [hc] at hok
  | some owner =>
    simp only [hc] at hok ⊢
    cases hv : validateNewTask body.title body.status body.priority body.description
        body.tags with
    | some path => simp [hv] at hok
    | none =>
      simp only [hv] at hok ⊢
      by_cases hdup : (st.findTask newId).isSome = true
      · simp [hdup] at hok
      · simp only [hdup, if_false] at hok ⊢
        cases hok
        exact ⟨owner, rfl, rfl⟩

/-- C27: the save hook of a task sets `completedAt` to the clock when the
status is modified and is completed, sets it to `null` when the status is
modified and is not completed, and leaves the document as it is when the status
is not modified; no other field is changed. Hence after a save in which the
status was modified, `completedAt` is set exactly when the status is completed,
and so it is for every task stored by `createTask`, the handler that saves. -/
theorem save_hook_completedAt (now : Int) (t : Task) :
    (t.status = "completed" → taskPreSave true now t = { t with completedAt := some now }) ∧
    (t.status ≠ "completed" → taskPreSave true now t = { t with completedAt := none }) ∧
    taskPreSave false now t = t ∧
    ((taskPreSave true now t).completedAt ≠ none ↔
      (taskPreSave true now t).status = "completed") ∧
    (∀ m, { taskPreSave m now t with completedAt := t.completedAt } = t) ∧
    (∀ (st : Store) (caller : User) (body : CreateTaskBody) (newId : ObjectId) (saved : Task),
      (createTask st caller body newId now).2 = .ok saved →
        (saved.completedAt ≠ none ↔ saved.status = "completed") ∧
        (saved.completedAt ≠ none → saved.completedAt = some now)) := by
  refine ⟨?_, ?_, ?_, ?_, ?_, ?_⟩
  · intro h
    simp [taskPreSave, h]
  · intro h
    simp [taskPreSave, h]
  · simp [taskPreSave]
  · by_cases h : t.status = "completed" <;> simp [taskPreSave, h]
  · intro m
    obtain ⟨i, title, description, status, priority, dueDate, tags, user, createdBy, completedAt,
      createdAt, updatedAt⟩ := t
    cases m <;> by_cases h : status = "completed" <;> simp [taskPreSave, h]
  · intro st caller body newId saved hok
    obtain ⟨owner, hs, _⟩ := createTask_ok_shape st caller body newId now saved hok
    subst hs
    cases hb : body.status with
    | none => simp [taskPreSave]
    | some s =>
      by_cases h : s = "completed" <;> simp [taskPreSave, h]

/-- One step of `filterMap`, as a concatenation. -/
theorem filterMap_cons_toList {α β : Type} (g : α → Option β) (a : α) (l : List α) :
    List.filterMap g (a :: l) = (g a).toList ++ List.filterMap g l := by
  cases h : g a <;> simp [List.filterMap_cons, h]

/-- Reading a key of an object that starts with an optional key. -/
theorem lookup_optKey_append {α : Type} (k' k : String) (f : α → BodyVal) (v : Option α)
    (rest : Body) :
    List.lookup k' (optKey k f v ++ rest) =
      if k' = k then (match v with
        | some a => some (f a)
        | none => List.lookup k' rest)
      else List.lookup k' rest := by
  cases v with
  | none => simp [optKey]
  | some a =>
    by_cases h : k' = k
    · subst h; simp [optKey, List.lookup]
    · have : (k' == k) = false := by simpa using h
      simp [optKey, List.lookup, this, h]

/-- An optional key as a list. -/
theorem optKey_toList {α : Type} (k : String) (f : α → BodyVal) (v : Option α) :
    optKey k f v = (v.map (fun a => (k, f a))).toList := by
  cases v <;> rfl

/-- The object of a typed body, associated to the right. -/
theorem toBody_assoc (b : UpdateTaskBody) :
    b.toBody = optKey "title" .str b.title ++ (optKey "description" .str b.description ++
      (optKey "status" .str b.status ++ (optKey "priority" .str b.priority ++
      (optKey "dueDate" .num b.dueDate ++ (optKey "tags" .strs b.tags ++
      (optKey "userId" .str b.userId ++ (optKey "completedAt" .num b.completedAt ++
      (optKey "createdBy" .str b.createdBy ++ [])))))))) := by
  simp [UpdateTaskBody.toBody, List.append_assoc]

/-- Reading the keys of the object of a typed body. -/
theorem lookup_toBody (b : UpdateTaskBody) :
    List.lookup "title" b.toBody = b.title.map .str ∧
    List.lookup "description" b.toBody = b.description.map .str ∧
    List.lookup "status" b.toBody = b.status.map .str ∧
    List.lookup "priority" b.toBody = b.priority.map .str ∧
    List.lookup "dueDate" b.toBody = b.dueDate.map .num ∧
    List.lookup "tags" b.toBody = b.tags.map .strs ∧
    List.lookup "userId" b.toBody = b.userId.map .str := by
  rw [toBody_assoc]
  simp only [lookup_optKey_append]
  refine ⟨?_, ?_, ?_, ?_, ?_, ?_, ?_⟩
  · cases b.title <;> simp
  · cases b.description <;> simp
  · cases b.status <;> simp
  · cases b.priority <;> simp
  · cases b.dueDate <;> simp
  · cases b.tags <;> simp
  · cases b.userId <;> simp

/-- The typed update document is the key-by-key one of the object the typed
body stands for. -/
theorem toBody_buildTaskUpdate (caller : User) (b : UpdateTaskBody) :
    (buildTaskUpdate caller b).toBody = buildUpdates caller.role b.toBody := by
  obtain ⟨h1, h2, h3, h4, h5, h6, h7⟩ := lookup_toBody b
  have hu : List.filterMap (fun field => (List.lookup field b.toBody).map (fun v => (field, v)))
      allowedUpdates = optKey "title" .str b.title ++ optKey "description" .str b.description ++
        optKey "status" .str b.status ++ optKey "priority" .str b.priority ++
        optKey "dueDate" .num b.dueDate ++ optKey "tags" .strs b.tags := by
    simp only [allowedUpdates, filterMap_cons_toList, List.filterMap_nil, h1, h2, h3, h4, h5, h6,
      optKey_toList, Option.map_map, List.append_nil, List.append_assoc]
    rfl
  simp only [buildUpdates, hu, h7, TaskUpdate.toBody, buildTaskUpdate]
  cases hid : b.userId with
  | none => simp [optKey, truthy]
  | some s =>
    by_cases hc : caller.role = "admin" ∧ s ≠ ""
    · simp [optKey_toList, truthy, BodyVal.truthy, hc]
    · have : ¬ (caller.role = "admin" ∧ truthy (some s) = true) := by simpa [truthy] using hc
      simp only [Option.map_some', BodyVal.truthy, truthy, decide_eq_true_eq]
      rw [if_neg hc, if_neg hc]
      simp [optKey]

/-- The keys copied from a body: those of the list that the body defines. -/
theorem mem_filterMap_lookup (fields : List String) (body : Body) (k : String) (v : BodyVal) :
    (k, v) ∈ fields.filterMap (fun field => (body.lookup field).map (fun x => (field, x))) ↔
      k ∈ fields ∧ body.lookup k = some v := by
  simp only [List.mem_filterMap, Option.map_eq_some', Prod.mk.injEq]
  constructor
  · rintro ⟨f, hf, x, hx, rfl, rfl⟩
    exact ⟨hf, hx⟩
  · rintro ⟨hk, hv⟩
    exact ⟨k, hk, v, hv, rfl, rfl⟩

/-- The entries of the update document. -/
theorem mem_buildUpdates (role : String) (body : Body) (k : String) (v : BodyVal) :
    (k, v) ∈ buildUpdates role body ↔
      (k ∈ allowedUpdates ∧ body.lookup k = some v) ∨
      (k = "user" ∧ role = "admin" ∧ body.lookup "userId" = some v ∧ v.truthy = true) := by
  unfold buildUpdates
  cases hu : body.lookup "userId" with
  | none => simp [mem_filterMap_lookup]
  | some x =>
    by_cases hc : role = "admin" ∧ x.truthy = true
    · simp only [if_pos hc, List.mem_append, mem_filterMap_lookup, List.mem_singleton,
        Prod.mk.injEq, Option.some.injEq]
      constructor
      · rintro (h | ⟨rfl, rfl⟩)
        · exact Or.inl h
        · exact Or.inr ⟨rfl, hc.1, rfl, hc.2⟩
      · rintro (h | ⟨rfl, _, rfl, _⟩)
        · exact Or.inl h
        · exact Or.inr ⟨rfl, rfl⟩
    · simp only [if_neg hc, mem_filterMap_lookup, Option.some.injEq]
      constructor
      · intro h
        exact Or.inl h
      · rintro (h | ⟨_, hr, rfl, ht⟩)
        · exact h
        · exact absurd ⟨hr, ht⟩ hc

/-- A successful `updateTask`, written out. -/
theorem updateTask_ok_shape (st : Store) (caller : User) (id : String) (body : UpdateTaskBody)
    (now : Int) (r : PopTask) (hok : (updateTask st caller id body now).2 = .ok r) :
    ∃ i t owner, castObjectId id = some i ∧ st.findTask i = some t ∧
      (match (buildTaskUpdate caller body).user with
       | some s => (castObjectId s).map some
       | none => some none) = some owner ∧
      r.task = applyTaskUpdate (buildTaskUpdate caller body) owner now t := by
  cases hid : castObjectId id with
  | none => simp [updateTask, hid] at hok
  | some i =>
    cases ht : st.findTask i with
    | none => simp [updateTask, hid, ht] at hok
    | some t =>
      simp only [updateTask, hid, ht] at hok
      split at hok
      · cases hok
      · split at hok
        · cases hok
        · rename_i owner ho
          split at hok
          · cases hok
          · cases hok
            exact ⟨i, t, owner, rfl, ht, ho, rfl⟩

/-- C28: the update document of `updateTask` holds exactly the keys among
title, description, status, priority, dueDate and tags that the request body
defines, each with the value of the body, and the key `user` exactly when the
caller is an administrator and the body carries a truthy `userId`; it never
holds `completedAt`, `createdBy` or `_id`. The document `createTask` passes to
the model takes only those six keys from the body, never `completedAt`, and its
`createdBy` is the caller. Accordingly a `completedAt` or `createdBy` sent by
the caller changes neither handler's outcome, a created task has the caller as
creator, and an updated task keeps its `_id`, `createdBy` and `completedAt`,
and for a caller who is not an administrator its owner. -/
theorem writable_task_fields (caller : User) :
    (∀ (body : Body) (k : String) (v : BodyVal), (k, v) ∈ buildUpdates caller.role body ↔
      (k ∈ ["title", "description", "status", "priority", "dueDate", "tags"] ∧
        body.lookup k = some v) ∨
      (k = "user" ∧ caller.role = "admin" ∧ body.lookup "userId" = some v ∧ v.truthy = true)) ∧
    (∀ (body : Body) (k : String), k ∈ ["completedAt", "createdBy", "_id"] →
      k ∉ (buildUpdates caller.role body).map Prod.fst) ∧
    (∀ (body : Body) (k : String) (v : BodyVal), (k, v) ∈ buildCreateDoc caller body →
      (k ∈ ["title", "description", "status", "priority", "dueDate", "tags"] ∧
          body.lookup k = some v) ∨
        k = "user" ∨ (k = "createdBy" ∧ v = .str caller.id)) ∧
    (∀ b : UpdateTaskBody, (buildTaskUpdate caller b).toBody = buildUpdates caller.role b.toBody) ∧
    (∀ (st : Store) (id : String) (b : UpdateTaskBody) (x : Option Int) (y : Option String)
        (now : Int),
      updateTask st caller id { b with completedAt := x, createdBy := y } now =
        updateTask st caller id b now) ∧
    (∀ (st : Store) (b : CreateTaskBody) (x : Option Int) (y : Option String) (newId : ObjectId)
        (now : Int),
      createTask st caller { b with completedAt := x, createdBy := y } newId now =
        createTask st caller b newId now) ∧
    (∀ (st : Store) (b : CreateTaskBody) (newId : ObjectId) (now : Int) (t : Task),
      (createTask st caller b newId now).2 = .ok t → t.createdBy = caller._id) ∧
    (∀ (st : Store) (id : String) (b : UpdateTaskBody) (now : Int) (r : PopTask),
      (updateTask st caller id b now).2 = .ok r →
        ∃ i t, castObjectId id = some i ∧ st.findTask i = some t ∧ r.task._id = t._id ∧
          r.task.createdBy = t.createdBy ∧ r.task.completedAt = t.completedAt ∧
          (caller.role ≠ "admin" → r.task.user = t.user)) := by
  refine ⟨fun body k v => mem_buildUpdates caller.role body k v, ?_, ?_,
    toBody_buildTaskUpdate caller, fun _ _ _ _ _ _ => rfl, fun _ _ _ _ _ _ => rfl, ?_, ?_⟩
  · intro body k hk hmem
    obtain ⟨⟨k', v⟩, hkv, hk'⟩ := List.mem_map.1 hmem
    simp only at hk'
    subst hk'
    rcases (mem_buildUpdates caller.role body k' v).1 hkv with ⟨ha, _⟩ | ⟨hu, _⟩
    · simp only [allowedUpdates, List.mem_cons, List.mem_singleton, List.not_mem_nil,
        or_false] at ha hk
      rcases ha with rfl | rfl | rfl | rfl | rfl | rfl <;> simp at hk
    · subst hu
      simp at hk
  · intro body k v hmem
    simp only [buildCreateDoc, List.mem_append, mem_filterMap_lookup, List.mem_cons,
      Prod.mk.injEq, List.mem_singleton, List.not_mem_nil, or_false] at hmem
    rcases hmem with h | ⟨rfl, _⟩ | ⟨rfl, rfl⟩
    · exact Or.inl h
    · exact Or.inr (Or.inl rfl)
    · exact Or.inr (Or.inr ⟨rfl, rfl⟩)
  · intro st b newId now t hok
    exact (createTask_stored_task st caller b newId now t hok).2.2.1
  · intro st id b now r hok
    obtain ⟨i, t, owner, hid, ht, ho, hr⟩ := updateTask_ok_shape st caller id b now r hok
    refine ⟨i, t, hid, ht, by rw [hr]; rfl, by rw [hr]; rfl, by rw [hr]; rfl, ?_⟩
    intro hrole
    have hnone : (buildTaskUpdate caller b).user = none := by
      simp [buildTaskUpdate, hrole]
    rw [hnone] at ho
    cases ho
    rw [hr]
    rfl


/-! ### Bulk status update -/

/-- The ids cast from a list of strings are those its elements denote. -/
theorem mem_castIds (l : List String) (ids : List ObjectId) (h : castIds l = some ids)
    (i : ObjectId) : i ∈ ids ↔ ∃ s ∈ l, castObjectId s = some i := by
  induction l generalizing ids with
  | nil =>
    simp only [castIds, Option.some.injEq] at h
    subst h
    simp
  | cons s rest ih =>
    cases hs : castObjectId s with
    | none => simp [castIds, hs] at h
    | some j =>
      cases hr : castIds rest with
      | none => simp [castIds, hs, hr] at h
      | some js =>
        simp only [castIds, hs, hr, Option.some.injEq] at h
        subst h
        simp only [List.mem_cons, ih js hr, exists_eq_or_imp, hs, Option.some.injEq]
        constructor
        · rintro (rfl | h)
          · exact Or.inl rfl
          · exact Or.inr h
        · rintro (rfl | h)
          · exact Or.inl rfl
          · exact Or.inr h

/-- The records that differ after a pointwise update are those the update
changes. -/
theorem length_filter_zip_map {α : Type} [DecidableEq α] (f : α → α) (l : List α) :
    ((l.zip (l.map f)).filter (fun p => decide (p.1 ≠ p.2))).length =
      (l.filter (fun t => decide (f t ≠ t))).length := by
  induction l with
  | nil => rfl
  | cons t rest ih =>
    by_cases h : f t = t
    · have h' : ¬ t ≠ f t := by simp [h]
      simp only [List.map_cons, List.zip_cons_cons, List.filter_cons, decide_eq_true_eq]
      rw [if_neg h', if_neg (by simp [h])]
      exact ih
    · have h' : t ≠ f t := fun e => h e.symm
      simp only [List.map_cons, List.zip_cons_cons, List.filter_cons, decide_eq_true_eq]
      rw [if_pos h', if_pos h]
      simp only [List.length_cons, ih]

/-- C29 (counterexample): a request of Alice with a non-empty array `taskIds`
and a valid status, in which an element of `taskIds` is not an id, is answered
neither by one of the two 400 errors of the handler nor with a modified count:
the update throws a `CastError`. -/
theorem bulk_malformed_id_reports_no_count :
    bulkUpdateStatus sampleStore sampleAlice
        { taskIds := some ["aaaaaaaaaaaaaaaaaaaaaaaa", "xyz"], status := some "completed" } 7000 =
      (sampleStore, .error (.castError "_id" "xyz")) ∧
    ∀ r, (bulkUpdateStatus sampleStore sampleAlice
        { taskIds := some ["aaaaaaaaaaaaaaaaaaaaaaaa", "xyz"], status := some "completed" } 7000).2 ≠
      .ok r := by
  refine ⟨by decide, ?_⟩
  intro r h
  have h2 : (bulkUpdateStatus sampleStore sampleAlice
        { taskIds := some ["aaaaaaaaaaaaaaaaaaaaaaaa", "xyz"], status := some "completed" } 7000).2 =
      .error (.castError "_id" "xyz") := by decide
  rw [h2] at h
  cases h

/-- The cast of `taskIds` fails exactly when an element is not an id. -/
theorem castIds_eq_none_iff (l : List String) :
    castIds l = none ↔ ∃ v ∈ l, castObjectId v = none := by
  induction l with
  | nil => simp [castIds]
  | cons s rest ih =>
    cases hs : castObjectId s with
    | none => simp [castIds, hs]
    | some j =>
      cases hr : castIds rest with
      | none =>
        have := ih.1 hr
        simp [castIds, hs, hr, this]
      | some js =>
        have hno : ¬ ∃ v ∈ rest, castObjectId v = none := fun h => by
          have := ih.2 h
          rw [hr] at this
          cases this
        simp only [castIds, hs, hr, List.mem_cons, exists_eq_or_imp, false_or, false_iff]
        simpa using hno

/-- The value carried by the `CastError` of a bulk update is an element of
`taskIds` that is not an id. -/
theorem castError_value (l : List String) (d : String) (h : castIds l = none) :
    ∃ v ∈ l, castObjectId v = none ∧
      (l.find? (fun x => (castObjectId x).isNone)).getD d = v := by
  obtain ⟨w, hw, hwn⟩ := (castIds_eq_none_iff l).1 h
  cases hf : l.find? (fun x => (castObjectId x).isNone) with
  | none =>
    have := List.find?_eq_none.1 hf w hw
    simp [hwn] at this
  | some v =>
    have hp := List.find?_some hf
    refine ⟨v, List.mem_of_find?_eq_some hf, ?_, rfl⟩
    simpa using hp

/-- The four outcomes of `bulkUpdateStatus`. -/
theorem bulkUpdateStatus_cases (st : Store) (caller : User) (body : BulkBody) (now : Int) :
    ((body.taskIds = none ∨ body.taskIds = some []) ∧
      bulkUpdateStatus st caller body now = (st, .error (.api 400 "Task IDs are required"))) ∨
    (∃ l, body.taskIds = some l ∧ l ≠ [] ∧ (∀ s, body.status = some s → s ∉ taskStatuses) ∧
      bulkUpdateStatus st caller body now = (st, .error (.api 400 "Invalid status value"))) ∨
    (∃ l s, body.taskIds = some l ∧ l ≠ [] ∧ body.status = some s ∧ s ∈ taskStatuses ∧
      ∃ v ∈ l, castObjectId v = none ∧
        bulkUpdateStatus st caller body now = (st, .error (.castError "_id" v))) ∨
    (∃ l s ids, body.taskIds = some l ∧ l ≠ [] ∧ body.status = some s ∧ s ∈ taskStatuses ∧
      castIds l = some ids ∧
      bulkUpdateStatus st caller body now =
        ({ st with tasks := st.tasks.map (bulkApply caller ids s now) },
         .ok { modifiedCount :=
                 (st.tasks.filter
                   (fun t => decide (bulkApply caller ids s now t ≠ t))).length })) := by
  cases hl : body.taskIds with
  | none => left; exact ⟨Or.inl rfl, by simp [bulkUpdateStatus, hl, ApiError.badRequest]⟩
  | some l =>
    cases l with
    | nil => left; exact ⟨Or.inr rfl, by simp [bulkUpdateStatus, hl, ApiError.badRequest]⟩
    | cons a rest =>
      right
      cases hs : body.status with
      | none =>
        left
        exact ⟨a :: rest, rfl, by simp, by simp, by
          simp [bulkUpdateStatus, hl, hs, ApiError.badRequest]⟩
      | some s =>
        by_cases hv : s ∈ taskStatuses
        · right
          cases hc : castIds (a :: rest) with
          | none =>
            left
            obtain ⟨v, hv1, hv2, hv3⟩ := castError_value (a :: rest) a hc
            refine ⟨a :: rest, s, rfl, by simp, rfl, hv, v, hv1, hv2, ?_⟩
            simp only [bulkUpdateStatus, hl, hs, hc, hv, not_true_eq_false, if_false, hv3]
          | some ids =>
            right
            refine ⟨a :: rest, s, ids, rfl, by simp, rfl, hv, hc, ?_⟩
            simp only [bulkUpdateStatus, hl, hs, hc, hv, not_true_eq_false, if_false]
        · left
          refine ⟨a :: rest, rfl, by simp, ?_, ?_⟩
          · intro s' hs'
            cases hs'
            exact hv
          · simp [bulkUpdateStatus, hl, hs, hv, ApiError.badRequest]

/-- A bulk update by a caller who is not an administrator leaves a task of
another owner, and a task that is not listed, as it is. -/
theorem bulkApply_eq_self (caller : User) (ids : List ObjectId) (status : String) (now : Int)
    (hrole : caller.role ≠ "admin") (t : Task) (h : t.user ≠ caller._id ∨ t._id ∉ ids) :
    bulkApply caller ids status now t = t := by
  have hm : bulkMatch caller ids t = false := by
    rcases h with h | h <;> simp [bulkMatch, hrole, h]
  simp [bulkApply, hm]

/-- C29 (amended): for a caller who is not an administrator, `bulkUpdateStatus`
never changes the users, and changes the tasks pointwise: a task owned by
another identity and a task that no element of `taskIds` denotes are unchanged,
and a task that changes gets the requested status and a new `updatedAt` only.
When `taskIds` is missing, not an array or empty, or `status` is missing or not
one of pending, in-progress, completed, cancelled, it fails with status 400 and
changes nothing. Otherwise, when an element of `taskIds` is not an id it fails
with a `CastError` for that element and changes nothing, and when all are ids it
succeeds and reports the number of records that differ afterwards. -/
theorem bulkUpdateStatus_frame (st : Store) (caller : User) (body : BulkBody) (now : Int)
    (hrole : caller.role ≠ "admin") :
    (bulkUpdateStatus st caller body now).1.users = st.users ∧
    (∃ g : Task → Task,
      (bulkUpdateStatus st caller body now).1.tasks = st.tasks.map g ∧
      (∀ t, t.user ≠ caller._id → g t = t) ∧
      (∀ t, (∀ s ∈ body.taskIds.getD [], castObjectId s ≠ some t._id) → g t = t) ∧
      (∀ t, g t = t ∨
        ∃ s, body.status = some s ∧ g t = { t with status := s, updatedAt := now })) ∧
    ((body.taskIds = none ∨ body.taskIds = some []) →
      bulkUpdateStatus st caller body now = (st, .error (.api 400 "Task IDs are required"))) ∧
    (∀ l, body.taskIds = some l → l ≠ [] → (∀ s, body.status = some s → s ∉ taskStatuses) →
      bulkUpdateStatus st caller body now = (st, .error (.api 400 "Invalid status value"))) ∧
    (∀ l s, body.taskIds = some l → l ≠ [] → body.status = some s → s ∈ taskStatuses →
      (∃ v ∈ l, castObjectId v = none) →
      ∃ v ∈ l, castObjectId v = none ∧
        bulkUpdateStatus st caller body now = (st, .error (.castError "_id" v))) ∧
    (∀ l s, body.taskIds = some l → l ≠ [] → body.status = some s → s ∈ taskStatuses →
      (∀ v ∈ l, castObjectId v ≠ none) →
      (bulkUpdateStatus st caller body now).2 =
        .ok { modifiedCount :=
                ((st.tasks.zip (bulkUpdateStatus st caller body now).1.tasks).filter
                  (fun p => decide (p.1 ≠ p.2))).length }) := by
  rcases bulkUpdateStatus_cases st caller body now with
    ⟨h0, hout⟩ | ⟨l, hl, hne, hst, hout⟩ | ⟨l, s, hl, hne, hs, hv, v, hvl, hvn, hout⟩ |
    ⟨l, s, ids, hl, hne, hs, hv, hc, hout⟩
  · refine ⟨by rw [hout], ⟨id, by rw [hout]; simp, fun _ _ => rfl, fun _ _ => rfl,
      fun _ => Or.inl rfl⟩, fun _ => hout, ?_, ?_, ?_⟩
    · intro l hl hne
      rcases h0 with h0 | h0 <;> rw [h0] at hl <;> cases hl
      exact absurd rfl hne
    · intro l s hl hne
      rcases h0 with h0 | h0 <;> rw [h0] at hl <;> cases hl
      exact absurd rfl hne
    · intro l s hl hne
      rcases h0 with h0 | h0 <;> rw [h0] at hl <;> cases hl
      exact absurd rfl hne
  · refine ⟨by rw [hout], ⟨id, by rw [hout]; simp, fun _ _ => rfl, fun _ _ => rfl,
      fun _ => Or.inl rfl⟩, ?_, fun _ _ _ _ => hout, ?_, ?_⟩
    · intro h0
      rcases h0 with h0 | h0 <;> rw [h0] at hl <;> cases hl
      exact absurd rfl hne
    · intro l' s hl' _ hs hv
      exact absurd hv (hst s hs)
    · intro l' s hl' _ hs hv
      exact absurd hv (hst s hs)
  · refine ⟨by rw [hout], ⟨id, by rw [hout]; simp, fun _ _ => rfl, fun _ _ => rfl,
      fun _ => Or.inl rfl⟩, ?_, ?_, ?_, ?_⟩
    · intro h0
      rcases h0 with h0 | h0 <;> rw [h0] at hl <;> cases hl
      exact absurd rfl hne
    · intro l' _ _ hst
      exact absurd hv (hst s hs)
    · intro l' s' hl' _ _ _ _
      rw [hl] at hl'
      cases hl'
      exact ⟨v, hvl, hvn, hout⟩
    · intro l' s' hl' _ _ _ hall
      rw [hl] at hl'
      cases hl'
      exact absurd hvn (hall v hvl)
  · refine ⟨by rw [hout], ⟨bulkApply caller ids s now, by rw [hout], ?_, ?_, ?_⟩, ?_, ?_, ?_, ?_⟩
    · intro t ht
      exact bulkApply_eq_self caller ids s now hrole t (Or.inl ht)
    · intro t ht
      apply bulkApply_eq_self caller ids s now hrole t
      right
      intro hmem
      obtain ⟨x, hx, hxc⟩ := (mem_castIds l ids hc t._id).1 hmem
      exact ht x (by simp [hl, hx]) hxc
    · intro t
      by_cases hm : bulkMatch caller ids t = true
      · right
        exact ⟨s, hs, by simp [bulkApply, hm]⟩
      · left
        simp [bulkApply, hm]
    · intro h0
      rcases h0 with h0 | h0 <;> rw [h0] at hl <;> cases hl
      exact absurd rfl hne
    · intro l' _ _ hst
      exact absurd hv (hst s hs)
    · intro l' s' hl' _ _ _ hex
      rw [hl] at hl'
      cases hl'
      have := (castIds_eq_none_iff l).2 hex
      rw [hc] at this
      cases this
    · intro l' s' hl' _ _ _ _
      rw [hout]
      simp only [length_filter_zip_map]

/-- Instance of C29: Alice lists her task and Bob's; only hers is modified. -/
theorem bulkUpdateStatus_frame_witness :
    sampleAlice.role ≠ "admin" ∧
    (bulkUpdateStatus sampleStore sampleAlice
        { taskIds := some ["aaaaaaaaaaaaaaaaaaaaaaaa", "bbbbbbbbbbbbbbbbbbbbbbbb"]
          status := some "completed" } 7000).2 = .ok { modifiedCount := 1 } ∧
    (bulkUpdateStatus sampleStore sampleAlice
        { taskIds := some ["aaaaaaaaaaaaaaaaaaaaaaaa", "bbbbbbbbbbbbbbbbbbbbbbbb"]
          status := some "completed" } 7000).1.users = sampleStore.users :=
  ⟨by decide, by decide,
    (bulkUpdateStatus_frame sampleStore sampleAlice
      { taskIds := some ["aaaaaaaaaaaaaaaaaaaaaaaa", "bbbbbbbbbbbbbbbbbbbbbbbb"]
        status := some "completed" } 7000 (by decide)).1⟩


/-! ### Role of a registered identity -/

/-- The user document stored by a successful `register`. -/
theorem register_stored_user (lib : Lib) (cfg : Config) (st : Store) (body : RegisterBody)
    (newId : ObjectId) (salt : String) (now : Int) (r : AuthResponse)
    (h : (register lib cfg st body newId salt now).2 = .ok r) :
    ∃ u, (register lib cfg st body newId salt now).1 = { st with users := st.users ++ [u] } ∧
      u._id = newId ∧
      u.role = (if body.role = some (.str "admin") then "admin" else "user") := by
  cases hf : st.findUserByEmail body.email with
  | some w => simp [register, hf] at h
  | none =>
    cases hv : validateNewUser lib body.name body.email body.password with
    | some path => simp [register, hf, hv] at h
    | none =>
      by_cases hany : st.users.any (fun u => decide (u.email = normEmail body.email)) = true
      · simp only [register, hf, hv, hany, if_true] at h
        cases h
      · by_cases hid : (st.findUser newId).isSome = true
        · simp only [register, hf, hv, hany, hid, if_true, if_false] at h
          cases h
        · simp only [register, hf, hv, hany, hid, if_false]
          refine ⟨_, rfl, ?_, ?_⟩ <;> simp [userPreSave]

/-- C30: for every registration that succeeds, the role stored for the new
identity, the role in the response and the role in the payload of its token are
`admin` exactly when the role of the body is the string `admin`, and `user` for
every other value and when the body has no role. The handler takes no caller:
the route runs no authentication, so the statement holds for every request. -/
theorem register_role (lib : Lib) (cfg : Config) (st : Store) (body : RegisterBody)
    (newId : ObjectId) (salt : String) (now : Int) (r : AuthResponse)
    (h : (register lib cfg st body newId salt now).2 = .ok r) :
    ∃ u payload,
      (register lib cfg st body newId salt now).1.users = st.users ++ [u] ∧
      r.token = lib.jwtSign cfg.jwtSecret payload ∧ payload.id = u._id ∧
      u.role = r.user.role ∧ payload.role = r.user.role ∧
      (r.user.role = "admin" ↔ body.role = some (.str "admin")) ∧
      (r.user.role = "user" ↔ body.role ≠ some (.str "admin")) ∧
      (r.user.role = "admin" ∨ r.user.role = "user") := by
  obtain ⟨u, hst, hid, hrole⟩ := register_stored_user lib cfg st body newId salt now r h
  have hr := register_ok_response lib cfg st body newId salt now r h
  refine ⟨u, _, by rw [hst], by rw [hr], by rw [hid], ?_, ?_, ?_, ?_, ?_⟩
  · rw [hr, hrole]
  · rw [hr]
  · rw [hr]
    by_cases hb : body.role = some (.str "admin") <;> simp [hb]
  · rw [hr]
    by_cases hb : body.role = some (.str "admin") <;> simp [hb]
  · rw [hr]
    by_cases hb : body.role = some (.str "admin") <;> simp [hb]

/-- Instance of C30: a request without credentials registers an administrator. -/
theorem register_role_witness :
    ∃ r, (register sampleLib sampleCfg sampleStore
        { name := "Mallory", email := "m@x.com", password := "Password@123"
          role := some (.str "admin") } ⟨"333333333333333333333333"⟩ "salt" 9000).2 = .ok r ∧
      r.user.role = "admin" ∧
      ∃ u payload,
        (register sampleLib sampleCfg sampleStore
          { name := "Mallory", email := "m@x.com", password := "Password@123"
            role := some (.str "admin") } ⟨"333333333333333333333333"⟩ "salt" 9000).1.users =
          sampleStore.users ++ [u] ∧
        r.token = sampleLib.jwtSign sampleCfg.jwtSecret payload ∧
        u.role = r.user.role ∧ payload.role = r.user.role :=
  ⟨_, rfl, by decide,
    (register_role sampleLib sampleCfg sampleStore
      { name := "Mallory", email := "m@x.com", password := "Password@123"
        role := some (.str "admin") } ⟨"333333333333333333333333"⟩ "salt" 9000 _ rfl).elim
      (fun u hu => hu.elim (fun payload hp => ⟨u, payload, hp.1, hp.2.1, hp.2.2.2.1, hp.2.2.2.2.1⟩))⟩


/-! ### Instances on the sample data -/

/-- Instance of C21: the administrator asks for one task per page and is served
one, and asks for 101 per page and is refused. -/
theorem getTasks_limit_validated_witness :
    (∀ r, getTasksRoute sampleLib sampleStore sampleAdmin { limit := some "1" } = .ok r →
      r.pagination.limit = 1 ∧ r.data.length ≤ 1) ∧
    (∃ r, getTasksRoute sampleLib sampleStore sampleAdmin { limit := some "1" } = .ok r) ∧
    getTasksRoute sampleLib sampleStore sampleAdmin { limit := some "101" } =
      .error (ApiError.badRequest "Validation failed") :=
  have h := getTasks_limit_validated sampleLib sampleStore sampleAdmin { limit := some "1" }
  have h' := getTasks_limit_validated sampleLib sampleStore sampleAdmin { limit := some "101" }
  ⟨fun r hr => by
      have h5 := (h.1 r hr).2.2.2.2 "1" rfl
      have h3 := (h.1 r hr).2.2.1
      have hl : r.pagination.limit = 1 := by
        have h6 : parseInt "1" = some (1 : Int) := by decide
        rw [h6] at h5
        have h7 : (1 : Int) = (r.pagination.limit : Int) := Option.some.inj h5
        omega
      exact ⟨hl, hl ▸ h3⟩,
   ⟨_, rfl⟩,
   h'.2 "101" rfl (fun n hn => by
      have h6 : parseInt "101" = some (101 : Int) := by decide
      rw [h6] at hn
      cases hn
      right
      decide)⟩

/-- Instance of C23: the statistics of Alice in the store with due dates. -/
theorem getStats_counts_witness :
    (getStats dueStore sampleAlice._id).byStatus = [("pending", 2), ("completed", 1)] ∧
    ((getStats dueStore sampleAlice._id).byStatus.map Prod.snd).sum =
      (dueStore.tasks.filter (fun t => decide (t.user = sampleAlice._id))).length :=
  ⟨by decide, (getStats_counts dueStore sampleAlice._id).2.2.1⟩

/-- Instance of C27: saving a pending task whose status was modified clears
`completedAt`, and saving it as completed sets it to the clock. -/
theorem save_hook_completedAt_witness :
    taskPreSave true 7000 (sampleTask "aaaaaaaaaaaaaaaaaaaaaaaa" "111111111111111111111111") =
      { sampleTask "aaaaaaaaaaaaaaaaaaaaaaaa" "111111111111111111111111" with
        completedAt := none } ∧
    taskPreSave true 7000
        { sampleTask "aaaaaaaaaaaaaaaaaaaaaaaa" "111111111111111111111111" with
          status := "completed" } =
      { sampleTask "aaaaaaaaaaaaaaaaaaaaaaaa" "111111111111111111111111" with
        status := "completed", completedAt := some 7000 } :=
  ⟨(save_hook_completedAt 7000
      (sampleTask "aaaaaaaaaaaaaaaaaaaaaaaa" "111111111111111111111111")).2.1 (by decide),
   (save_hook_completedAt 7000
      { sampleTask "aaaaaaaaaaaaaaaaaaaaaaaa" "111111111111111111111111" with
        status := "completed" }).1 rfl⟩

/-- Instance of C28: Alice sends a title together with `completedAt`,
`createdBy`, `_id` and `userId`; only the title reaches the update document. -/
theorem writable_task_fields_witness :
    buildUpdates sampleAlice.role
        [("title", .str "New title"), ("completedAt", .num 1), ("createdBy", .str "x"),
         ("_id", .str "y"), ("userId", .str "222222222222222222222222")] =
      [("title", .str "New title")] ∧
    "completedAt" ∉ (buildUpdates sampleAlice.role
        [("title", .str "New title"), ("completedAt", .num 1), ("createdBy", .str "x"),
         ("_id", .str "y"), ("userId", .str "222222222222222222222222")]).map Prod.fst :=
  ⟨by decide,
   (writable_task_fields sampleAlice).2.1 _ "completedAt" (by decide)⟩


end TaskFlow
